import Mathlib

/-! # ns_geo: points, reference points, point registries and reference lines

A shallow embedding of `include/point.hpp` and `src/include/line.hpp`.

* The scalar template parameter `_Ty` is a Lean type parameter `S`.
* `uint` ids are natural numbers; conversions into `uint` are written `% 2 ^ 32`.
* `std::unordered_map<uint, V>` is an association list with pairwise distinct keys;
  the order of the list stands for the (unspecified) iteration order of the map.
* Exceptions are values of `Exn`; operations that can throw return `Except Exn _`, and
  operations that can throw after changing the container return the container as well.
* A file is the list of its `char`s.
-/

namespace ns_geo

/-- The ways a call ends other than by returning: the exceptions the code throws itself (`std::ios_base::failure`) or lets escape from the
standard library (`std::invalid_argument` and `std::out_of_range` from `std::stoi`/`std::stod`,
`std::out_of_range` from `unordered_map::at`). -/
inductive Exn where
  | ios_failure
  | invalid_argument
  | out_of_range
  /-- Not an exception: the call left defined behaviour (an iterator was moved past the end of
  its string). -/
  | undefined_behaviour
  deriving DecidableEq, Repr

deriving instance DecidableEq for Except

/-! ## Point2, Point3 -/

/-- The class `Point2<_Ty>`: private fields `_x`, `_y`. -/
structure Point2 (S : Type) where
  x : S
  y : S
  deriving DecidableEq, Repr

/-- The class `Point3<_Ty>`: private fields `_x`, `_y`, `_z`. -/
structure Point3 (S : Type) where
  x : S
  y : S
  z : S
  deriving DecidableEq, Repr

/-- The method `Point2::transposed() const`: `self_type(this->_y, this->_x)`. -/
def Point2.transposed {S : Type} (p : Point2 S) : Point2 S :=
  Point2.mk p.y p.x

/-- The method `Point2::transpose()`: swaps `_x` and `_y` through a temporary; the result is the
receiver after the call. -/
def Point2.transpose {S : Type} (p : Point2 S) : Point2 S :=
  let temp := p.x
  let p1 := Point2.mk p.y p.y
  Point2.mk p1.x temp

/-! ## RefPoint2, RefPoint3 -/

/-- The class `RefPoint2<_Ty> : public Point2<_Ty>` with the private field `_id`. -/
structure RefPoint2 (S : Type) extends Point2 S where
  id : Nat
  deriving DecidableEq, Repr

/-- The class `RefPoint3<_Ty> : public Point3<_Ty>` with the private field `_id`. -/
structure RefPoint3 (S : Type) extends Point3 S where
  id : Nat
  deriving DecidableEq, Repr

/-- The constructor `RefPoint2(id_type id, value_type x, value_type y)`. -/
def RefPoint2.make {S : Type} (id : Nat) (x y : S) : RefPoint2 S :=
  RefPoint2.mk (Point2.mk x y) id

/-- The constructor `RefPoint3(id_type id, value_type x, value_type y, value_type z)`. -/
def RefPoint3.make {S : Type} (id : Nat) (x y z : S) : RefPoint3 S :=
  RefPoint3.mk (Point3.mk x y z) id

/-! ## std::unordered_map<uint, V> -/

/-- The keys of an association list. -/
def keysOf {V : Type} (es : List (Nat × V)) : List Nat :=
  es.map Prod.fst

/-- A `std::unordered_map<uint, V>`: its entries in iteration order, with pairwise distinct
keys. -/
structure UnorderedMap (V : Type) where
  entries : List (Nat × V)
  nodup : (keysOf entries).Nodup

namespace UnorderedMap

variable {V : Type}

instance [DecidableEq V] : DecidableEq (UnorderedMap V) := fun a b =>
  decidable_of_iff (a.entries = b.entries) (by cases a; cases b; simp)

instance [Repr V] : Repr (UnorderedMap V) where
  reprPrec m n := reprPrec m.entries n

/-- The default constructor: the empty map. -/
def empty : UnorderedMap V :=
  ⟨[], List.nodup_nil⟩

/-- The method `size()`. -/
def size (m : UnorderedMap V) : Nat :=
  m.entries.length

/-- The method `empty()` of the C++ class (a test, not the constructor). -/
def isEmpty (m : UnorderedMap V) : Bool :=
  m.entries.isEmpty

/-- Whether `k` is a key of the map (`count(k) != 0`). -/
def contains (m : UnorderedMap V) (k : Nat) : Bool :=
  (keysOf m.entries).contains k

/-- The entry stored under `k`, when there is one (`find(k)`). -/
def find (m : UnorderedMap V) (k : Nat) : Option V :=
  (m.entries.find? (fun e => e.1 == k)).map Prod.snd

/-- The method `at(k)`: the mapped value, or `std::out_of_range` when `k` is not a key. -/
def «at» (m : UnorderedMap V) (k : Nat) : Except Exn V :=
  match m.find k with
  | some v => Except.ok v
  | none => Except.error Exn.out_of_range

/-- The method `insert(const value_type&)` of `std::unordered_map`: a pair whose key is present
changes nothing and reports `false`; otherwise the pair is added and `true` is reported. The
returned iterator is not modelled. -/
def insert (m : UnorderedMap V) (kv : Nat × V) : UnorderedMap V × Bool :=
  if h : m.contains kv.1 = false then
    (⟨m.entries ++ [(kv.1, kv.2)], by
      have hk : kv.1 ∉ keysOf m.entries := by
        simpa [contains] using h
      simp only [keysOf, List.map_append, List.map_cons, List.map_nil]
      refine List.Nodup.append m.nodup (List.nodup_singleton kv.1) ?_
      intro a ha hb
      rw [List.mem_singleton] at hb
      exact hk (hb ▸ ha)⟩, true)
  else
    (m, false)

/-- The method `clear()`. -/
def clear (_m : UnorderedMap V) : UnorderedMap V :=
  empty

/-- The method `erase(const key_type&)`. -/
def erase (m : UnorderedMap V) (k : Nat) : UnorderedMap V :=
  ⟨m.entries.filter (fun e => e.1 != k), by
    have h := m.nodup
    unfold keysOf at h ⊢
    exact List.Nodup.sublist (List.Sublist.map _ (List.filter_sublist _)) h⟩

end UnorderedMap

/-! ## RefPointSet2, RefPointSet3: insert -/

/-- The class `RefPointSet2<_Ty> : public std::unordered_map<uint, RefPoint2<_Ty>>`. -/
abbrev RefPointSet2 (S : Type) := UnorderedMap (RefPoint2 S)

/-- The class `RefPointSet3<_Ty> : public std::unordered_map<uint, RefPoint3<_Ty>>`. -/
abbrev RefPointSet3 (S : Type) := UnorderedMap (RefPoint3 S)

/-- The method `RefPointSet2::insert(const refpoint_type &p)`:
`container_type::insert(std::make_pair(p.id(), p))`. -/
def RefPointSet2.insert {S : Type} (this : RefPointSet2 S) (p : RefPoint2 S) :
    RefPointSet2 S × Bool :=
  UnorderedMap.insert this (p.id, p)

/-- The method `RefPointSet3::insert(const refpoint_type &p)`:
`container_type::insert(std::make_pair(p.id(), p))`. -/
def RefPointSet3.insert {S : Type} (this : RefPointSet3 S) (p : RefPoint3 S) :
    RefPointSet3 S × Bool :=
  UnorderedMap.insert this (p.id, p)

/-! ## The standard library calls of the readers and writers -/

/-- What the code uses of the scalar type `_Ty`: value-initialisation (`resize`), `operator<<`
on an `ofstream` in its default state, and `static_cast<_Ty>(std::stod(s))`, which throws
`std::invalid_argument` or `std::out_of_range`. They are parameters of the model. -/
structure ValueType (S : Type) where
  zero : S
  put : S → List Char
  stod : List Char → Except Exn S

/-- The object representation of a record type `P` in one build: `sizeof(P)`, the bytes
`file.write((const char *)(&p), sizeof(P))` emits, and the object that
`file.read((char *)(&p), sizeof(P))` leaves in `p`. They are parameters of the model. -/
structure Layout (P : Type) where
  sizeof : Nat
  bytes : P → List Char
  load : List Char → P

/-- A `std::ifstream` that was opened: the characters not yet extracted and the `eofbit`. -/
structure IFStream where
  buf : List Char
  eofbit : Bool
  deriving DecidableEq, Repr

/-- The stream right after a successful open on a file with the given content. -/
def IFStream.opened (content : List Char) : IFStream :=
  ⟨content, false⟩

/-- The call `std::getline(file, str)`: the characters before the next newline are extracted
into `str` and the newline is dropped; when the input ends first, `eofbit` is set. -/
def getline (file : IFStream) : List Char × IFStream :=
  let str := file.buf.takeWhile (fun c => c != '\n')
  match file.buf.dropWhile (fun c => c != '\n') with
  | [] => (str, ⟨[], true⟩)
  | _ :: rest => (str, ⟨rest, false⟩)

/-- The call `file.read(buffer, n)`: `n` characters when that many are left; otherwise what is
left, and `eofbit` is set. -/
def IFStream.read (file : IFStream) (n : Nat) : List Char × IFStream :=
  if n ≤ file.buf.length then (file.buf.take n, ⟨file.buf.drop n, file.eofbit⟩)
  else (file.buf, ⟨[], true⟩)

/-- The call `std::find(first, str.cend(), c)` on positions of `str`: the position of the
first `c` at or after `first`, or `str.length` (the end iterator) when there is none. -/
def findFrom (str : List Char) (first : Nat) (c : Char) : Nat :=
  first + ((str.drop first).takeWhile (fun d => d != c)).length

/-- The constructor `std::string(first, last)` on positions of `str`. -/
def substr (str : List Char) (first last : Nat) : List Char :=
  (str.drop first).take (last - first)

/-- The step `++iter` on a position of `str`: moving an iterator that is already the end
iterator leaves defined behaviour. -/
def advance (str : List Char) (iter : Nat) : Except Exn Nat :=
  if iter < str.length then Except.ok (iter + 1) else Except.error Exn.undefined_behaviour

/-- The function `isspace` in the "C" locale. -/
def isspace (c : Char) : Bool :=
  c == ' ' || c == '\t' || c == '\n' || c == Char.ofNat 11 || c == Char.ofNat 12 || c == '\r'

/-- The function `isdigit`. -/
def isdigit (c : Char) : Bool :=
  decide ('0'.toNat ≤ c.toNat) && decide (c.toNat ≤ '9'.toNat)

/-- The value of a run of decimal digits, most significant first, continuing from `acc`. -/
def digitsValue (acc : Nat) (ds : List Char) : Nat :=
  ds.foldl (fun a c => 10 * a + (c.toNat - '0'.toNat)) acc

/-- The digits that follow an optional sign, and whether the sign was a minus. -/
def splitSign (s : List Char) : Bool × List Char :=
  match s with
  | '-' :: rest => (true, rest)
  | '+' :: rest => (false, rest)
  | _ => (false, s)

/-- The integer that `strtol(s, &end, 10)` converts: leading white space is skipped, a sign is
optional, then comes the longest run of digits; what follows the digits is not looked at.
`none` when there is no digit (no conversion). -/
def scanInt (s : List Char) : Option Int :=
  let signed := splitSign (s.dropWhile isspace)
  let ds := signed.2.takeWhile isdigit
  if ds.isEmpty then none
  else
    let v : Int := Int.ofNat (digitsValue 0 ds)
    some (if signed.1 then -v else v)

/-- The call `std::stoi(s)`: `std::invalid_argument` when nothing converts, `std::out_of_range`
when the value is not an `int` (32 bits). -/
def stoi (s : List Char) : Except Exn Int :=
  match scanInt s with
  | none => Except.error Exn.invalid_argument
  | some v =>
    if v < -(2 ^ 31 : Int) ∨ (2 ^ 31 : Int) ≤ v then Except.error Exn.out_of_range
    else Except.ok v

/-- Whether `s` starts with the letters `w`, given in lower case, in either case. -/
def startsWithLetters : List Char → List Char → Bool
  | [], _ => true
  | _ :: _, [] => false
  | a :: w, c :: s => (c.toLower == a) && startsWithLetters w s

/-- Whether a number that `strtol` converts starts at `s`, the characters after the white space
and the sign: a digit. -/
def startsInteger (s : List Char) : Bool :=
  match s with
  | [] => false
  | c :: _ => isdigit c

/-- Whether a number that `strtod` converts starts at `s`, the characters after the white space
and the sign: a digit, a point followed by a digit, or the letters `inf` or `nan`. -/
def startsNumber (s : List Char) : Bool :=
  match s with
  | [] => false
  | c :: rest =>
    isdigit c || (c == '.' && startsInteger rest) || startsWithLetters "inf".toList s ||
      startsWithLetters "nan".toList s

/-- A field in which `std::stoi` finds no number: after the white space and an optional sign
there is nothing, or a character that is not a digit. -/
def NoInteger (s : List Char) : Prop :=
  startsInteger (splitSign (s.dropWhile isspace)).2 = false

/-- A field in which `std::stod` finds no number: after the white space and an optional sign
there is nothing, or characters that do not start a number. -/
def NoNumber (s : List Char) : Prop :=
  startsNumber (splitSign (s.dropWhile isspace)).2 = false

instance (s : List Char) : Decidable (NoInteger s) := by
  unfold NoInteger
  infer_instance

instance (s : List Char) : Decidable (NoNumber s) := by
  unfold NoNumber
  infer_instance

/-- The fields that a text reader looking for `separators` commas finds in a line: the text
before each of the first commas, then the rest of the line; a line with fewer commas has fewer
fields. -/
def fieldsOf : Nat → List Char → List (List Char)
  | 0, str => [str]
  | separators + 1, str =>
    if ',' ∈ str then
      str.takeWhile (fun c => c != ',') ::
        fieldsOf separators ((str.dropWhile (fun c => c != ',')).drop 1)
    else [str]

/-- The guarantee of `std::stod` that the text readers rely on for a coordinate: when the field
holds no number, no conversion is performed and `std::invalid_argument` is thrown. -/
def ValueType.RejectsNonNumbers {S : Type} (vt : ValueType S) : Prop :=
  ∀ s, NoNumber s → vt.stod s = Except.error Exn.invalid_argument

/-- The conversion `static_cast<uint>(i)` of an `int`. -/
def toUInt (i : Int) : Nat :=
  (i % (2 ^ 32 : Int)).toNat

/-- The output of `file << id` for a `uint`: its decimal digits. -/
def putUInt (id : Nat) : List Char :=
  Nat.toDigits 10 id

/-- A scalar type for examples, a signed integer type: `operator<<` prints the decimal digits
after a minus sign for a negative value, and the value read back from a token is the integer
that starts it (white space, an optional sign, digits); a fraction or exponent part after the
digits is not interpreted. -/
def intValueType : ValueType Int where
  zero := 0
  put := fun v => if v < 0 then '-' :: Nat.toDigits 10 v.natAbs else Nat.toDigits 10 v.natAbs
  stod := fun s =>
    match scanInt s with
    | none => Except.error Exn.invalid_argument
    | some v => Except.ok v

/-- A record layout for examples: one character per record, holding the low bits of the
x coordinate. -/
def sampleLayout2 : Layout (Point2 Int) where
  sizeof := 1
  bytes := fun p => [Char.ofNat (p.x.toNat % 128)]
  load := fun bs => Point2.mk (Int.ofNat (bs.headD 'a').toNat) 0

/-- A record layout for examples: two characters per record, the id and the x coordinate. -/
def sampleRefLayout2 : Layout (RefPoint2 Int) where
  sizeof := 2
  bytes := fun p => [Char.ofNat (p.id % 128), Char.ofNat (p.x.toNat % 128)]
  load := fun bs => RefPoint2.make (bs.headD 'a').toNat (Int.ofNat (bs.getD 1 'a').toNat) 0

/-- A record layout for examples: one character per record, holding the low bits of the
x coordinate. -/
def sampleLayout3 : Layout (Point3 Int) where
  sizeof := 1
  bytes := fun p => [Char.ofNat (p.x.toNat % 128)]
  load := fun bs => Point3.mk (Int.ofNat (bs.headD 'a').toNat) 0 0

/-- A record layout for examples: two characters per record, the id and the x coordinate. -/
def sampleRefLayout3 : Layout (RefPoint3 Int) where
  sizeof := 2
  bytes := fun p => [Char.ofNat (p.id % 128), Char.ofNat (p.x.toNat % 128)]
  load := fun bs => RefPoint3.make (bs.headD 'a').toNat (Int.ofNat (bs.getD 1 'a').toNat) 0 0

/-- How a call that may change its container ended: the container after the call, and the
exception that escaped, if one did. -/
structure Ran (C : Type) where
  container : C
  thrown : Option Exn
  deriving DecidableEq, Repr

/-! ## PointSet2, PointSet3 -/

/-- The class `PointSet2<_Ty> : public std::vector<Point2<_Ty>>`. -/
abbrev PointSet2 (S : Type) := List (Point2 S)

/-- The class `PointSet3<_Ty> : public std::vector<Point3<_Ty>>`. -/
abbrev PointSet3 (S : Type) := List (Point3 S)

/-- The method `std::vector::resize(n)`: the first `n` elements, filled up with
value-initialised ones. -/
def resize {P : Type} (v : List P) (n : Nat) (init : P) : List P :=
  v.take n ++ List.replicate (n - v.length) init

/-- The method `PointSet2::write(filePath, mode)`, on whether the target could be opened and
whether `mode` has `std::ios::binary`: the content written to the file. -/
def PointSet2.write {S : Type} (vt : ValueType S) (lay : Layout (Point2 S))
    (this : PointSet2 S) (is_open : Bool) (binary : Bool) : Except Exn (List Char) :=
  if !is_open then Except.error Exn.ios_failure
  else if binary then
    Except.ok (this.flatMap (fun p => lay.bytes p))
  else
    Except.ok (this.flatMap (fun point => vt.put point.x ++ [','] ++ vt.put point.y ++ ['\n']))

/-- The method `PointSet3::write(filePath, mode)`. -/
def PointSet3.write {S : Type} (vt : ValueType S) (lay : Layout (Point3 S))
    (this : PointSet3 S) (is_open : Bool) (binary : Bool) : Except Exn (List Char) :=
  if !is_open then Except.error Exn.ios_failure
  else if binary then
    Except.ok (this.flatMap (fun p => lay.bytes p))
  else
    Except.ok (this.flatMap (fun point =>
      vt.put point.x ++ [','] ++ vt.put point.y ++ [','] ++ vt.put point.z ++ ['\n']))

/-- The body of the text loop of `PointSet2::read` for one non-empty line `str`
(point.hpp 328-330): the point that is pushed back. -/
def PointSet2.parseLine {S : Type} (vt : ValueType S) (str : List Char) :
    Except Exn (Point2 S) := do
  let iter := findFrom str 0 ','
  let x ← vt.stod (substr str 0 iter)
  let iter ← advance str iter
  let y ← vt.stod (substr str iter str.length)
  pure (Point2.mk x y)

/-- The body of the text loop of `PointSet3::read` for one non-empty line `str`
(point.hpp 440-444). -/
def PointSet3.parseLine {S : Type} (vt : ValueType S) (str : List Char) :
    Except Exn (Point3 S) := do
  let iter := findFrom str 0 ','
  let x ← vt.stod (substr str 0 iter)
  let iter ← advance str iter
  let iter2 := findFrom str iter ','
  let y ← vt.stod (substr str iter iter2)
  let iter2 ← advance str iter2
  let z ← vt.stod (substr str iter2 str.length)
  pure (Point3.mk x y z)

/-- The text loop that the four `read` methods share,
`while (!file.eof()) { std::getline(file, str); if (str.empty()) continue; body }`, where the
body parses the line (`parseLine`) and adds the record to the container (`push`); an exception
of the body ends the call with the container as it is. The fuel bounds the number of
iterations: `none` when it runs out before the loop ends. -/
def textLoop {P C : Type} (parseLine : List Char → Except Exn P) (push : C → P → C) :
    Nat → IFStream → C → Option (Ran C)
  | 0, file, this => if file.eofbit then some ⟨this, none⟩ else none
  | fuel + 1, file, this =>
    if file.eofbit then some ⟨this, none⟩
    else
      let got := getline file
      if got.1.isEmpty then textLoop parseLine push fuel got.2 this
      else
        match parseLine got.1 with
        | Except.error e => some ⟨this, some e⟩
        | Except.ok record => textLoop parseLine push fuel got.2 (push this record)

/-- The binary loop that the four `read` methods share,
`while (!file.eof() && count < size) { file.read((char *)(&p), sizeof(p)); body; ++count; }`,
where the body stores the record in the container (`store`). The counter `int count` is a
natural number here, which agrees with the code while the file holds fewer than `2 ^ 31`
records. The fuel bounds the number of iterations: `none` when it runs out before the loop
ends. -/
def binaryLoop {P C : Type} (lay : Layout P) (store : C → Nat → P → Except Exn C) (size : Nat) :
    Nat → IFStream → Nat → C → Option (Ran C)
  | 0, file, count, this =>
    if !file.eofbit && decide (count < size) then none else some ⟨this, none⟩
  | fuel + 1, file, count, this =>
    if !file.eofbit && decide (count < size) then
      let got := file.read lay.sizeof
      match store this count (lay.load got.1) with
      | Except.error e => some ⟨this, some e⟩
      | Except.ok next => binaryLoop lay store size fuel got.2 (count + 1) next
    else some ⟨this, none⟩

/-- The statement `this->push_back(point)`. -/
def push_back {P : Type} (this : List P) (point : P) : List P :=
  this ++ [point]

/-- The statement `this->at(count) = p` on a `std::vector`: `std::out_of_range` when `count` is
not an index. -/
def assignAt {P : Type} (this : List P) (count : Nat) (p : P) : Except Exn (List P) :=
  if count < this.length then Except.ok (this.set count p) else Except.error Exn.out_of_range

/-- The text branch of `PointSet2::read` (point.hpp 322-332). -/
def PointSet2.readText {S : Type} (vt : ValueType S) (fuel : Nat) (file : IFStream)
    (this : PointSet2 S) : Option (Ran (PointSet2 S)) :=
  textLoop (PointSet2.parseLine vt) push_back fuel file this

/-- The text branch of `PointSet3::read` (point.hpp 434-446). -/
def PointSet3.readText {S : Type} (vt : ValueType S) (fuel : Nat) (file : IFStream)
    (this : PointSet3 S) : Option (Ran (PointSet3 S)) :=
  textLoop (PointSet3.parseLine vt) push_back fuel file this

/-- The loop of the binary branch of `PointSet2::read` (point.hpp 315-320). -/
def PointSet2.readBinary {S : Type} (lay : Layout (Point2 S)) (size : Nat) (fuel : Nat)
    (file : IFStream) (count : Nat) (this : PointSet2 S) : Option (Ran (PointSet2 S)) :=
  binaryLoop lay assignAt size fuel file count this

/-- The loop of the binary branch of `PointSet3::read` (point.hpp 423-432). -/
def PointSet3.readBinary {S : Type} (lay : Layout (Point3 S)) (size : Nat) (fuel : Nat)
    (file : IFStream) (count : Nat) (this : PointSet3 S) : Option (Ran (PointSet3 S)) :=
  binaryLoop lay assignAt size fuel file count this

/-- The method `PointSet2::read(filePath, mode)`, on the content of the file at `filePath`
(`none` when it cannot be opened) and on whether `mode` has `std::ios::binary`. The text loop
gets one iteration per character of the file and one more, the binary loop one per record. -/
def PointSet2.read {S : Type} (vt : ValueType S) (lay : Layout (Point2 S))
    (this : PointSet2 S) (file : Option (List Char)) (binary : Bool) :
    Option (Ran (PointSet2 S)) :=
  match file with
  | none => some ⟨this, some Exn.ios_failure⟩
  | some content =>
    if binary then
      let size := content.length / lay.sizeof
      let cleared := if !this.isEmpty then [] else this
      let resized := resize cleared size (Point2.mk vt.zero vt.zero)
      PointSet2.readBinary lay size size (IFStream.opened content) 0 resized
    else
      PointSet2.readText vt (content.length + 1) (IFStream.opened content) this

/-- The method `PointSet3::read(filePath, mode)`. -/
def PointSet3.read {S : Type} (vt : ValueType S) (lay : Layout (Point3 S))
    (this : PointSet3 S) (file : Option (List Char)) (binary : Bool) :
    Option (Ran (PointSet3 S)) :=
  match file with
  | none => some ⟨this, some Exn.ios_failure⟩
  | some content =>
    if binary then
      let size := content.length / lay.sizeof
      let cleared := if !this.isEmpty then [] else this
      let resized := resize cleared size (Point3.mk vt.zero vt.zero vt.zero)
      PointSet3.readBinary lay size size (IFStream.opened content) 0 resized
    else
      PointSet3.readText vt (content.length + 1) (IFStream.opened content) this

/-! ## RefPointSet2, RefPointSet3: write, read, randomGenerator -/

/-- The method `RefPointSet2::write(filePath, mode)`; the text branch prints the key `id` of
each entry, then the coordinates of its reference point. -/
def RefPointSet2.write {S : Type} (vt : ValueType S) (lay : Layout (RefPoint2 S))
    (this : RefPointSet2 S) (is_open : Bool) (binary : Bool) : Except Exn (List Char) :=
  if !is_open then Except.error Exn.ios_failure
  else if binary then
    Except.ok (this.entries.flatMap (fun e => lay.bytes e.2))
  else
    Except.ok (this.entries.flatMap (fun e =>
      putUInt e.1 ++ [','] ++ vt.put e.2.x ++ [','] ++ vt.put e.2.y ++ ['\n']))

/-- The method `RefPointSet3::write(filePath, mode)`; the text branch prints `refp.id()` of
each entry, then its coordinates. -/
def RefPointSet3.write {S : Type} (vt : ValueType S) (lay : Layout (RefPoint3 S))
    (this : RefPointSet3 S) (is_open : Bool) (binary : Bool) : Except Exn (List Char) :=
  if !is_open then Except.error Exn.ios_failure
  else if binary then
    Except.ok (this.entries.flatMap (fun e => lay.bytes e.2))
  else
    Except.ok (this.entries.flatMap (fun e =>
      putUInt e.2.id ++ [','] ++ vt.put e.2.x ++ [','] ++ vt.put e.2.y ++ [','] ++
        vt.put e.2.z ++ ['\n']))

/-- The body of the text loop of `RefPointSet2::read` for one non-empty line `str`
(point.hpp 651-656): the reference point that is inserted. -/
def RefPointSet2.parseLine {S : Type} (vt : ValueType S) (str : List Char) :
    Except Exn (RefPoint2 S) := do
  let iter := findFrom str 0 ','
  let id ← stoi (substr str 0 iter)
  let iter ← advance str iter
  let iter2 := findFrom str iter ','
  let x ← vt.stod (substr str iter iter2)
  let iter2 ← advance str iter2
  let y ← vt.stod (substr str iter2 str.length)
  pure (RefPoint2.make (toUInt id) x y)

/-- The body of the text loop of `RefPointSet3::read` for one non-empty line `str`
(point.hpp 837-843). -/
def RefPointSet3.parseLine {S : Type} (vt : ValueType S) (str : List Char) :
    Except Exn (RefPoint3 S) := do
  let iter := findFrom str 0 ','
  let id ← stoi (substr str 0 iter)
  let iter ← advance str iter
  let iter2 := findFrom str iter ','
  let x ← vt.stod (substr str iter iter2)
  let iter2 ← advance str iter2
  let iter3 := findFrom str iter2 ','
  let y ← vt.stod (substr str iter2 iter3)
  let iter3 ← advance str iter3
  let z ← vt.stod (substr str iter3 str.length)
  pure (RefPoint3.make (toUInt id) x y z)

/-- The text branch of `RefPointSet2::read` (point.hpp 645-658): every non-empty line is
parsed and inserted. -/
def RefPointSet2.readText {S : Type} (vt : ValueType S) (fuel : Nat) (file : IFStream)
    (this : RefPointSet2 S) : Option (Ran (RefPointSet2 S)) :=
  textLoop (RefPointSet2.parseLine vt) (fun c refp => (RefPointSet2.insert c refp).1)
    fuel file this

/-- The text branch of `RefPointSet3::read` (point.hpp 831-845). -/
def RefPointSet3.readText {S : Type} (vt : ValueType S) (fuel : Nat) (file : IFStream)
    (this : RefPointSet3 S) : Option (Ran (RefPointSet3 S)) :=
  textLoop (RefPointSet3.parseLine vt) (fun c refp => (RefPointSet3.insert c refp).1)
    fuel file this

/-- The loop of the binary branch of `RefPointSet2::read` (point.hpp 638-643): every record is
inserted. -/
def RefPointSet2.readBinary {S : Type} (lay : Layout (RefPoint2 S)) (size : Nat) (fuel : Nat)
    (file : IFStream) (count : Nat) (this : RefPointSet2 S) : Option (Ran (RefPointSet2 S)) :=
  binaryLoop lay (fun c _ refp => Except.ok (RefPointSet2.insert c refp).1)
    size fuel file count this

/-- The loop of the binary branch of `RefPointSet3::read` (point.hpp 824-829). -/
def RefPointSet3.readBinary {S : Type} (lay : Layout (RefPoint3 S)) (size : Nat) (fuel : Nat)
    (file : IFStream) (count : Nat) (this : RefPointSet3 S) : Option (Ran (RefPointSet3 S)) :=
  binaryLoop lay (fun c _ refp => Except.ok (RefPointSet3.insert c refp).1)
    size fuel file count this

/-- The method `RefPointSet2::read(filePath, mode)`, on the content of the file at `filePath`
(`none` when it cannot be opened) and on whether `mode` has `std::ios::binary`. The text loop
gets one iteration per character of the file and one more, the binary loop one per record. -/
def RefPointSet2.read {S : Type} (vt : ValueType S) (lay : Layout (RefPoint2 S))
    (this : RefPointSet2 S) (file : Option (List Char)) (binary : Bool) :
    Option (Ran (RefPointSet2 S)) :=
  match file with
  | none => some ⟨this, some Exn.ios_failure⟩
  | some content =>
    if binary then
      let size := content.length / lay.sizeof
      let cleared := if !this.isEmpty then this.clear else this
      RefPointSet2.readBinary lay size size (IFStream.opened content) 0 cleared
    else
      RefPointSet2.readText vt (content.length + 1) (IFStream.opened content) this

/-- The method `RefPointSet3::read(filePath, mode)`. -/
def RefPointSet3.read {S : Type} (vt : ValueType S) (lay : Layout (RefPoint3 S))
    (this : RefPointSet3 S) (file : Option (List Char)) (binary : Bool) :
    Option (Ran (RefPointSet3 S)) :=
  match file with
  | none => some ⟨this, some Exn.ios_failure⟩
  | some content =>
    if binary then
      let size := content.length / lay.sizeof
      let cleared := if !this.isEmpty then this.clear else this
      RefPointSet3.readBinary lay size size (IFStream.opened content) 0 cleared
    else
      RefPointSet3.readText vt (content.length + 1) (IFStream.opened content) this

/-- The test `slor == nullptr || slor(p)` of the generators. -/
def accepts {P : Type} (slor : Option (P → Bool)) (p : P) : Bool :=
  match slor with
  | none => true
  | some f => f p

/-- The loop of `RefPointSet2::randomGenerator` (point.hpp 738-742), `while (count != num)`.
`u_x k` and `u_y k` are the values `static_cast<_Ty>(u_x(engine))` and
`static_cast<_Ty>(u_y(engine))` of the candidate drawn in iteration `k` of the loop. The
counter `int count` is a natural number here (the code agrees while `num < 2 ^ 31`). The fuel
bounds the number of iterations: `none` when it runs out before the loop ends. -/
def RefPointSet2.generate {S : Type} (u_x u_y : Nat → S) (slor : Option (RefPoint2 S → Bool))
    (num : Nat) : Nat → Nat → Nat → RefPointSet2 S → Option (RefPointSet2 S)
  | 0, _, count, ps => if count = num then some ps else none
  | fuel + 1, k, count, ps =>
    if count = num then some ps
    else
      let p := RefPoint2.make count (u_x k) (u_y k)
      if accepts slor p then
        RefPointSet2.generate u_x u_y slor num fuel (k + 1) (count + 1) (RefPointSet2.insert ps p).1
      else
        RefPointSet2.generate u_x u_y slor num fuel (k + 1) count ps

/-- The static method `RefPointSet2::randomGenerator(num, x_min, x_max, y_min, y_max, slor)`;
the ranges enter through the draws `u_x`, `u_y`. -/
def RefPointSet2.randomGenerator {S : Type} (num : Nat) (u_x u_y : Nat → S)
    (slor : Option (RefPoint2 S → Bool)) (fuel : Nat) : Option (RefPointSet2 S) :=
  RefPointSet2.generate u_x u_y slor num fuel 0 0 UnorderedMap.empty

/-! ## RefLine2, RefLine3 -/

/-- The class `RefLine2<_Ty>`: the two ids and the pointer `_rps` to the registry, an address
in a store of registries. -/
structure RefLine2 where
  pid1 : Nat
  pid2 : Nat
  rps : Nat
  deriving DecidableEq, Repr

/-- The class `RefLine3<_Ty>`: the two ids and the pointer `_rps` to the registry. -/
structure RefLine3 where
  pid1 : Nat
  pid2 : Nat
  rps : Nat
  deriving DecidableEq, Repr

/-- The method `RefPointSet2::createRefLine2(pid1, pid2)` of the registry at address `this`:
`RefLine2<value_type>(pid1, pid2, this)`. -/
def RefPointSet2.createRefLine2 (this : Nat) (pid1 pid2 : Nat) : RefLine2 :=
  RefLine2.mk pid1 pid2 this

/-- The method `RefPointSet3::createRefLine3(pid1, pid2)` of the registry at address `this`. -/
def RefPointSet3.createRefLine3 (this : Nat) (pid1 pid2 : Nat) : RefLine3 :=
  RefLine3.mk pid1 pid2 this

namespace RefLine2

/-- The method `RefLine2::refPointSet()`. -/
def refPointSet (this : RefLine2) : Nat :=
  this.rps

/-- The method `RefLine2::p1()`: `this->_rps->at(this->_pid1)`, in a store that gives the
registry at each address. -/
def p1 {S : Type} (store : Nat → RefPointSet2 S) (this : RefLine2) : Except Exn (RefPoint2 S) :=
  (store this.rps).«at» this.pid1

/-- The method `RefLine2::p2()`: `this->_rps->at(this->_pid2)`. -/
def p2 {S : Type} (store : Nat → RefPointSet2 S) (this : RefLine2) : Except Exn (RefPoint2 S) :=
  (store this.rps).«at» this.pid2

/-- The method `RefLine2::reverse()`: swaps `_pid1` and `_pid2` through a temporary; the result
is the receiver after the call. -/
def reverse (this : RefLine2) : RefLine2 :=
  let temp := this.pid1
  let this1 := RefLine2.mk this.pid2 this.pid2 this.rps
  RefLine2.mk this1.pid1 temp this1.rps

/-- The method `RefLine2::reversed() const`: `self_type(_pid2, _pid1, _rps)`. -/
def reversed (this : RefLine2) : RefLine2 :=
  RefLine2.mk this.pid2 this.pid1 this.rps

end RefLine2

namespace RefLine3

/-- The method `RefLine3::refPointSet()`. -/
def refPointSet (this : RefLine3) : Nat :=
  this.rps

/-- The method `RefLine3::p1()`: `this->_rps->at(this->_pid1)`. -/
def p1 {S : Type} (store : Nat → RefPointSet3 S) (this : RefLine3) : Except Exn (RefPoint3 S) :=
  (store this.rps).«at» this.pid1

/-- The method `RefLine3::p2()`: `this->_rps->at(this->_pid2)`. -/
def p2 {S : Type} (store : Nat → RefPointSet3 S) (this : RefLine3) : Except Exn (RefPoint3 S) :=
  (store this.rps).«at» this.pid2

/-- The method `RefLine3::reverse()`. -/
def reverse (this : RefLine3) : RefLine3 :=
  let temp := this.pid1
  let this1 := RefLine3.mk this.pid2 this.pid2 this.rps
  RefLine3.mk this1.pid1 temp this1.rps

/-- The method `RefLine3::reversed() const`: `self_type(_pid2, _pid1, _rps)`. -/
def reversed (this : RefLine3) : RefLine3 :=
  RefLine3.mk this.pid2 this.pid1 this.rps

end RefLine3

/-- The store after the object at address `a` was given the value `r`. -/
def storeAt {C : Type} (store : Nat → C) (a : Nat) (r : C) : Nat → C :=
  fun b => if b = a then r else store b

/-! ## The registry invariant and sequences of calls -/

/-- The invariant of a 2D registry: the entry under key `k` holds a reference point whose own
id is `k`. -/
def KeyIsId2 {S : Type} (R : RefPointSet2 S) : Prop :=
  ∀ e ∈ R.entries, e.2.id = e.1

/-- The invariant of a 3D registry: the entry under key `k` holds a reference point whose own
id is `k`. -/
def KeyIsId3 {S : Type} (R : RefPointSet3 S) : Prop :=
  ∀ e ∈ R.entries, e.2.id = e.1

instance {S : Type} (R : RefPointSet2 S) : Decidable (KeyIsId2 R) := by
  unfold KeyIsId2
  infer_instance

instance {S : Type} (R : RefPointSet3 S) : Decidable (KeyIsId3 R) := by
  unfold KeyIsId3
  infer_instance

/-- A call that populates a 2D registry: `insert(p)`, `read(path, text mode)`,
`read(path, binary mode)` (with the content of the file at `path`, `none` when it cannot be
opened), or the assignment of `randomGenerator(num, ...)` to the registry. -/
inductive RegistryCall (S : Type) where
  | insert (p : RefPoint2 S)
  | readText (file : Option (List Char))
  | readBinary (file : Option (List Char))
  | randomGenerator (num : Nat) (u_x u_y : Nat → S) (slor : Option (RefPoint2 S → Bool))
      (fuel : Nat)

/-- The registry after one call; for a `read` that throws, this is the registry as the
exception leaves it. `none` when the call does not return within its fuel. -/
def RegistryCall.run {S : Type} (vt : ValueType S) (lay : Layout (RefPoint2 S))
    (R : RefPointSet2 S) : RegistryCall S → Option (RefPointSet2 S)
  | RegistryCall.insert p => some (RefPointSet2.insert R p).1
  | RegistryCall.readText file => (RefPointSet2.read vt lay R file false).map Ran.container
  | RegistryCall.readBinary file => (RefPointSet2.read vt lay R file true).map Ran.container
  | RegistryCall.randomGenerator num u_x u_y slor fuel =>
    RefPointSet2.randomGenerator num u_x u_y slor fuel

/-- The registry after a sequence of calls, first call first. -/
def runCalls {S : Type} (vt : ValueType S) (lay : Layout (RefPoint2 S)) :
    List (RegistryCall S) → RefPointSet2 S → Option (RefPointSet2 S)
  | [], R => some R
  | call :: calls, R =>
    match call.run vt lay R with
    | none => none
    | some next => runCalls vt lay calls next

/-- The records that a binary file holds for a layout: record `i` is loaded from the
characters `[i * sizeof, i * sizeof + sizeof)`, for `i` below `length / sizeof`. -/
def recordsOf {P : Type} (lay : Layout P) (content : List Char) : List P :=
  (List.range (content.length / lay.sizeof)).map
    (fun i => lay.load (substr content (i * lay.sizeof) (i * lay.sizeof + lay.sizeof)))

/-- A coordinate is representable in the text encoding: what `operator<<` prints for it has no
comma and no newline, and `std::stod` followed by the cast reads the same value back from it. -/
def Representable {S : Type} (vt : ValueType S) (v : S) : Prop :=
  vt.stod (vt.put v) = Except.ok v ∧ ',' ∉ vt.put v ∧ '\n' ∉ vt.put v

instance {S : Type} [DecidableEq S] (vt : ValueType S) (v : S) :
    Decidable (Representable vt v) := by
  unfold Representable
  infer_instance

/-! ## The lines of a text file -/

/-- The strings that successive `std::getline` calls return on a stream that still holds the
given characters, up to and including the call that sets `eofbit`. -/
def linesOf : List Char → List (List Char)
  | [] => [[]]
  | c :: cs =>
    if c = '\n' then [] :: linesOf cs
    else
      match linesOf cs with
      | [] => [[c]]
      | l :: ls => (c :: l) :: ls

/-- The body of the text loop applied to a list of lines, first line first: an empty line is
skipped, a line whose parse throws ends the run with the container as it is. -/
def runLines {P C : Type} (parseLine : List Char → Except Exn P) (push : C → P → C) :
    List (List Char) → C → Ran C
  | [], this => ⟨this, none⟩
  | str :: rest, this =>
    if str.isEmpty then runLines parseLine push rest this
    else
      match parseLine str with
      | Except.error e => ⟨this, some e⟩
      | Except.ok record => runLines parseLine push rest (push this record)

/-- The records of the non-empty lines that parse, in line order. -/
def parsedRecords {P : Type} (parseLine : List Char → Except Exn P)
    (lines : List (List Char)) : List P :=
  lines.filterMap (fun str =>
    if str.isEmpty then none
    else
      match parseLine str with
      | Except.error _ => none
      | Except.ok record => some record)

/-- A list of lines is well formed for a parser when each of its non-empty lines parses. -/
def WellFormed {P : Type} (parseLine : List Char → Except Exn P)
    (lines : List (List Char)) : Prop :=
  ∀ str ∈ lines, str ≠ [] → ∃ record, parseLine str = Except.ok record

instance {P : Type} (parseLine : List Char → Except Exn P) (lines : List (List Char)) :
    Decidable (WellFormed parseLine lines) :=
  decidable_of_iff (∀ str ∈ lines, str ≠ [] → (parseLine str).toBool = true) (by
    unfold WellFormed
    constructor
    · intro h str hs hne
      have := h str hs hne
      cases hp : parseLine str with
      | error e => rw [hp] at this; cases this
      | ok record => exact ⟨record, rfl⟩
    · intro h str hs hne
      obtain ⟨record, hr⟩ := h str hs hne
      rw [hr]
      rfl)

/-! ## The other generators -/

/-- The loop of `PointSet2::randomGenerator` (point.hpp 355-359), `while (count != num)`, with
`ps.at(count++) = p` for an accepted candidate. `u_x k` and `u_y k` are the values
`static_cast<_Ty>(u_x(engine))` and `static_cast<_Ty>(u_y(engine))` of the candidate drawn in
iteration `k`. The counter `int count` is a natural number here (the code agrees while
`num < 2 ^ 31`). `none` when the fuel runs out before the loop ends. -/
def PointSet2.generate {S : Type} (u_x u_y : Nat → S) (slor : Option (Point2 S → Bool))
    (num : Nat) : Nat → Nat → Nat → PointSet2 S → Option (Except Exn (PointSet2 S))
  | 0, _, count, ps => if count = num then some (Except.ok ps) else none
  | fuel + 1, k, count, ps =>
    if count = num then some (Except.ok ps)
    else
      let p := Point2.mk (u_x k) (u_y k)
      if accepts slor p then
        match assignAt ps count p with
        | Except.error e => some (Except.error e)
        | Except.ok next => PointSet2.generate u_x u_y slor num fuel (k + 1) (count + 1) next
      else
        PointSet2.generate u_x u_y slor num fuel (k + 1) count ps

/-- The static method `PointSet2::randomGenerator(num, x_min, x_max, y_min, y_max, slor)`:
the loop starts from `self_type ps(num)`, `num` value-initialised points; the ranges enter
through the draws `u_x`, `u_y`. -/
def PointSet2.randomGenerator {S : Type} (vt : ValueType S) (num : Nat) (u_x u_y : Nat → S)
    (slor : Option (Point2 S → Bool)) (fuel : Nat) : Option (Except Exn (PointSet2 S)) :=
  PointSet2.generate u_x u_y slor num fuel 0 0
    (List.replicate num (Point2.mk vt.zero vt.zero))

/-- The loop of `RefPointSet3::randomGenerator` (point.hpp 912-919), `while (count != num)`.
The counter `int count` is a natural number here (the code agrees while `num < 2 ^ 31`).
`none` when the fuel runs out before the loop ends. -/
def RefPointSet3.generate {S : Type} (u_x u_y u_z : Nat → S)
    (slor : Option (RefPoint3 S → Bool)) (num : Nat) :
    Nat → Nat → Nat → RefPointSet3 S → Option (RefPointSet3 S)
  | 0, _, count, ps => if count = num then some ps else none
  | fuel + 1, k, count, ps =>
    if count = num then some ps
    else
      let p := RefPoint3.make count (u_x k) (u_y k) (u_z k)
      if accepts slor p then
        RefPointSet3.generate u_x u_y u_z slor num fuel (k + 1) (count + 1)
          (RefPointSet3.insert ps p).1
      else
        RefPointSet3.generate u_x u_y u_z slor num fuel (k + 1) count ps

/-- The static method
`RefPointSet3::randomGenerator(num, x_min, x_max, y_min, y_max, z_min, z_max, slor)`; the
ranges enter through the draws `u_x`, `u_y`, `u_z`. -/
def RefPointSet3.randomGenerator {S : Type} (num : Nat) (u_x u_y u_z : Nat → S)
    (slor : Option (RefPoint3 S → Bool)) (fuel : Nat) : Option (RefPointSet3 S) :=
  RefPointSet3.generate u_x u_y u_z slor num fuel 0 0 UnorderedMap.empty

/-- The loop of the two registry generators with the reference point type left open: `mk count
k` is the candidate of iteration `k` when `count` points were accepted, `key` its id. -/
def generateLoop {V : Type} (mk : Nat → Nat → V) (key : V → Nat) (slor : Option (V → Bool))
    (num : Nat) : Nat → Nat → Nat → UnorderedMap V → Option (UnorderedMap V)
  | 0, _, count, ps => if count = num then some ps else none
  | fuel + 1, k, count, ps =>
    if count = num then some ps
    else
      if accepts slor (mk count k) then
        generateLoop mk key slor num fuel (k + 1) (count + 1)
          (ps.insert (key (mk count k), mk count k)).1
      else
        generateLoop mk key slor num fuel (k + 1) count ps

/-! ## The sampler of the generators -/

/-- What the generators use of `<random>` and of the conversions of the scalar type `_Ty`; `F`
stands for `double`, the result type of `std::uniform_real_distribution<>`. `toFloat v` is
`static_cast<float>(v)`, as the constructor of the distribution receives it; `draw axis a b k`
is the value `u(engine)` that the distribution of the given axis, constructed with the
parameters `a` and `b`, returns in iteration `k` of the loop; `ofDouble d` is
`static_cast<_Ty>(d)`. They are parameters of the model. -/
structure Sampler (S F : Type) where
  toFloat : S → F
  draw : Nat → F → F → Nat → F
  ofDouble : F → S

/-- The coordinate `static_cast<_Ty>(u(engine))` of the candidate of iteration `k`, where `u` is
`std::uniform_real_distribution<> u(static_cast<float>(lo), static_cast<float>(hi))`
(point.hpp 351-352 and 356). -/
def Sampler.coordinate {S F : Type} (sm : Sampler S F) (axis : Nat) (lo hi : S) (k : Nat) : S :=
  sm.ofDouble (sm.draw axis (sm.toFloat lo) (sm.toFloat hi) k)

/-- A bound of a range as the generator uses it: cast to `float` for the distribution, read
here in the scalar type. -/
def Sampler.bound {S F : Type} (sm : Sampler S F) (v : S) : S :=
  sm.ofDouble (sm.toFloat v)

/-- The coordinate `v` lies in the closed range between the bounds `lo` and `hi` as the
generator uses them. -/
def Sampler.InRange {S F : Type} [LE S] (sm : Sampler S F) (lo hi v : S) : Prop :=
  sm.bound lo ≤ v ∧ v ≤ sm.bound hi

/-- The guarantees of the library that the generators rely on: a distribution constructed with
`a ≤ b` returns values between `a` and `b`, and `static_cast<_Ty>` keeps the order of two
values. -/
def Sampler.Lawful {S F : Type} [LE S] [LE F] (sm : Sampler S F) : Prop :=
  (∀ axis a b k, a ≤ b → a ≤ sm.draw axis a b k ∧ sm.draw axis a b k ≤ b) ∧
  (∀ c d, c ≤ d → sm.ofDouble c ≤ sm.ofDouble d)

/-- The static method `PointSet2::randomGenerator(num, x_min, x_max, y_min, y_max, slor)` with
its range arguments (point.hpp 347-361): the two distributions are constructed on the bounds
cast to `float`, and the loop runs on what they return. -/
def PointSet2.randomGeneratorOn {S F : Type} (sm : Sampler S F) (vt : ValueType S) (num : Nat)
    (x_min x_max y_min y_max : S) (slor : Option (Point2 S → Bool)) (fuel : Nat) :
    Option (Except Exn (PointSet2 S)) :=
  PointSet2.randomGenerator vt num (sm.coordinate 0 x_min x_max) (sm.coordinate 1 y_min y_max)
    slor fuel

/-- The static method `RefPointSet2::randomGenerator(num, x_min, x_max, y_min, y_max, slor)`
with its range arguments (point.hpp 728-744). -/
def RefPointSet2.randomGeneratorOn {S F : Type} (sm : Sampler S F) (num : Nat)
    (x_min x_max y_min y_max : S) (slor : Option (RefPoint2 S → Bool)) (fuel : Nat) :
    Option (RefPointSet2 S) :=
  RefPointSet2.randomGenerator num (sm.coordinate 0 x_min x_max) (sm.coordinate 1 y_min y_max)
    slor fuel

/-- The static method
`RefPointSet3::randomGenerator(num, x_min, x_max, y_min, y_max, z_min, z_max, slor)` with its
range arguments (point.hpp 898-921). -/
def RefPointSet3.randomGeneratorOn {S F : Type} (sm : Sampler S F) (num : Nat)
    (x_min x_max y_min y_max z_min z_max : S) (slor : Option (RefPoint3 S → Bool))
    (fuel : Nat) : Option (RefPointSet3 S) :=
  RefPointSet3.randomGenerator num (sm.coordinate 0 x_min x_max) (sm.coordinate 1 y_min y_max)
    (sm.coordinate 2 z_min z_max) slor fuel

/-- The number of low bits that a natural number loses when it is stored with the 24-bit
significand of a `float`. -/
def floatExponent : Nat → Nat → Nat
  | 0, _ => 0
  | fuel + 1, n => if n < 2 ^ 24 then 0 else floatExponent fuel (n / 2) + 1

/-- The conversion `static_cast<float>(n)` of a natural number: the nearest number with a
24-bit significand, the even significand on a tie. -/
def floatOfNat (n : Nat) : Nat :=
  let e := floatExponent n n
  let q := n / 2 ^ e
  let r := n % 2 ^ e
  if 2 ^ e < 2 * r ∨ (2 * r = 2 ^ e ∧ q % 2 = 1) then (q + 1) * 2 ^ e else q * 2 ^ e

/-- The conversion `static_cast<float>(v)` of an `int`. -/
def floatOfInt (v : Int) : Int :=
  if v < 0 then -Int.ofNat (floatOfNat v.natAbs) else Int.ofNat (floatOfNat v.natAbs)

/-- A sampler for examples on the scalar type `int`, which draws whole numbers: the bounds are
cast to `float`, a distribution on `[a, b)` returns `a + k mod (b - a)` in iteration `k` (and `a`
when `a = b`), and a whole number is cast to `int` unchanged. -/
def intSampler : Sampler Int Int where
  toFloat := floatOfInt
  draw := fun _ a b k => if a < b then a + Int.ofNat (k % (b - a).toNat) else a
  ofDouble := fun d => d

/-! ## Inherited constructors of the registries -/

/-- The constructor `unordered_map(std::initializer_list<value_type>)`, which `RefPointSet2`
inherits through `using container_type::container_type;` (point.hpp 585): the given pairs are
inserted in order, each under its own first component. -/
def RefPointSet2.ofInitializerList {S : Type} (il : List (Nat × RefPoint2 S)) :
    RefPointSet2 S :=
  il.foldl (fun m kv => (UnorderedMap.insert m kv).1) UnorderedMap.empty

/-- The constructor `unordered_map(std::initializer_list<value_type>)`, which `RefPointSet3`
inherits through `using container_type::container_type;` (point.hpp 769). -/
def RefPointSet3.ofInitializerList {S : Type} (il : List (Nat × RefPoint3 S)) :
    RefPointSet3 S :=
  il.foldl (fun m kv => (UnorderedMap.insert m kv).1) UnorderedMap.empty

/-! ## Line2, Line3 and the measures of RefLine2, RefLine3 -/

/-- The class `Line2<_Ty>`: private fields `_p1`, `_p2`. -/
structure Line2 (S : Type) where
  p1 : Point2 S
  p2 : Point2 S
  deriving DecidableEq, Repr

/-- The class `Line3<_Ty>`: private fields `_p1`, `_p2`. -/
structure Line3 (S : Type) where
  p1 : Point3 S
  p2 : Point3 S
  deriving DecidableEq, Repr

/-- The functions of the geometry-arithmetic collaborator (`utility.hpp`) that `RefLine2`
calls on two reference points: `ns_geo::distance`, `ns_geo::RHandRule::azimuth` and
`ns_geo::LHandRule::azimuth`, with results in `F` (`float`). They are parameters of the
model. -/
structure Arithmetic2 (S F : Type) where
  distance : RefPoint2 S → RefPoint2 S → F
  azimuthRH : RefPoint2 S → RefPoint2 S → F
  azimuthLH : RefPoint2 S → RefPoint2 S → F

/-- The functions of the geometry-arithmetic collaborator that `RefLine3` calls on two
reference points: `ns_geo::distance`, `RHandRule::azimuth`, `LHandRule::azimuth`,
`RHandRule::zenith` and `LHandRule::zenith`. They are parameters of the model. -/
structure Arithmetic3 (S F : Type) where
  distance : RefPoint3 S → RefPoint3 S → F
  azimuthRH : RefPoint3 S → RefPoint3 S → F
  azimuthLH : RefPoint3 S → RefPoint3 S → F
  zenithRH : RefPoint3 S → RefPoint3 S → F
  zenithLH : RefPoint3 S → RefPoint3 S → F

namespace RefLine2

/-- The conversion `RefLine2::operator Line2<value_type>()`:
`Line2<value_type>(this->p1(), this->p2())`, which copies the point part of both reference
points. -/
def toLine2 {S : Type} (store : Nat → RefPointSet2 S) (this : RefLine2) :
    Except Exn (Line2 S) := do
  let a ← p1 store this
  let b ← p2 store this
  pure (Line2.mk a.toPoint2 b.toPoint2)

/-- The method `RefLine2::length()`: `ns_geo::distance(p1(), p2())`. -/
def length {S F : Type} (ar : Arithmetic2 S F) (store : Nat → RefPointSet2 S)
    (this : RefLine2) : Except Exn F := do
  let a ← p1 store this
  let b ← p2 store this
  pure (ar.distance a b)

/-- The method `RefLine2::azimuthRHR()`: `ns_geo::RHandRule::azimuth(p1(), p2())`. -/
def azimuthRHR {S F : Type} (ar : Arithmetic2 S F) (store : Nat → RefPointSet2 S)
    (this : RefLine2) : Except Exn F := do
  let a ← p1 store this
  let b ← p2 store this
  pure (ar.azimuthRH a b)

/-- The method `RefLine2::azimuthLHR()`: `ns_geo::LHandRule::azimuth(p1(), p2())`. -/
def azimuthLHR {S F : Type} (ar : Arithmetic2 S F) (store : Nat → RefPointSet2 S)
    (this : RefLine2) : Except Exn F := do
  let a ← p1 store this
  let b ← p2 store this
  pure (ar.azimuthLH a b)

end RefLine2

namespace RefLine3

/-- The conversion `RefLine3::operator Line3<value_type>()`:
`Line3<value_type>(this->p1(), this->p2())`. -/
def toLine3 {S : Type} (store : Nat → RefPointSet3 S) (this : RefLine3) :
    Except Exn (Line3 S) := do
  let a ← p1 store this
  let b ← p2 store this
  pure (Line3.mk a.toPoint3 b.toPoint3)

/-- The method `RefLine3::length()`: `ns_geo::distance(p1(), p2())`. -/
def length {S F : Type} (ar : Arithmetic3 S F) (store : Nat → RefPointSet3 S)
    (this : RefLine3) : Except Exn F := do
  let a ← p1 store this
  let b ← p2 store this
  pure (ar.distance a b)

/-- The method `RefLine3::azimuthRHR()`: `ns_geo::RHandRule::azimuth(p1(), p2())`. -/
def azimuthRHR {S F : Type} (ar : Arithmetic3 S F) (store : Nat → RefPointSet3 S)
    (this : RefLine3) : Except Exn F := do
  let a ← p1 store this
  let b ← p2 store this
  pure (ar.azimuthRH a b)

/-- The method `RefLine3::azimuthLHR()`: `ns_geo::LHandRule::azimuth(p1(), p2())`. -/
def azimuthLHR {S F : Type} (ar : Arithmetic3 S F) (store : Nat → RefPointSet3 S)
    (this : RefLine3) : Except Exn F := do
  let a ← p1 store this
  let b ← p2 store this
  pure (ar.azimuthLH a b)

/-- The method `RefLine3::zenithRHR()`: `ns_geo::RHandRule::zenith(p1(), p2())`. -/
def zenithRHR {S F : Type} (ar : Arithmetic3 S F) (store : Nat → RefPointSet3 S)
    (this : RefLine3) : Except Exn F := do
  let a ← p1 store this
  let b ← p2 store this
  pure (ar.zenithRH a b)

/-- The method `RefLine3::zenithLHR()`: `ns_geo::LHandRule::zenith(p1(), p2())`. -/
def zenithLHR {S F : Type} (ar : Arithmetic3 S F) (store : Nat → RefPointSet3 S)
    (this : RefLine3) : Except Exn F := do
  let a ← p1 store this
  let b ← p2 store this
  pure (ar.zenithLH a b)

end RefLine3

/-- Collaborator functions for examples: each measure returns its two arguments. -/
def sampleArithmetic2 : Arithmetic2 Int (RefPoint2 Int × RefPoint2 Int) where
  distance := fun a b => (a, b)
  azimuthRH := fun a b => (a, b)
  azimuthLH := fun a b => (a, b)

/-! ## A scalar type printed with six significant digits -/

/-- The characters of a natural number in the `%g` format with precision 6, which is what
`operator<<` prints for a `float` or `double` that holds this whole number on a stream in its
default state: all the digits below `10 ^ 6`; otherwise the number rounded to six significant
digits (ties to even), as one digit, the other digits without their trailing zeros after a
point, and the exponent `e+XX`. -/
def putSixDigits (v : Nat) : List Char :=
  if v < 1000000 then Nat.toDigits 10 v
  else
    let n := (Nat.toDigits 10 v).length
    let scale := 10 ^ (n - 6)
    let q := v / scale
    let r := v % scale
    let up := decide (scale < 2 * r) || (decide (2 * r = scale) && decide (q % 2 = 1))
    let m := if up then q + 1 else q
    let mant := if m = 1000000 then 100000 else m
    let e := if m = 1000000 then n else n - 1
    let ds := Nat.toDigits 10 mant
    let frac := ((ds.drop 1).reverse.dropWhile (fun c => c == '0')).reverse
    let body := if frac.isEmpty then ds.take 1 else ds.take 1 ++ '.' :: frac
    body ++ ['e', '+'] ++ (if e < 10 then '0' :: Nat.toDigits 10 e else Nat.toDigits 10 e)

/-- The exponent part of a decimal floating-point token: after `e` or `E`, an optional sign
and digits; 0 when there is no such part. -/
def scanExponent (s : List Char) : Int :=
  match s with
  | [] => 0
  | c :: t =>
    if c = 'e' ∨ c = 'E' then
      let signed := splitSign t
      let ds := signed.2.takeWhile isdigit
      if ds.isEmpty then 0
      else if signed.1 then -Int.ofNat (digitsValue 0 ds) else Int.ofNat (digitsValue 0 ds)
    else 0

/-- The whole number that `std::stod` converts from a decimal token: white space, an optional
sign, digits with an optional point, an optional exponent; what follows is not looked at.
`std::invalid_argument` when there is no digit. The sample type holds whole numbers only: a
token whose value is not a whole number is outside it and is reported as
`std::out_of_range`. -/
def stodWhole (s : List Char) : Except Exn Int :=
  let signed := splitSign (s.dropWhile isspace)
  let ip := signed.2.takeWhile isdigit
  let r1 := signed.2.dropWhile isdigit
  let fp := match r1 with
    | '.' :: t => t.takeWhile isdigit
    | _ => []
  let r2 := match r1 with
    | '.' :: t => t.dropWhile isdigit
    | _ => r1
  if ip.isEmpty && fp.isEmpty then Except.error Exn.invalid_argument
  else
    let num := digitsValue 0 (ip ++ fp)
    let shift : Int := scanExponent r2 - Int.ofNat fp.length
    let sign : Int := if signed.1 then -1 else 1
    if 0 ≤ shift then Except.ok (sign * Int.ofNat (num * 10 ^ shift.toNat))
    else if num % 10 ^ (-shift).toNat = 0 then
      Except.ok (sign * Int.ofNat (num / 10 ^ (-shift).toNat))
    else Except.error Exn.out_of_range

/-- A scalar type for examples, the whole numbers held by a `float`: `operator<<` prints six
significant digits (a minus sign first for a negative value) and `std::stod` reads a decimal
token with an optional point and exponent. -/
def floatValueType : ValueType Int where
  zero := 0
  put := fun v => if v < 0 then '-' :: putSixDigits v.natAbs else putSixDigits v.natAbs
  stod := stodWhole

/-! ## Record layouts used as examples -/

/-- A record layout for examples: two characters per record, the x and the y coordinate; it
reads back every point whose coordinates lie in `[0, 128)`. -/
def smallLayout2 : Layout (Point2 Int) where
  sizeof := 2
  bytes := fun p => [Char.ofNat (p.x.toNat % 128), Char.ofNat (p.y.toNat % 128)]
  load := fun bs => Point2.mk (Int.ofNat (bs.headD 'a').toNat) (Int.ofNat (bs.getD 1 'a').toNat)

/-- A record layout for examples: three characters per record, the id and the x and y
coordinates; it reads back every reference point whose id and coordinates lie in
`[0, 128)`. -/
def smallRefLayout2 : Layout (RefPoint2 Int) where
  sizeof := 3
  bytes := fun p =>
    [Char.ofNat (p.id % 128), Char.ofNat (p.x.toNat % 128), Char.ofNat (p.y.toNat % 128)]
  load := fun bs =>
    RefPoint2.make (bs.headD 'a').toNat (Int.ofNat (bs.getD 1 'a').toNat)
      (Int.ofNat (bs.getD 2 'a').toNat)

/-! ## Registries used as examples -/

/-- The registry `{0: (1, 2), 1: (3, 4)}`, built by two inserts. -/
def reg01 : RefPointSet2 Int :=
  (RefPointSet2.insert (RefPointSet2.insert UnorderedMap.empty (RefPoint2.make 0 1 2)).1
    (RefPoint2.make 1 3 4)).1

/-- The 3D registry `{0: (1, 2, 3), 1: (4, 5, 6)}`, built by two inserts. -/
def reg01z : RefPointSet3 Int :=
  (RefPointSet3.insert (RefPointSet3.insert UnorderedMap.empty (RefPoint3.make 0 1 2 3)).1
    (RefPoint3.make 1 4 5 6)).1

/-- The registry `{0: (1, 2), 1: (3, 4)}` with its entries in the other iteration order. -/
def reg10 : RefPointSet2 Int :=
  (RefPointSet2.insert (RefPointSet2.insert UnorderedMap.empty (RefPoint2.make 1 3 4)).1
    (RefPoint2.make 0 1 2)).1

/-- The one-entry registry `{2147483648: (1, 2)}`, whose id is `2 ^ 31`. -/
def regBig : RefPointSet2 Int :=
  (RefPointSet2.insert UnorderedMap.empty (RefPoint2.make 2147483648 1 2)).1

/-- The registry `{1: (5, 6), 3000000000: (1, 2), 2: (7, 8)}`, built by three inserts; its
second id is above `2 ^ 31` and below `2 ^ 32`. -/
def regMixed : RefPointSet2 Int :=
  (RefPointSet2.insert (RefPointSet2.insert
    (RefPointSet2.insert UnorderedMap.empty (RefPoint2.make 1 5 6)).1
    (RefPoint2.make 3000000000 1 2)).1 (RefPoint2.make 2 7 8)).1

/-! ## Facts about std::unordered_map -/

namespace UnorderedMap

variable {V : Type}

theorem ext_entries {a b : UnorderedMap V} (h : a.entries = b.entries) : a = b := by
  cases a; cases b; cases h; rfl

theorem contains_eq_true_iff (m : UnorderedMap V) (k : Nat) :
    m.contains k = true ↔ k ∈ keysOf m.entries := by
  simp [contains]

theorem contains_eq_false_iff (m : UnorderedMap V) (k : Nat) :
    m.contains k = false ↔ k ∉ keysOf m.entries := by
  simp [contains]

theorem find_eq_none_iff (m : UnorderedMap V) (k : Nat) :
    m.find k = none ↔ m.contains k = false := by
  rw [contains_eq_false_iff]
  unfold find keysOf
  rw [Option.map_eq_none', List.find?_eq_none]
  constructor
  · intro h hk
    obtain ⟨e, he, hek⟩ := List.mem_map.1 hk
    exact h e he (by simpa using hek)
  · intro h e he hek
    exact h (List.mem_map.2 ⟨e, he, by simpa using hek⟩)

theorem at_eq_error_iff (m : UnorderedMap V) (k : Nat) (e : Exn) :
    m.«at» k = Except.error e ↔ (e = Exn.out_of_range ∧ m.contains k = false) := by
  unfold «at»
  cases h : m.find k with
  | none =>
    have hc := (find_eq_none_iff m k).1 h
    constructor
    · intro he
      injection he with he
      exact ⟨he.symm, hc⟩
    · rintro ⟨he, _⟩
      rw [he]
  | some v =>
    have hc : m.contains k ≠ false := fun hc => by
      rw [(find_eq_none_iff m k).2 hc] at h
      cases h
    constructor
    · intro he
      cases he
    · rintro ⟨_, hf⟩
      exact absurd hf hc

theorem insert_of_contains (m : UnorderedMap V) (kv : Nat × V) (h : m.contains kv.1 = true) :
    m.insert kv = (m, false) := by
  unfold insert
  rw [dif_neg]
  simp [h]

theorem insert_entries_of_not_contains (m : UnorderedMap V) (kv : Nat × V)
    (h : m.contains kv.1 = false) :
    (m.insert kv).1.entries = m.entries ++ [(kv.1, kv.2)] ∧ (m.insert kv).2 = true := by
  unfold insert
  rw [dif_pos h]
  exact ⟨rfl, rfl⟩

theorem find_append_of_not_contains (m : UnorderedMap V) (k : Nat) (v : V)
    (h : m.contains k = false) (es : List (Nat × V)) :
    List.find? (fun e => e.1 == k) (m.entries ++ (k, v) :: es) = some (k, v) := by
  have hk := (contains_eq_false_iff m k).1 h
  rw [List.find?_append]
  have hn : List.find? (fun e => e.1 == k) m.entries = none := by
    rw [List.find?_eq_none]
    intro e he hek
    apply hk
    simp only [keysOf, List.mem_map]
    exact ⟨e, he, by simpa using hek⟩
  rw [hn]
  simp

theorem find_insert_self (m : UnorderedMap V) (kv : Nat × V) (h : m.contains kv.1 = false) :
    (m.insert kv).1.find kv.1 = some kv.2 := by
  unfold find
  rw [(insert_entries_of_not_contains m kv h).1, find_append_of_not_contains m kv.1 kv.2 h]
  rfl

theorem find_insert_of_find (m : UnorderedMap V) (kv : Nat × V) (k : Nat) (v : V)
    (h : m.find k = some v) : (m.insert kv).1.find k = some v := by
  by_cases hc : m.contains kv.1 = false
  · unfold find at h ⊢
    rw [(insert_entries_of_not_contains m kv hc).1, List.find?_append]
    cases hf : List.find? (fun e => e.1 == k) m.entries with
    | none => rw [hf] at h; cases h
    | some e => rw [hf] at h; simpa using h
  · rw [insert_of_contains m kv (by simpa using hc)]
    exact h

theorem find_insert_of_ne (m : UnorderedMap V) (kv : Nat × V) (k : Nat) (h : k ≠ kv.1) :
    (m.insert kv).1.find k = m.find k := by
  by_cases hc : m.contains kv.1 = false
  · unfold find
    rw [(insert_entries_of_not_contains m kv hc).1, List.find?_append]
    have hne : (kv.1 == k) = false := by
      simpa using fun hh => h hh.symm
    cases hf : List.find? (fun e => e.1 == k) m.entries with
    | none => simp [List.find?, hne]
    | some e => simp
  · rw [insert_of_contains m kv (by simpa using hc)]

theorem size_insert_of_not_contains (m : UnorderedMap V) (kv : Nat × V)
    (h : m.contains kv.1 = false) : (m.insert kv).1.size = m.size + 1 := by
  unfold size
  rw [(insert_entries_of_not_contains m kv h).1]
  simp

theorem at_eq_of_find {m : UnorderedMap V} {k : Nat} {v : V} (h : m.find k = some v) :
    m.«at» k = Except.ok v := by
  unfold «at»
  rw [h]

theorem contains_erase_self (m : UnorderedMap V) (k : Nat) : (m.erase k).contains k = false := by
  rw [contains_eq_false_iff]
  unfold erase keysOf
  intro hk
  obtain ⟨e, he, hek⟩ := List.mem_map.1 hk
  have := (List.mem_filter.1 he).2
  simp [hek] at this

end UnorderedMap

/-! ## Facts about the loops -/

theorem textLoop_invariant {P C : Type} (parseLine : List Char → Except Exn P)
    (push : C → P → C) (Inv : C → Prop) (hpush : ∀ c p, Inv c → Inv (push c p)) :
    ∀ (fuel : Nat) (file : IFStream) (this : C) (r : Ran C), Inv this →
      textLoop parseLine push fuel file this = some r → Inv r.container := by
  intro fuel
  induction fuel with
  | zero =>
    intro file this r hinv h
    unfold textLoop at h
    split at h
    · cases h; exact hinv
    · cases h
  | succ fuel ih =>
    intro file this r hinv h
    unfold textLoop at h
    split at h
    · cases h; exact hinv
    · simp only at h
      split at h
      · exact ih _ _ _ hinv h
      · split at h
        · cases h; exact hinv
        · exact ih _ _ _ (hpush _ _ hinv) h

theorem binaryLoop_invariant {P C : Type} (lay : Layout P)
    (store : C → Nat → P → Except Exn C) (size : Nat) (Inv : C → Prop)
    (hstore : ∀ c n p d, Inv c → store c n p = Except.ok d → Inv d) :
    ∀ (fuel : Nat) (file : IFStream) (count : Nat) (this : C) (r : Ran C), Inv this →
      binaryLoop lay store size fuel file count this = some r → Inv r.container := by
  intro fuel
  induction fuel with
  | zero =>
    intro file count this r hinv h
    unfold binaryLoop at h
    split at h
    · cases h
    · cases h; exact hinv
  | succ fuel ih =>
    intro file count this r hinv h
    unfold binaryLoop at h
    split at h
    · simp only at h
      split at h
      · cases h; exact hinv
      · next d hd => exact ih _ _ _ _ (hstore _ _ _ _ hinv hd) h
    · cases h; exact hinv

theorem keyIsId2_empty {S : Type} : KeyIsId2 (UnorderedMap.empty : RefPointSet2 S) := by
  intro e he
  cases he

theorem keyIsId2_insert {S : Type} (R : RefPointSet2 S) (p : RefPoint2 S) (h : KeyIsId2 R) :
    KeyIsId2 (RefPointSet2.insert R p).1 := by
  by_cases hc : R.contains p.id = false
  · intro e he
    unfold RefPointSet2.insert at he
    rw [(UnorderedMap.insert_entries_of_not_contains R (p.id, p) hc).1] at he
    rcases List.mem_append.1 he with he | he
    · exact h e he
    · rw [List.mem_singleton] at he
      rw [he]
  · unfold RefPointSet2.insert
    rw [UnorderedMap.insert_of_contains R (p.id, p) (by simpa using hc)]
    exact h

theorem generate_invariant {S : Type} (u_x u_y : Nat → S) (slor : Option (RefPoint2 S → Bool))
    (num : Nat) :
    ∀ (fuel k count : Nat) (ps r : RefPointSet2 S), KeyIsId2 ps →
      RefPointSet2.generate u_x u_y slor num fuel k count ps = some r → KeyIsId2 r := by
  intro fuel
  induction fuel with
  | zero =>
    intro k count ps r hinv h
    unfold RefPointSet2.generate at h
    split at h
    · cases h; exact hinv
    · cases h
  | succ fuel ih =>
    intro k count ps r hinv h
    unfold RefPointSet2.generate at h
    split at h
    · cases h; exact hinv
    · simp only at h
      split at h
      · exact ih _ _ _ _ (keyIsId2_insert _ _ hinv) h
      · exact ih _ _ _ _ hinv h

theorem read_keeps_keyIsId2 {S : Type} (vt : ValueType S) (lay : Layout (RefPoint2 S))
    (R : RefPointSet2 S) (file : Option (List Char)) (binary : Bool) (r : Ran (RefPointSet2 S))
    (hinv : KeyIsId2 R) (h : RefPointSet2.read vt lay R file binary = some r) :
    KeyIsId2 r.container := by
  unfold RefPointSet2.read at h
  cases file with
  | none => cases h; exact hinv
  | some content =>
    simp only at h
    cases binary with
    | true =>
      simp only [if_true] at h
      refine binaryLoop_invariant lay _ _ KeyIsId2 ?_ _ _ _ _ _ ?_ h
      · intro c n p d hc hd
        cases hd
        exact keyIsId2_insert c p hc
      · split
        · exact keyIsId2_empty
        · exact hinv
    | false =>
      simp only [Bool.false_eq_true, if_false] at h
      exact textLoop_invariant _ _ KeyIsId2 (fun c p hc => keyIsId2_insert c p hc) _ _ _ _ hinv h

theorem run_keeps_keyIsId2 {S : Type} (vt : ValueType S) (lay : Layout (RefPoint2 S))
    (call : RegistryCall S) (R next : RefPointSet2 S) (hinv : KeyIsId2 R)
    (h : call.run vt lay R = some next) : KeyIsId2 next := by
  cases call with
  | insert p =>
    cases h
    exact keyIsId2_insert R p hinv
  | readText file =>
    simp only [RegistryCall.run, Option.map_eq_some'] at h
    obtain ⟨r, hr, rfl⟩ := h
    exact read_keeps_keyIsId2 vt lay R file false r hinv hr
  | readBinary file =>
    simp only [RegistryCall.run, Option.map_eq_some'] at h
    obtain ⟨r, hr, rfl⟩ := h
    exact read_keeps_keyIsId2 vt lay R file true r hinv hr
  | randomGenerator num u_x u_y slor fuel =>
    exact generate_invariant u_x u_y slor num fuel 0 0 _ next keyIsId2_empty h

theorem runCalls_keeps_keyIsId2 {S : Type} (vt : ValueType S) (lay : Layout (RefPoint2 S)) :
    ∀ (calls : List (RegistryCall S)) (R last : RefPointSet2 S), KeyIsId2 R →
      runCalls vt lay calls R = some last → KeyIsId2 last := by
  intro calls
  induction calls with
  | nil =>
    intro R last hinv h
    cases h
    exact hinv
  | cons call calls ih =>
    intro R last hinv h
    unfold runCalls at h
    split at h
    · cases h
    · next next hnext => exact ih next last (run_keeps_keyIsId2 vt lay call R next hinv hnext) h

theorem binaryLoop_run {P C : Type} (lay : Layout P) (store : C → Nat → P → Except Exn C)
    (content : List Char) (st : Nat → C)
    (hstep : ∀ i, i < content.length / lay.sizeof →
      store (st i) i (lay.load (substr content (i * lay.sizeof) (i * lay.sizeof + lay.sizeof)))
        = Except.ok (st (i + 1))) :
    ∀ (fuel count : Nat), count ≤ content.length / lay.sizeof →
      content.length / lay.sizeof - count ≤ fuel →
      binaryLoop lay store (content.length / lay.sizeof) fuel
        ⟨content.drop (count * lay.sizeof), false⟩ count (st count) =
        some ⟨st (content.length / lay.sizeof), none⟩ := by
  intro fuel
  induction fuel with
  | zero =>
    intro count hle hfuel
    have hc : count = content.length / lay.sizeof := by omega
    unfold binaryLoop
    rw [if_neg (by simp [← hc]), ← hc]
  | succ fuel ih =>
    intro count hle hfuel
    unfold binaryLoop
    by_cases hlt : count < content.length / lay.sizeof
    · rw [if_pos (by simp [hlt])]
      have hpos : 0 < lay.sizeof := by
        rcases Nat.eq_zero_or_pos lay.sizeof with h0 | h0
        · rw [h0, Nat.div_zero] at hlt
          omega
        · exact h0
      have hfit : (count + 1) * lay.sizeof ≤ content.length :=
        (Nat.le_div_iff_mul_le hpos).1 hlt
      have hread : IFStream.read ⟨content.drop (count * lay.sizeof), false⟩ lay.sizeof =
          (substr content (count * lay.sizeof) (count * lay.sizeof + lay.sizeof),
            ⟨content.drop ((count + 1) * lay.sizeof), false⟩) := by
        unfold IFStream.read substr
        have hlen : lay.sizeof ≤ (content.drop (count * lay.sizeof)).length := by
          rw [List.length_drop]
          have : (count + 1) * lay.sizeof = count * lay.sizeof + lay.sizeof := by ring
          omega
        rw [if_pos hlen]
        simp only [List.drop_drop, Nat.add_sub_cancel_left]
        have : count * lay.sizeof + lay.sizeof = (count + 1) * lay.sizeof := by ring
        rw [this]
      simp only [hread, hstep count hlt]
      exact ih (count + 1) hlt (by omega)
    · have hc : count = content.length / lay.sizeof := by omega
      rw [if_neg (by simp [hlt]), ← hc]

theorem assignAt_fill {P : Type} (f : Nat → P) (z : P) (size i : Nat) (h : i < size) :
    assignAt ((List.range i).map f ++ List.replicate (size - i) z) i (f i) =
      Except.ok ((List.range (i + 1)).map f ++ List.replicate (size - (i + 1)) z) := by
  unfold assignAt
  have hlen : i < ((List.range i).map f ++ List.replicate (size - i) z).length := by
    simp
    omega
  rw [if_pos hlen]
  congr 1
  have hrep : List.replicate (size - i) z = z :: List.replicate (size - (i + 1)) z := by
    have : size - i = (size - (i + 1)) + 1 := by omega
    rw [this, List.replicate_succ]
  rw [hrep, List.range_succ, List.map_append, List.append_assoc]
  have hl : ((List.range i).map f).length = i := by simp
  rw [List.set_append_right _ _ (by rw [hl])]
  simp [hl]

theorem foldl_range_snoc {P C : Type} (g : C → P → C) (f : Nat → P) (init : C) (i : Nat) :
    ((List.range (i + 1)).map f).foldl g init = g (((List.range i).map f).foldl g init) (f i) := by
  rw [List.range_succ, List.map_append, List.foldl_append]
  rfl

theorem UnorderedMap.insertAll_entries_from {V : Type} (key : V → Nat) :
    ∀ (ps : List V) (this : UnorderedMap V) (e : Nat × V),
      e ∈ (ps.foldl (fun c p => (c.insert (key p, p)).1) this).entries →
      e ∈ this.entries ∨ ∃ p ∈ ps, e = (key p, p) := by
  intro ps
  induction ps with
  | nil =>
    intro this e he
    exact Or.inl he
  | cons p ps ih =>
    intro this e he
    rw [List.foldl_cons] at he
    rcases ih _ e he with h | ⟨q, hq, hqe⟩
    · by_cases hc : this.contains (key p) = false
      · rw [(UnorderedMap.insert_entries_of_not_contains this (key p, p) hc).1] at h
        rcases List.mem_append.1 h with h | h
        · exact Or.inl h
        · rw [List.mem_singleton] at h
          exact Or.inr ⟨p, List.mem_cons_self _ _, h⟩
      · rw [UnorderedMap.insert_of_contains this (key p, p) (by simpa using hc)] at h
        exact Or.inl h
    · exact Or.inr ⟨q, List.mem_cons_of_mem _ hq, hqe⟩

theorem cleared_list {P : Type} (this : List P) :
    (if (!this.isEmpty) = true then ([] : List P) else this) = [] := by
  cases this with
  | nil => rfl
  | cons a l => rfl

theorem cleared_map {V : Type} (this : UnorderedMap V) :
    (if (!this.isEmpty) = true then this.clear else this) = UnorderedMap.empty := by
  by_cases he : this.isEmpty = true
  · rw [if_neg (by simp [he])]
    apply UnorderedMap.ext_entries
    simpa [UnorderedMap.isEmpty, UnorderedMap.empty] using he
  · rw [if_pos (by simpa using he)]
    rfl

theorem vector_read_binary {P : Type} (lay : Layout P) (z : P) (content : List Char) :
    binaryLoop lay assignAt (content.length / lay.sizeof) (content.length / lay.sizeof)
        (IFStream.opened content) 0 (resize [] (content.length / lay.sizeof) z) =
      some ⟨recordsOf lay content, none⟩ := by
  have hrun := binaryLoop_run lay assignAt content
    (fun i => (List.range i).map
        (fun i => lay.load (substr content (i * lay.sizeof) (i * lay.sizeof + lay.sizeof))) ++
      List.replicate (content.length / lay.sizeof - i) z)
    (fun i hi => assignAt_fill _ _ _ i hi)
    (content.length / lay.sizeof) 0 (Nat.zero_le _) (Nat.le_refl _)
  simp only [Nat.zero_mul, List.drop_zero, List.range_zero, List.map_nil, List.nil_append,
    Nat.sub_zero, Nat.sub_self, List.replicate_zero, List.append_nil] at hrun
  simpa [resize, recordsOf, IFStream.opened] using hrun

theorem map_read_binary {V : Type} (lay : Layout V) (key : V → Nat) (content : List Char) :
    binaryLoop lay (fun (c : UnorderedMap V) (_ : Nat) p => Except.ok (c.insert (key p, p)).1)
        (content.length / lay.sizeof) (content.length / lay.sizeof)
        (IFStream.opened content) 0 UnorderedMap.empty =
      some ⟨(recordsOf lay content).foldl (fun c p => (c.insert (key p, p)).1)
        UnorderedMap.empty, none⟩ := by
  have hrun := binaryLoop_run lay
    (fun (c : UnorderedMap V) (_ : Nat) p => Except.ok (c.insert (key p, p)).1)
    content
    (fun i => ((List.range i).map
        (fun i => lay.load (substr content (i * lay.sizeof) (i * lay.sizeof + lay.sizeof)))
      ).foldl (fun c p => (c.insert (key p, p)).1) UnorderedMap.empty)
    (fun i _ => by simp only [foldl_range_snoc])
    (content.length / lay.sizeof) 0 (Nat.zero_le _) (Nat.le_refl _)
  simpa [recordsOf, IFStream.opened] using hrun

/-! ## Facts about the decimal output and `std::stoi` -/

theorem digitChar_is_digit (k : Nat) (h : k < 10) :
    isdigit (Nat.digitChar k) = true ∧ (Nat.digitChar k).toNat - '0'.toNat = k := by
  interval_cases k <;> exact ⟨by decide, by decide⟩

theorem digitsValue_append (acc : Nat) (ds : List Char) (d : Char) :
    digitsValue acc (ds ++ [d]) = 10 * digitsValue acc ds + (d.toNat - '0'.toNat) := by
  unfold digitsValue
  rw [List.foldl_append]
  rfl

theorem toDigitsCore_decimal :
    ∀ (fuel n : Nat) (ds : List Char), n < fuel →
      ∃ L : List Char, Nat.toDigitsCore 10 fuel n ds = L ++ ds ∧ L ≠ [] ∧
        (∀ c ∈ L, isdigit c = true) ∧ digitsValue 0 L = n := by
  intro fuel
  induction fuel with
  | zero =>
    intro n ds h
    omega
  | succ fuel ih =>
    intro n ds h
    unfold Nat.toDigitsCore
    have hd := digitChar_is_digit (n % 10) (Nat.mod_lt _ (by decide))
    by_cases h0 : n / 10 = 0
    · simp only [h0, if_true]
      refine ⟨[Nat.digitChar (n % 10)], rfl, by simp, ?_, ?_⟩
      · intro c hc
        rw [List.mem_singleton] at hc
        rw [hc]
        exact hd.1
      · have hn : n % 10 = n := Nat.mod_eq_of_lt (by omega)
        have hv : digitsValue 0 [Nat.digitChar (n % 10)] =
            10 * 0 + ((Nat.digitChar (n % 10)).toNat - '0'.toNat) := rfl
        rw [hv, hd.2, hn]
        omega
    · simp only [h0, if_false]
      obtain ⟨L, hL, hne, hdig, hval⟩ := ih (n / 10) (Nat.digitChar (n % 10) :: ds) (by omega)
      refine ⟨L ++ [Nat.digitChar (n % 10)], by rw [hL]; simp, by simp, ?_, ?_⟩
      · intro c hc
        rcases List.mem_append.1 hc with hc | hc
        · exact hdig c hc
        · rw [List.mem_singleton] at hc
          rw [hc]
          exact hd.1
      · rw [digitsValue_append, hval, hd.2]
        omega

theorem putUInt_decimal (n : Nat) :
    putUInt n ≠ [] ∧ (∀ c ∈ putUInt n, isdigit c = true) ∧ digitsValue 0 (putUInt n) = n := by
  obtain ⟨L, hL, hne, hdig, hval⟩ := toDigitsCore_decimal (n + 1) n [] (Nat.lt_succ_self n)
  have : putUInt n = L := by
    unfold putUInt Nat.toDigits
    rw [hL, List.append_nil]
  rw [this]
  exact ⟨hne, hdig, hval⟩

theorem isdigit_ne_comma (c : Char) (h : isdigit c = true) : c ≠ ',' := by
  intro hc
  rw [hc] at h
  revert h
  decide

theorem isdigit_ne_newline (c : Char) (h : isdigit c = true) : c ≠ '\n' := by
  intro hc
  rw [hc] at h
  revert h
  decide

theorem isdigit_not_isspace (c : Char) (h : isdigit c = true) : isspace c = false := by
  have h1 : c ≠ ' ' := by intro hc; rw [hc] at h; revert h; decide
  have h2 : c ≠ '\t' := by intro hc; rw [hc] at h; revert h; decide
  have h3 : c ≠ '\n' := by intro hc; rw [hc] at h; revert h; decide
  have h4 : c ≠ Char.ofNat 11 := by intro hc; rw [hc] at h; revert h; decide
  have h5 : c ≠ Char.ofNat 12 := by intro hc; rw [hc] at h; revert h; decide
  have h6 : c ≠ '\r' := by intro hc; rw [hc] at h; revert h; decide
  simp [isspace, h1, h2, h3, h4, h5, h6]

theorem splitSign_of_digit (c : Char) (cs : List Char) (h : isdigit c = true) :
    splitSign (c :: cs) = (false, c :: cs) := by
  have h1 : c ≠ '-' := by intro hc; rw [hc] at h; revert h; decide
  have h2 : c ≠ '+' := by intro hc; rw [hc] at h; revert h; decide
  unfold splitSign
  split
  · next heq => injection heq with ha _; exact absurd ha h1
  · next heq => injection heq with ha _; exact absurd ha h2
  · rfl

theorem scanInt_of_digits (ds : List Char) (hne : ds ≠ [])
    (hdig : ∀ c ∈ ds, isdigit c = true) : scanInt ds = some (Int.ofNat (digitsValue 0 ds)) := by
  cases ds with
  | nil => exact absurd rfl hne
  | cons c cs =>
    have hc := hdig c (List.mem_cons_self _ _)
    have hdrop : (c :: cs).dropWhile isspace = c :: cs := by
      rw [List.dropWhile_cons, isdigit_not_isspace c hc]
      rfl
    have htake : (c :: cs).takeWhile isdigit = c :: cs :=
      List.takeWhile_eq_self_iff.2 hdig
    unfold scanInt
    simp only [hdrop, splitSign_of_digit c cs hc, htake]
    rfl

theorem stoi_putUInt (n : Nat) (h : n < 2 ^ 31) : stoi (putUInt n) = Except.ok (Int.ofNat n) := by
  obtain ⟨hne, hdig, hval⟩ := putUInt_decimal n
  unfold stoi
  rw [scanInt_of_digits _ hne hdig, hval]
  simp only
  rw [if_neg]
  rintro (h1 | h1)
  · have : (0 : Int) ≤ Int.ofNat n := Int.ofNat_nonneg n
    omega
  · have : (Int.ofNat n) < 2 ^ 31 := by
      have := Int.ofNat_lt.2 h
      simpa using this
    omega

theorem toUInt_ofNat (n : Nat) (h : n < 2 ^ 32) : toUInt (Int.ofNat n) = n := by
  unfold toUInt
  have h1 : (Int.ofNat n) % (2 ^ 32 : Int) = Int.ofNat n := by
    apply Int.emod_eq_of_lt (Int.ofNat_nonneg n)
    have := Int.ofNat_lt.2 h
    simpa using this
  rw [h1]
  rfl

/-! ## Facts about the splitting of a line into fields -/

theorem takeWhile_ne_until (c : Char) (s rest : List Char) (hs : c ∉ s) :
    (s ++ c :: rest).takeWhile (fun d => d != c) = s := by
  induction s with
  | nil => simp
  | cons a s ih =>
    have ha : a ≠ c := fun h => hs (h ▸ List.mem_cons_self _ _)
    have hs1 : c ∉ s := fun h => hs (List.mem_cons_of_mem _ h)
    simp [List.takeWhile_cons, ha, ih hs1]

theorem dropWhile_ne_until (c : Char) (s rest : List Char) (hs : c ∉ s) :
    (s ++ c :: rest).dropWhile (fun d => d != c) = c :: rest := by
  induction s with
  | nil => simp
  | cons a s ih =>
    have ha : a ≠ c := fun h => hs (h ▸ List.mem_cons_self _ _)
    have hs1 : c ∉ s := fun h => hs (List.mem_cons_of_mem _ h)
    simp [List.dropWhile_cons, ha, ih hs1]

theorem findFrom_field (c : Char) (p s rest : List Char) (n : Nat) (hn : n = p.length)
    (hs : c ∉ s) : findFrom (p ++ (s ++ c :: rest)) n c = n + s.length := by
  unfold findFrom
  rw [hn, List.drop_left, takeWhile_ne_until c s rest hs]

theorem substr_field (p s rest : List Char) (n m : Nat) (hn : n = p.length)
    (hm : m = n + s.length) : substr (p ++ (s ++ rest)) n m = s := by
  unfold substr
  rw [hm, hn, List.drop_left, Nat.add_sub_cancel_left, List.take_left]

theorem advance_of_lt (str : List Char) (n : Nat) (h : n < str.length) :
    advance str n = Except.ok (n + 1) := by
  unfold advance
  rw [if_pos h]

theorem putUInt_no_comma (n : Nat) : ',' ∉ putUInt n := fun h =>
  isdigit_ne_comma _ ((putUInt_decimal n).2.1 _ h) rfl

theorem putUInt_no_newline (n : Nat) : '\n' ∉ putUInt n := fun h =>
  isdigit_ne_newline _ ((putUInt_decimal n).2.1 _ h) rfl

theorem parseLine2_of_written {S : Type} (vt : ValueType S) (id : Nat) (x y : S)
    (hid : id < 2 ^ 31) (hx : Representable vt x) (hy : Representable vt y) :
    RefPointSet2.parseLine vt (putUInt id ++ [','] ++ vt.put x ++ [','] ++ vt.put y) =
      Except.ok (RefPoint2.make id x y) := by
  have hstr : putUInt id ++ [','] ++ vt.put x ++ [','] ++ vt.put y =
      putUInt id ++ ',' :: (vt.put x ++ ',' :: vt.put y) := by simp
  rw [hstr]
  generalize hA : putUInt id = A
  generalize hB : vt.put x = B
  generalize hC : vt.put y = C
  have hAc : ',' ∉ A := hA ▸ putUInt_no_comma id
  have hBc : ',' ∉ B := hB ▸ hx.2.1
  have e1 : A ++ ',' :: (B ++ ',' :: C) = (A ++ [',']) ++ (B ++ ',' :: C) := by simp
  have e2 : A ++ ',' :: (B ++ ',' :: C) = (A ++ ',' :: (B ++ [','])) ++ (C ++ []) := by simp
  have f1 : findFrom (A ++ ',' :: (B ++ ',' :: C)) 0 ',' = A.length := by
    have := findFrom_field ',' [] A (B ++ ',' :: C) 0 rfl hAc
    simpa using this
  have s1 : substr (A ++ ',' :: (B ++ ',' :: C)) 0 A.length = A := by
    have := substr_field [] A (',' :: (B ++ ',' :: C)) 0 A.length rfl (by simp)
    simpa using this
  have a1 : advance (A ++ ',' :: (B ++ ',' :: C)) A.length = Except.ok (A.length + 1) :=
    advance_of_lt _ _ (by simp)
  have f2 : findFrom (A ++ ',' :: (B ++ ',' :: C)) (A.length + 1) ',' =
      A.length + 1 + B.length := by
    rw [e1]
    exact findFrom_field ',' (A ++ [',']) B C _ (by simp) hBc
  have s2 : substr (A ++ ',' :: (B ++ ',' :: C)) (A.length + 1) (A.length + 1 + B.length) =
      B := by
    rw [e1]
    exact substr_field (A ++ [',']) B (',' :: C) _ _ (by simp) rfl
  have a2 : advance (A ++ ',' :: (B ++ ',' :: C)) (A.length + 1 + B.length) =
      Except.ok (A.length + 1 + B.length + 1) :=
    advance_of_lt _ _ (by simp; omega)
  have s3 : substr (A ++ ',' :: (B ++ ',' :: C)) (A.length + 1 + B.length + 1)
      (A ++ ',' :: (B ++ ',' :: C)).length = C := by
    have hl : (A ++ ',' :: (B ++ ',' :: C)).length = (A.length + 1 + B.length + 1) + C.length := by
      simp
      omega
    rw [hl, e2]
    exact substr_field (A ++ ',' :: (B ++ [','])) C [] _ _ (by simp; omega) rfl
  have hstoi : stoi A = Except.ok (Int.ofNat id) := hA ▸ stoi_putUInt id hid
  have hxs : vt.stod B = Except.ok x := hB ▸ hx.1
  have hys : vt.stod C = Except.ok y := hC ▸ hy.1
  have hto : toUInt (Int.ofNat id) = id := toUInt_ofNat id (by omega)
  simp only [RefPointSet2.parseLine, f1, s1, a1, f2, s2, a2, s3, hstoi, hxs, hys, bind,
    Except.bind, pure, Except.pure, hto]

theorem parseLine3_of_written {S : Type} (vt : ValueType S) (id : Nat) (x y z : S)
    (hid : id < 2 ^ 31) (hx : Representable vt x) (hy : Representable vt y)
    (hz : Representable vt z) :
    RefPointSet3.parseLine vt
        (putUInt id ++ [','] ++ vt.put x ++ [','] ++ vt.put y ++ [','] ++ vt.put z) =
      Except.ok (RefPoint3.make id x y z) := by
  have hstr : putUInt id ++ [','] ++ vt.put x ++ [','] ++ vt.put y ++ [','] ++ vt.put z =
      putUInt id ++ ',' :: (vt.put x ++ ',' :: (vt.put y ++ ',' :: vt.put z)) := by simp
  rw [hstr]
  generalize hA : putUInt id = A
  generalize hB : vt.put x = B
  generalize hC : vt.put y = C
  generalize hD : vt.put z = D
  have hAc : ',' ∉ A := hA ▸ putUInt_no_comma id
  have hBc : ',' ∉ B := hB ▸ hx.2.1
  have hCc : ',' ∉ C := hC ▸ hy.2.1
  generalize hstr2 : A ++ ',' :: (B ++ ',' :: (C ++ ',' :: D)) = str
  have e0 : str = [] ++ (A ++ ',' :: (B ++ ',' :: (C ++ ',' :: D))) := by rw [← hstr2]; rfl
  have e1 : str = (A ++ [',']) ++ (B ++ ',' :: (C ++ ',' :: D)) := by rw [← hstr2]; simp
  have e2 : str = (A ++ ',' :: (B ++ [','])) ++ (C ++ ',' :: D) := by rw [← hstr2]; simp
  have e3 : str = (A ++ ',' :: (B ++ ',' :: (C ++ [',']))) ++ (D ++ []) := by
    rw [← hstr2]; simp
  have hl : str.length = (A.length + 1 + B.length + 1 + C.length + 1) + D.length := by
    rw [← hstr2]
    simp
    omega
  have f1 : findFrom str 0 ',' = A.length := by
    have := findFrom_field ',' [] A (B ++ ',' :: (C ++ ',' :: D)) 0 rfl hAc
    rw [← e0] at this
    simpa using this
  have s1 : substr str 0 A.length = A := by
    have := substr_field [] A (',' :: (B ++ ',' :: (C ++ ',' :: D))) 0 A.length rfl (by simp)
    rw [← e0] at this
    exact this
  have a1 : advance str A.length = Except.ok (A.length + 1) :=
    advance_of_lt _ _ (by omega)
  have f2 : findFrom str (A.length + 1) ',' = A.length + 1 + B.length := by
    rw [e1]
    exact findFrom_field ',' (A ++ [',']) B (C ++ ',' :: D) _ (by simp) hBc
  have s2 : substr str (A.length + 1) (A.length + 1 + B.length) = B := by
    rw [e1]
    exact substr_field (A ++ [',']) B (',' :: (C ++ ',' :: D)) _ _ (by simp) rfl
  have a2 : advance str (A.length + 1 + B.length) = Except.ok (A.length + 1 + B.length + 1) :=
    advance_of_lt _ _ (by omega)
  have f3 : findFrom str (A.length + 1 + B.length + 1) ',' =
      A.length + 1 + B.length + 1 + C.length := by
    rw [e2]
    exact findFrom_field ',' (A ++ ',' :: (B ++ [','])) C D _ (by simp; omega) hCc
  have s3 : substr str (A.length + 1 + B.length + 1)
      (A.length + 1 + B.length + 1 + C.length) = C := by
    rw [e2]
    exact substr_field (A ++ ',' :: (B ++ [','])) C (',' :: D) _ _ (by simp; omega) rfl
  have a3 : advance str (A.length + 1 + B.length + 1 + C.length) =
      Except.ok (A.length + 1 + B.length + 1 + C.length + 1) :=
    advance_of_lt _ _ (by omega)
  have s4 : substr str (A.length + 1 + B.length + 1 + C.length + 1) str.length = D := by
    rw [hl, e3]
    exact substr_field (A ++ ',' :: (B ++ ',' :: (C ++ [',']))) D [] _ _ (by simp; omega) rfl
  have hstoi : stoi A = Except.ok (Int.ofNat id) := hA ▸ stoi_putUInt id hid
  have hxs : vt.stod B = Except.ok x := hB ▸ hx.1
  have hys : vt.stod C = Except.ok y := hC ▸ hy.1
  have hzs : vt.stod D = Except.ok z := hD ▸ hz.1
  have hto : toUInt (Int.ofNat id) = id := toUInt_ofNat id (by omega)
  simp only [RefPointSet3.parseLine, f1, s1, a1, f2, s2, a2, f3, s3, a3, s4, hstoi, hxs, hys,
    hzs, bind, Except.bind, pure, Except.pure, hto]

/-! ## Facts about the text loop -/

theorem getline_line (l rest : List Char) (b : Bool) (hl : '\n' ∉ l) :
    getline ⟨l ++ '\n' :: rest, b⟩ = (l, ⟨rest, false⟩) := by
  unfold getline
  simp only [takeWhile_ne_until '\n' l rest hl, dropWhile_ne_until '\n' l rest hl]

theorem getline_at_end (b : Bool) : getline ⟨[], b⟩ = ([], ⟨[], true⟩) := rfl

theorem textLoop_at_eof {P C : Type} (parseLine : List Char → Except Exn P) (push : C → P → C)
    (fuel : Nat) (buf : List Char) (this : C) :
    textLoop parseLine push fuel ⟨buf, true⟩ this = some ⟨this, none⟩ := by
  cases fuel <;> simp [textLoop]

theorem textLoop_of_written {α P C : Type} (parseLine : List Char → Except Exn P)
    (push : C → P → C) (enc : α → List Char) (dec : α → P) :
    ∀ (items : List α) (fuel : Nat) (this : C),
      (∀ a ∈ items, '\n' ∉ enc a ∧ enc a ≠ [] ∧ parseLine (enc a) = Except.ok (dec a)) →
      items.length < fuel →
      textLoop parseLine push fuel ⟨items.flatMap (fun a => enc a ++ ['\n']), false⟩ this =
        some ⟨items.foldl (fun c a => push c (dec a)) this, none⟩ := by
  intro items
  induction items with
  | nil =>
    intro fuel this _ hfuel
    cases fuel with
    | zero => omega
    | succ fuel =>
      unfold textLoop
      simp only [List.flatMap_nil, Bool.false_eq_true, if_false, getline_at_end,
        List.isEmpty_nil, if_true, textLoop_at_eof, List.foldl_nil]
  | cons a items ih =>
    intro fuel this h hfuel
    cases fuel with
    | zero => simp at hfuel
    | succ fuel =>
      obtain ⟨hnl, hne, hparse⟩ := h a (List.mem_cons_self _ _)
      have hbuf : (a :: items).flatMap (fun a => enc a ++ ['\n']) =
          enc a ++ '\n' :: items.flatMap (fun a => enc a ++ ['\n']) := by
        simp [List.flatMap_cons]
      have hempty : (enc a).isEmpty = false := by
        cases hq : enc a with
        | nil => exact absurd hq hne
        | cons c cs => rfl
      unfold textLoop
      simp only [hbuf, Bool.false_eq_true, if_false, getline_line _ _ _ hnl, hempty, hparse,
        List.foldl_cons]
      exact ih fuel (push this (dec a)) (fun b hb => h b (List.mem_cons_of_mem _ hb))
        (by simpa using hfuel)

theorem length_le_written {α : Type} (enc : α → List Char) (items : List α) :
    items.length ≤ (items.flatMap (fun a => enc a ++ ['\n'])).length := by
  induction items with
  | nil => simp
  | cons a items ih =>
    simp only [List.flatMap_cons, List.length_append, List.length_cons, List.length_nil]
    omega

theorem UnorderedMap.insertAll_fresh {V : Type} :
    ∀ (es : List (Nat × V)) (this : UnorderedMap V), (keysOf es).Nodup →
      (∀ e ∈ es, this.contains e.1 = false) →
      (es.foldl (fun c e => (c.insert e).1) this).entries = this.entries ++ es := by
  intro es
  induction es with
  | nil =>
    intro this _ _
    simp
  | cons e es ih =>
    intro this hnd hfresh
    have hnd1 : e.1 ∉ keysOf es ∧ (keysOf es).Nodup := by
      simpa [keysOf] using hnd
    have he := hfresh e (List.mem_cons_self _ _)
    have hent := (UnorderedMap.insert_entries_of_not_contains this e he).1
    rw [List.foldl_cons, ih (this.insert e).1 hnd1.2, hent]
    · simp
    · intro d hd
      rw [UnorderedMap.contains_eq_false_iff, hent]
      have hd1 := (UnorderedMap.contains_eq_false_iff this d.1).1
        (hfresh d (List.mem_cons_of_mem _ hd))
      have hne : d.1 ≠ e.1 := by
        intro heq
        apply hnd1.1
        rw [← heq]
        exact List.mem_map.2 ⟨d, hd, rfl⟩
      simp only [keysOf, List.map_append, List.map_cons, List.map_nil, List.mem_append,
        List.mem_singleton, not_or]
      exact ⟨hd1, hne⟩

theorem insertAll_parsed2 {S : Type} (R : RefPointSet2 S) (hinv : KeyIsId2 R) :
    (R.entries.foldl
        (fun c e => (RefPointSet2.insert c (RefPoint2.make e.1 e.2.x e.2.y)).1)
        UnorderedMap.empty).entries = R.entries := by
  have hext : R.entries.foldl
        (fun c e => (RefPointSet2.insert c (RefPoint2.make e.1 e.2.x e.2.y)).1)
        UnorderedMap.empty =
      R.entries.foldl (fun c e => (UnorderedMap.insert c e).1) UnorderedMap.empty := by
    apply List.foldl_ext
    intro c e he
    have hid := hinv e he
    obtain ⟨k, ⟨⟨x, y⟩, id⟩⟩ := e
    simp only at hid
    subst hid
    rfl
  rw [hext, UnorderedMap.insertAll_fresh R.entries UnorderedMap.empty R.nodup (fun _ _ => rfl)]
  rfl

theorem insertAll_parsed3 {S : Type} (R : RefPointSet3 S) (hinv : KeyIsId3 R) :
    (R.entries.foldl
        (fun c e => (RefPointSet3.insert c (RefPoint3.make e.2.id e.2.x e.2.y e.2.z)).1)
        UnorderedMap.empty).entries = R.entries := by
  have hext : R.entries.foldl
        (fun c e => (RefPointSet3.insert c (RefPoint3.make e.2.id e.2.x e.2.y e.2.z)).1)
        UnorderedMap.empty =
      R.entries.foldl (fun c e => (UnorderedMap.insert c e).1) UnorderedMap.empty := by
    apply List.foldl_ext
    intro c e he
    have hid := hinv e he
    obtain ⟨k, ⟨⟨x, y, z⟩, id⟩⟩ := e
    simp only at hid
    subst hid
    rfl
  rw [hext, UnorderedMap.insertAll_fresh R.entries UnorderedMap.empty R.nodup (fun _ _ => rfl)]
  rfl

theorem text_round_trip2 {S : Type} (vt : ValueType S) (lay : Layout (RefPoint2 S))
    (R : RefPointSet2 S) (hinv : KeyIsId2 R)
    (hrep : ∀ e ∈ R.entries, e.1 < 2 ^ 31 ∧ Representable vt e.2.x ∧ Representable vt e.2.y) :
    ∃ text, RefPointSet2.write vt lay R true false = Except.ok text ∧
      RefPointSet2.read vt lay UnorderedMap.empty (some text) false = some ⟨R, none⟩ := by
  refine ⟨_, rfl, ?_⟩
  have hloop := textLoop_of_written (RefPointSet2.parseLine vt)
    (fun c refp => (RefPointSet2.insert c refp).1)
    (fun e : Nat × RefPoint2 S => putUInt e.1 ++ [','] ++ vt.put e.2.x ++ [','] ++ vt.put e.2.y)
    (fun e => RefPoint2.make e.1 e.2.x e.2.y) R.entries
    ((R.entries.flatMap (fun e =>
      putUInt e.1 ++ [','] ++ vt.put e.2.x ++ [','] ++ vt.put e.2.y ++ ['\n'])).length + 1)
    UnorderedMap.empty
    (fun e he => by
      obtain ⟨hid, hx, hy⟩ := hrep e he
      refine ⟨?_, ?_, parseLine2_of_written vt e.1 e.2.x e.2.y hid hx hy⟩
      · have h1 := putUInt_no_newline e.1
        have h2 := hx.2.2
        have h3 := hy.2.2
        simp [h1, h2, h3]
      · simp)
    (Nat.lt_succ_of_le (length_le_written _ R.entries))
  simp only [RefPointSet2.read, Bool.false_eq_true, if_false, RefPointSet2.readText,
    IFStream.opened]
  rw [hloop]
  congr 2
  exact UnorderedMap.ext_entries (insertAll_parsed2 R hinv)

theorem text_round_trip3 {S : Type} (vt : ValueType S) (lay : Layout (RefPoint3 S))
    (R : RefPointSet3 S) (hinv : KeyIsId3 R)
    (hrep : ∀ e ∈ R.entries, e.1 < 2 ^ 31 ∧ Representable vt e.2.x ∧ Representable vt e.2.y ∧
      Representable vt e.2.z) :
    ∃ text, RefPointSet3.write vt lay R true false = Except.ok text ∧
      RefPointSet3.read vt lay UnorderedMap.empty (some text) false = some ⟨R, none⟩ := by
  refine ⟨_, rfl, ?_⟩
  have hloop := textLoop_of_written (RefPointSet3.parseLine vt)
    (fun c refp => (RefPointSet3.insert c refp).1)
    (fun e : Nat × RefPoint3 S => putUInt e.2.id ++ [','] ++ vt.put e.2.x ++ [','] ++
      vt.put e.2.y ++ [','] ++ vt.put e.2.z)
    (fun e => RefPoint3.make e.2.id e.2.x e.2.y e.2.z) R.entries
    ((R.entries.flatMap (fun e =>
      putUInt e.2.id ++ [','] ++ vt.put e.2.x ++ [','] ++ vt.put e.2.y ++ [','] ++
        vt.put e.2.z ++ ['\n'])).length + 1)
    UnorderedMap.empty
    (fun e he => by
      obtain ⟨hid, hx, hy, hz⟩ := hrep e he
      rw [← hinv e he] at hid
      refine ⟨?_, ?_, parseLine3_of_written vt e.2.id e.2.x e.2.y e.2.z hid hx hy hz⟩
      · have h1 := putUInt_no_newline e.2.id
        have h2 := hx.2.2
        have h3 := hy.2.2
        have h4 := hz.2.2
        simp [h1, h2, h3, h4]
      · simp)
    (Nat.lt_succ_of_le (length_le_written _ R.entries))
  simp only [RefPointSet3.read, Bool.false_eq_true, if_false, RefPointSet3.readText,
    IFStream.opened]
  rw [hloop]
  congr 2
  exact UnorderedMap.ext_entries (insertAll_parsed3 R hinv)

/-! ## Facts about the lines of a file -/

theorem linesOf_ne_nil (cs : List Char) : linesOf cs ≠ [] := by
  cases cs with
  | nil => simp [linesOf]
  | cons c cs =>
    unfold linesOf
    split
    · simp
    · split <;> simp

theorem linesOf_of_no_newline (l : List Char) (hl : '\n' ∉ l) : linesOf l = [l] := by
  induction l with
  | nil => rfl
  | cons c cs ih =>
    have hc : c ≠ '\n' := fun h => hl (h ▸ List.mem_cons_self _ _)
    have hcs : '\n' ∉ cs := fun h => hl (List.mem_cons_of_mem _ h)
    unfold linesOf
    rw [if_neg hc, ih hcs]

theorem linesOf_append_newline (a b : List Char) :
    linesOf (a ++ '\n' :: b) = linesOf a ++ linesOf b := by
  induction a with
  | nil => simp [linesOf]
  | cons c cs ih =>
    have hstep : linesOf (c :: cs ++ '\n' :: b) =
        if c = '\n' then [] :: linesOf (cs ++ '\n' :: b)
        else
          match linesOf (cs ++ '\n' :: b) with
          | [] => [[c]]
          | l :: ls => (c :: l) :: ls := rfl
    have hhead : linesOf (c :: cs) =
        if c = '\n' then [] :: linesOf cs
        else
          match linesOf cs with
          | [] => [[c]]
          | l :: ls => (c :: l) :: ls := rfl
    rw [hstep, hhead, ih]
    by_cases hc : c = '\n'
    · rw [if_pos hc, if_pos hc]
      rfl
    · rw [if_neg hc, if_neg hc]
      have hne := linesOf_ne_nil cs
      cases hcs : linesOf cs with
      | nil => exact absurd hcs hne
      | cons l ls => rfl

theorem linesOf_line (l rest : List Char) (hl : '\n' ∉ l) :
    linesOf (l ++ '\n' :: rest) = l :: linesOf rest := by
  rw [linesOf_append_newline, linesOf_of_no_newline l hl]
  rfl

theorem split_at_newline (buf : List Char) :
    '\n' ∉ buf ∨ ∃ l rest, buf = l ++ '\n' :: rest ∧ '\n' ∉ l := by
  induction buf with
  | nil => exact Or.inl (by simp)
  | cons c cs ih =>
    by_cases hc : c = '\n'
    · exact Or.inr ⟨[], cs, by simp [hc], by simp⟩
    · rcases ih with h | ⟨l, rest, hbuf, hl⟩
      · left
        intro hmem
        rcases List.mem_cons.1 hmem with h1 | h1
        · exact hc h1.symm
        · exact h h1
      · right
        refine ⟨c :: l, rest, by simp [hbuf], ?_⟩
        intro hmem
        rcases List.mem_cons.1 hmem with h1 | h1
        · exact hc h1.symm
        · exact hl h1

theorem getline_last (l : List Char) (b : Bool) (hl : '\n' ∉ l) :
    getline ⟨l, b⟩ = (l, ⟨[], true⟩) := by
  have h1 : l.takeWhile (fun c => c != '\n') = l := by
    rw [List.takeWhile_eq_self_iff]
    intro c hc
    have hne : c ≠ '\n' := fun h => hl (h ▸ hc)
    simpa using hne
  have h2 : l.dropWhile (fun c => c != '\n') = [] := by
    rw [List.dropWhile_eq_nil_iff]
    intro c hc
    have hne : c ≠ '\n' := fun h => hl (h ▸ hc)
    simpa using hne
  unfold getline
  simp only [h1, h2]

theorem textLoop_eq_runLines {P C : Type} (parseLine : List Char → Except Exn P)
    (push : C → P → C) :
    ∀ (fuel : Nat) (buf : List Char) (this : C), buf.length < fuel →
      textLoop parseLine push fuel ⟨buf, false⟩ this =
        some (runLines parseLine push (linesOf buf) this) := by
  intro fuel
  induction fuel with
  | zero =>
    intro buf this h
    omega
  | succ fuel ih =>
    intro buf this h
    rcases split_at_newline buf with hno | ⟨l, rest, hbuf, hl⟩
    · unfold textLoop
      simp only [Bool.false_eq_true, if_false, getline_last buf false hno,
        linesOf_of_no_newline buf hno, runLines, textLoop_at_eof]
      split
      · rfl
      · split <;> rfl
    · have hlen : rest.length < fuel := by
        rw [hbuf] at h
        simp at h
        omega
      unfold textLoop
      simp only [Bool.false_eq_true, if_false, hbuf, getline_line l rest false hl,
        linesOf_line l rest hl, runLines]
      split
      · exact ih rest this hlen
      · split
        · rfl
        · exact ih rest _ hlen

theorem runLines_skip_blank {P C : Type} (parseLine : List Char → Except Exn P)
    (push : C → P → C) :
    ∀ (before after : List (List Char)) (this : C),
      runLines parseLine push (before ++ [] :: after) this =
        runLines parseLine push (before ++ after) this := by
  intro before
  induction before with
  | nil =>
    intro after this
    simp [runLines]
  | cons l ls ih =>
    intro after this
    simp only [List.cons_append, runLines]
    split
    · exact ih after this
    · split
      · rfl
      · exact ih after _

theorem runLines_thrown {P C : Type} (parseLine : List Char → Except Exn P)
    (push : C → P → C) (bad : List Char) (hne : bad ≠ [])
    (hbad : ∃ e, parseLine bad = Except.error e) :
    ∀ (lines : List (List Char)) (this : C), bad ∈ lines →
      (runLines parseLine push lines this).thrown ≠ none := by
  intro lines
  induction lines with
  | nil =>
    intro this h
    cases h
  | cons l ls ih =>
    intro this h
    unfold runLines
    split
    · next hempty =>
      rcases List.mem_cons.1 h with h1 | h1
      · rw [← h1] at hempty
        exact absurd (List.isEmpty_iff.1 hempty) hne
      · exact ih this h1
    · split
      · simp
      · next record hrec =>
        rcases List.mem_cons.1 h with h1 | h1
        · obtain ⟨e, he⟩ := hbad
          rw [h1, hrec] at he
          cases he
        · exact ih _ h1

/-! ## Facts about the fields of a line -/

theorem parseLine_fields_point2 {S : Type} (vt : ValueType S) (f1 f2 : List Char)
    (h1 : ',' ∉ f1) :
    PointSet2.parseLine vt (f1 ++ ',' :: f2) =
      match vt.stod f1 with
      | Except.error e => Except.error e
      | Except.ok x =>
        match vt.stod f2 with
        | Except.error e => Except.error e
        | Except.ok y => Except.ok (Point2.mk x y) := by
  generalize hstr : f1 ++ ',' :: f2 = str
  have e0 : str = [] ++ (f1 ++ ',' :: f2) := by rw [← hstr]; rfl
  have e1 : str = (f1 ++ [',']) ++ (f2 ++ []) := by rw [← hstr]; simp
  have hl : str.length = f1.length + 1 + f2.length := by
    rw [← hstr]
    simp
    omega
  have q1 : findFrom str 0 ',' = f1.length := by
    have := findFrom_field ',' [] f1 f2 0 rfl h1
    rw [← e0] at this
    simpa using this
  have s1 : substr str 0 f1.length = f1 := by
    have := substr_field [] f1 (',' :: f2) 0 f1.length rfl (by simp)
    rw [← e0] at this
    exact this
  have a1 : advance str f1.length = Except.ok (f1.length + 1) :=
    advance_of_lt _ _ (by omega)
  have s2 : substr str (f1.length + 1) str.length = f2 := by
    rw [hl, e1]
    exact substr_field (f1 ++ [',']) f2 [] _ _ (by simp) rfl
  simp only [PointSet2.parseLine, q1, s1, a1, bind, Except.bind, pure, Except.pure]
  cases vt.stod f1 with
  | error e => rfl
  | ok x =>
    simp only [s2]
    cases vt.stod f2 <;> rfl

theorem parseLine_fields_ref2 {S : Type} (vt : ValueType S) (f1 f2 f3 : List Char)
    (h1 : ',' ∉ f1) (h2 : ',' ∉ f2) :
    RefPointSet2.parseLine vt (f1 ++ ',' :: (f2 ++ ',' :: f3)) =
      match stoi f1 with
      | Except.error e => Except.error e
      | Except.ok id =>
        match vt.stod f2 with
        | Except.error e => Except.error e
        | Except.ok x =>
          match vt.stod f3 with
          | Except.error e => Except.error e
          | Except.ok y => Except.ok (RefPoint2.make (toUInt id) x y) := by
  generalize hstr : f1 ++ ',' :: (f2 ++ ',' :: f3) = str
  have e0 : str = [] ++ (f1 ++ ',' :: (f2 ++ ',' :: f3)) := by rw [← hstr]; rfl
  have e1 : str = (f1 ++ [',']) ++ (f2 ++ ',' :: f3) := by rw [← hstr]; simp
  have e2 : str = (f1 ++ ',' :: (f2 ++ [','])) ++ (f3 ++ []) := by rw [← hstr]; simp
  have hl : str.length = f1.length + 1 + f2.length + 1 + f3.length := by
    rw [← hstr]
    simp
    omega
  have q1 : findFrom str 0 ',' = f1.length := by
    have := findFrom_field ',' [] f1 (f2 ++ ',' :: f3) 0 rfl h1
    rw [← e0] at this
    simpa using this
  have s1 : substr str 0 f1.length = f1 := by
    have := substr_field [] f1 (',' :: (f2 ++ ',' :: f3)) 0 f1.length rfl (by simp)
    rw [← e0] at this
    exact this
  have a1 : advance str f1.length = Except.ok (f1.length + 1) :=
    advance_of_lt _ _ (by omega)
  have q2 : findFrom str (f1.length + 1) ',' = f1.length + 1 + f2.length := by
    rw [e1]
    exact findFrom_field ',' (f1 ++ [',']) f2 f3 _ (by simp) h2
  have s2 : substr str (f1.length + 1) (f1.length + 1 + f2.length) = f2 := by
    rw [e1]
    exact substr_field (f1 ++ [',']) f2 (',' :: f3) _ _ (by simp) rfl
  have a2 : advance str (f1.length + 1 + f2.length) =
      Except.ok (f1.length + 1 + f2.length + 1) :=
    advance_of_lt _ _ (by omega)
  have s3 : substr str (f1.length + 1 + f2.length + 1) str.length = f3 := by
    rw [hl, e2]
    exact substr_field (f1 ++ ',' :: (f2 ++ [','])) f3 [] _ _ (by simp; omega) rfl
  simp only [RefPointSet2.parseLine, q1, s1, bind, Except.bind, pure, Except.pure]
  cases stoi f1 with
  | error e => rfl
  | ok id =>
    simp only [a1, q2, s2]
    cases vt.stod f2 with
    | error e => rfl
    | ok x =>
      simp only [a2, s3]
      cases vt.stod f3 <;> rfl

theorem stoi_of_no_number (c : Char) (cs : List Char) (hd : isdigit c = false)
    (hs : isspace c = false) (hm : c ≠ '-') (hp : c ≠ '+') :
    stoi (c :: cs) = Except.error Exn.invalid_argument := by
  have hdrop : (c :: cs).dropWhile isspace = c :: cs := by
    rw [List.dropWhile_cons, hs]
    rfl
  have hsign : splitSign (c :: cs) = (false, c :: cs) := by
    unfold splitSign
    split
    · next heq => injection heq with ha _; exact absurd ha hm
    · next heq => injection heq with ha _; exact absurd ha hp
    · rfl
  have htake : (c :: cs).takeWhile isdigit = [] := by
    rw [List.takeWhile_cons, hd]
    rfl
  unfold stoi scanInt
  simp only [hdrop, hsign, htake, List.isEmpty_nil, if_true]

theorem read_text_point2 {S : Type} (vt : ValueType S) (lay : Layout (Point2 S))
    (this : PointSet2 S) (content : List Char) :
    PointSet2.read vt lay this (some content) false =
      some (runLines (PointSet2.parseLine vt) push_back (linesOf content) this) := by
  simp only [PointSet2.read, Bool.false_eq_true, if_false, PointSet2.readText,
    IFStream.opened]
  exact textLoop_eq_runLines _ _ _ content this (Nat.lt_succ_self _)

theorem read_text_point3 {S : Type} (vt : ValueType S) (lay : Layout (Point3 S))
    (this : PointSet3 S) (content : List Char) :
    PointSet3.read vt lay this (some content) false =
      some (runLines (PointSet3.parseLine vt) push_back (linesOf content) this) := by
  simp only [PointSet3.read, Bool.false_eq_true, if_false, PointSet3.readText,
    IFStream.opened]
  exact textLoop_eq_runLines _ _ _ content this (Nat.lt_succ_self _)

theorem read_text_ref2 {S : Type} (vt : ValueType S) (lay : Layout (RefPoint2 S))
    (this : RefPointSet2 S) (content : List Char) :
    RefPointSet2.read vt lay this (some content) false =
      some (runLines (RefPointSet2.parseLine vt)
        (fun c refp => (RefPointSet2.insert c refp).1) (linesOf content) this) := by
  simp only [RefPointSet2.read, Bool.false_eq_true, if_false, RefPointSet2.readText,
    IFStream.opened]
  exact textLoop_eq_runLines _ _ _ content this (Nat.lt_succ_self _)

theorem read_text_ref3 {S : Type} (vt : ValueType S) (lay : Layout (RefPoint3 S))
    (this : RefPointSet3 S) (content : List Char) :
    RefPointSet3.read vt lay this (some content) false =
      some (runLines (RefPointSet3.parseLine vt)
        (fun c refp => (RefPointSet3.insert c refp).1) (linesOf content) this) := by
  simp only [RefPointSet3.read, Bool.false_eq_true, if_false, RefPointSet3.readText,
    IFStream.opened]
  exact textLoop_eq_runLines _ _ _ content this (Nat.lt_succ_self _)

theorem linesOf_written {α : Type} (enc : α → List Char) (items : List α)
    (h : ∀ a ∈ items, '\n' ∉ enc a) :
    linesOf (items.flatMap (fun a => enc a ++ ['\n'])) = items.map enc ++ [[]] := by
  induction items with
  | nil => rfl
  | cons a items ih =>
    have hbuf : (a :: items).flatMap (fun a => enc a ++ ['\n']) =
        enc a ++ '\n' :: items.flatMap (fun a => enc a ++ ['\n']) := by
      simp [List.flatMap_cons]
    rw [hbuf, linesOf_line _ _ (h a (List.mem_cons_self _ _)),
      ih (fun b hb => h b (List.mem_cons_of_mem _ hb))]
    rfl

theorem runLines_insert_blank {P C : Type} (parseLine : List Char → Except Exn P)
    (push : C → P → C) (this : C) (pre post : List Char)
    (hpre : pre = [] ∨ ∃ q, pre = q ++ ['\n']) :
    runLines parseLine push (linesOf (pre ++ '\n' :: post)) this =
      runLines parseLine push (linesOf (pre ++ post)) this := by
  rcases hpre with h | ⟨q, h⟩
  · rw [h]
    have h1 : linesOf ([] ++ '\n' :: post) = [] ++ [] :: linesOf post := by
      simp [linesOf]
    rw [h1, runLines_skip_blank]
    rfl
  · have h1 : pre ++ '\n' :: post = q ++ '\n' :: ('\n' :: post) := by
      rw [h]
      simp
    have h2 : pre ++ post = q ++ '\n' :: post := by
      rw [h]
      simp
    have h3 : linesOf ('\n' :: post) = [] :: linesOf post := by
      simp [linesOf]
    rw [h1, h2, linesOf_append_newline, linesOf_append_newline, h3, runLines_skip_blank]

theorem runLines_final_newline {P C : Type} (parseLine : List Char → Except Exn P)
    (push : C → P → C) (this : C) (content : List Char) :
    runLines parseLine push (linesOf (content ++ ['\n'])) this =
      runLines parseLine push (linesOf content) this := by
  have h1 : linesOf (content ++ ['\n']) = linesOf content ++ [] :: [] := by
    rw [linesOf_append_newline]
    rfl
  rw [h1, runLines_skip_blank, List.append_nil]

/-! ## Facts about the generators -/

theorem generate2_eq_loop {S : Type} (u_x u_y : Nat → S) (slor : Option (RefPoint2 S → Bool))
    (num : Nat) :
    ∀ (fuel k count : Nat) (ps : RefPointSet2 S),
      RefPointSet2.generate u_x u_y slor num fuel k count ps =
        generateLoop (fun c j => RefPoint2.make c (u_x j) (u_y j)) (fun p => p.id) slor num
          fuel k count ps := by
  intro fuel
  induction fuel with
  | zero =>
    intro k count ps
    rfl
  | succ fuel ih =>
    intro k count ps
    unfold RefPointSet2.generate generateLoop
    simp only [ih]
    rfl

theorem generate3_eq_loop {S : Type} (u_x u_y u_z : Nat → S)
    (slor : Option (RefPoint3 S → Bool)) (num : Nat) :
    ∀ (fuel k count : Nat) (ps : RefPointSet3 S),
      RefPointSet3.generate u_x u_y u_z slor num fuel k count ps =
        generateLoop (fun c j => RefPoint3.make c (u_x j) (u_y j) (u_z j)) (fun p => p.id)
          slor num fuel k count ps := by
  intro fuel
  induction fuel with
  | zero =>
    intro k count ps
    rfl
  | succ fuel ih =>
    intro k count ps
    unfold RefPointSet3.generate generateLoop
    simp only [ih]
    rfl

theorem generateLoop_result {V : Type} (mk : Nat → Nat → V) (key : V → Nat)
    (slor : Option (V → Bool)) (num : Nat) (hkey : ∀ c j, key (mk c j) = c) (Q : V → Prop)
    (hQ : ∀ c j, accepts slor (mk c j) = true → Q (mk c j)) :
    ∀ (fuel k count : Nat) (ps r : UnorderedMap V), keysOf ps.entries = List.range count →
      (∀ e ∈ ps.entries, Q e.2 ∧ key e.2 = e.1) →
      generateLoop mk key slor num fuel k count ps = some r →
      keysOf r.entries = List.range num ∧ ∀ e ∈ r.entries, Q e.2 ∧ key e.2 = e.1 := by
  intro fuel
  induction fuel with
  | zero =>
    intro k count ps r hkeys hall h
    unfold generateLoop at h
    split at h
    · next hc =>
      cases h
      exact ⟨hc ▸ hkeys, hall⟩
    · cases h
  | succ fuel ih =>
    intro k count ps r hkeys hall h
    unfold generateLoop at h
    split at h
    · next hc =>
      cases h
      exact ⟨hc ▸ hkeys, hall⟩
    · split at h
      · next hacc =>
        have hfresh : ps.contains (key (mk count k), mk count k).1 = false := by
          rw [UnorderedMap.contains_eq_false_iff, hkeys]
          simp [hkey]
        have hent := (UnorderedMap.insert_entries_of_not_contains ps _ hfresh).1
        refine ih (k + 1) (count + 1) _ r ?_ ?_ h
        · rw [hent]
          simp only [keysOf, List.map_append, List.map_cons, List.map_nil] at hkeys ⊢
          rw [hkeys, hkey, List.range_succ]
        · intro e he
          rw [hent] at he
          rcases List.mem_append.1 he with he | he
          · exact hall e he
          · rw [List.mem_singleton] at he
            rw [he]
            exact ⟨hQ count k hacc, rfl⟩
      · exact ih (k + 1) count ps r hkeys hall h

theorem generateLoop_rejecting {V : Type} (mk : Nat → Nat → V) (key : V → Nat)
    (slor : Option (V → Bool)) (num count : Nat) (ps : UnorderedMap V) (hne : count ≠ num)
    (hrej : ∀ j, accepts slor (mk count j) = false) :
    (∀ (j fuel k : Nat), generateLoop mk key slor num (fuel + j) k count ps =
      generateLoop mk key slor num fuel (k + j) count ps) ∧
    (∀ (fuel k : Nat), generateLoop mk key slor num fuel k count ps = none) := by
  constructor
  · intro j
    induction j with
    | zero =>
      intro fuel k
      rfl
    | succ j ih =>
      intro fuel k
      have hstep : generateLoop mk key slor num (fuel + j + 1) k count ps =
          generateLoop mk key slor num (fuel + j) (k + 1) count ps := by
        rw [generateLoop]
        simp [hne, hrej k]
      have harith : k + 1 + j = k + (j + 1) := by omega
      rw [← Nat.add_assoc, hstep, ih fuel (k + 1), harith]
  · intro fuel
    induction fuel with
    | zero =>
      intro k
      unfold generateLoop
      rw [if_neg hne]
    | succ fuel ih =>
      intro k
      rw [generateLoop]
      simp [hne, hrej k, ih]

theorem assignAt_next {P : Type} (acc : List P) (z p : P) (num : Nat)
    (h : acc.length < num) :
    assignAt (acc ++ List.replicate (num - acc.length) z) acc.length p =
      Except.ok ((acc ++ [p]) ++ List.replicate (num - (acc ++ [p]).length) z) := by
  unfold assignAt
  have hlen : acc.length < (acc ++ List.replicate (num - acc.length) z).length := by
    simp
    omega
  rw [if_pos hlen]
  congr 1
  have hrep : List.replicate (num - acc.length) z =
      z :: List.replicate (num - (acc ++ [p]).length) z := by
    have : num - acc.length = (num - (acc ++ [p]).length) + 1 := by
      simp
      omega
    rw [this, List.replicate_succ]
  rw [hrep, List.append_assoc, List.set_append_right _ _ (Nat.le_refl _)]
  simp

theorem generate_vector_result {S : Type} (u_x u_y : Nat → S)
    (slor : Option (Point2 S → Bool)) (num : Nat) (z : Point2 S) (Q : Point2 S → Prop)
    (hQ : ∀ j, accepts slor (Point2.mk (u_x j) (u_y j)) = true →
      Q (Point2.mk (u_x j) (u_y j))) :
    ∀ (fuel k : Nat) (acc : List (Point2 S)) (res : Except Exn (PointSet2 S)),
      acc.length ≤ num → (∀ p ∈ acc, Q p) →
      PointSet2.generate u_x u_y slor num fuel k acc.length
        (acc ++ List.replicate (num - acc.length) z) = some res →
      ∃ ps, res = Except.ok ps ∧ ps.length = num ∧ ∀ p ∈ ps, Q p := by
  intro fuel
  induction fuel with
  | zero =>
    intro k acc res hle hall h
    unfold PointSet2.generate at h
    split at h
    · next hc =>
      cases h
      exact ⟨_, rfl, by simp [hc], by simpa [hc] using hall⟩
    · cases h
  | succ fuel ih =>
    intro k acc res hle hall h
    unfold PointSet2.generate at h
    split at h
    · next hc =>
      cases h
      exact ⟨_, rfl, by simp [hc], by simpa [hc] using hall⟩
    · next hc =>
      simp only at h
      split at h
      · next hacc =>
        rw [assignAt_next acc z _ num (by omega)] at h
        simp only at h
        have hlen : (acc ++ [Point2.mk (u_x k) (u_y k)]).length = acc.length + 1 := by simp
        rw [← hlen] at h
        refine ih (k + 1) _ res (by rw [hlen]; omega) ?_ h
        intro p hp
        rcases List.mem_append.1 hp with hp | hp
        · exact hall p hp
        · rw [List.mem_singleton] at hp
          rw [hp]
          exact hQ k hacc
      · exact ih (k + 1) acc res hle hall h

theorem generate_vector_rejecting {S : Type} (u_x u_y : Nat → S)
    (slor : Option (Point2 S → Bool)) (num count : Nat) (ps : PointSet2 S)
    (hne : count ≠ num) (hrej : ∀ j, accepts slor (Point2.mk (u_x j) (u_y j)) = false) :
    (∀ (j fuel k : Nat), PointSet2.generate u_x u_y slor num (fuel + j) k count ps =
      PointSet2.generate u_x u_y slor num fuel (k + j) count ps) ∧
    (∀ (fuel k : Nat), PointSet2.generate u_x u_y slor num fuel k count ps = none) := by
  constructor
  · intro j
    induction j with
    | zero =>
      intro fuel k
      rfl
    | succ j ih =>
      intro fuel k
      have hstep : PointSet2.generate u_x u_y slor num (fuel + j + 1) k count ps =
          PointSet2.generate u_x u_y slor num (fuel + j) (k + 1) count ps := by
        rw [PointSet2.generate]
        simp [hne, hrej k]
      have harith : k + 1 + j = k + (j + 1) := by omega
      rw [← Nat.add_assoc, hstep, ih fuel (k + 1), harith]
  · intro fuel
    induction fuel with
    | zero =>
      intro k
      unfold PointSet2.generate
      rw [if_neg hne]
    | succ fuel ih =>
      intro k
      rw [PointSet2.generate]
      simp [hne, hrej k, ih]

theorem size_of_keys_range {V : Type} (m : UnorderedMap V) (num : Nat)
    (h : keysOf m.entries = List.range num) :
    m.size = num ∧ ∀ k, m.contains k = true ↔ k < num := by
  constructor
  · have := congrArg List.length h
    simpa [keysOf, UnorderedMap.size] using this
  · intro k
    rw [UnorderedMap.contains_eq_true_iff, h, List.mem_range]

/-! ## Facts about the invariant under the other operations -/

theorem keyIs_insert {V : Type} (key : V → Nat) (m : UnorderedMap V) (kv : Nat × V)
    (h : ∀ e ∈ m.entries, key e.2 = e.1) (hkv : key kv.2 = kv.1) :
    ∀ e ∈ (m.insert kv).1.entries, key e.2 = e.1 := by
  by_cases hc : m.contains kv.1 = false
  · intro e he
    rw [(UnorderedMap.insert_entries_of_not_contains m kv hc).1] at he
    rcases List.mem_append.1 he with he | he
    · exact h e he
    · rw [List.mem_singleton] at he
      rw [he]
      exact hkv
  · rw [UnorderedMap.insert_of_contains m kv (by simpa using hc)]
    exact h

theorem keyIs_erase {V : Type} (key : V → Nat) (m : UnorderedMap V) (k : Nat)
    (h : ∀ e ∈ m.entries, key e.2 = e.1) : ∀ e ∈ (m.erase k).entries, key e.2 = e.1 := by
  intro e he
  exact h e (List.mem_filter.1 he).1

theorem keyIs_insertAll {V : Type} (key : V → Nat) :
    ∀ (il : List (Nat × V)) (m : UnorderedMap V), (∀ e ∈ m.entries, key e.2 = e.1) →
      (∀ kv ∈ il, key kv.2 = kv.1) →
      ∀ e ∈ (il.foldl (fun c kv => (UnorderedMap.insert c kv).1) m).entries,
        key e.2 = e.1 := by
  intro il
  induction il with
  | nil =>
    intro m h _
    exact h
  | cons kv il ih =>
    intro m h hil
    rw [List.foldl_cons]
    exact ih _ (keyIs_insert key m kv h (hil kv (List.mem_cons_self _ _)))
      (fun e he => hil e (List.mem_cons_of_mem _ he))

theorem keyIsId3_empty {S : Type} : KeyIsId3 (UnorderedMap.empty : RefPointSet3 S) := by
  intro e he
  cases he

theorem keyIsId3_insert {S : Type} (R : RefPointSet3 S) (p : RefPoint3 S) (h : KeyIsId3 R) :
    KeyIsId3 (RefPointSet3.insert R p).1 :=
  keyIs_insert (fun q : RefPoint3 S => q.id) R (p.id, p) h rfl

theorem read_keeps_keyIsId3 {S : Type} (vt : ValueType S) (lay : Layout (RefPoint3 S))
    (R : RefPointSet3 S) (file : Option (List Char)) (binary : Bool) (r : Ran (RefPointSet3 S))
    (hinv : KeyIsId3 R) (h : RefPointSet3.read vt lay R file binary = some r) :
    KeyIsId3 r.container := by
  unfold RefPointSet3.read at h
  cases file with
  | none => cases h; exact hinv
  | some content =>
    simp only at h
    cases binary with
    | true =>
      simp only [if_true] at h
      refine binaryLoop_invariant lay _ _ KeyIsId3 ?_ _ _ _ _ _ ?_ h
      · intro c n p d hc hd
        cases hd
        exact keyIsId3_insert c p hc
      · split
        · exact keyIsId3_empty
        · exact hinv
    | false =>
      simp only [Bool.false_eq_true, if_false] at h
      exact textLoop_invariant _ _ KeyIsId3 (fun c p hc => keyIsId3_insert c p hc) _ _ _ _ hinv h

/-! ## Facts about resolving both ends of a line -/

theorem UnorderedMap.at_of_not_contains {V : Type} (m : UnorderedMap V) (k : Nat)
    (h : m.contains k = false) : m.«at» k = Except.error Exn.out_of_range :=
  (UnorderedMap.at_eq_error_iff m k Exn.out_of_range).2 ⟨rfl, h⟩

theorem UnorderedMap.at_ok_or_out_of_range {V : Type} (m : UnorderedMap V) (k : Nat) :
    (m.contains k = true ∧ ∃ v, m.«at» k = Except.ok v) ∨
      (m.contains k = false ∧ m.«at» k = Except.error Exn.out_of_range) := by
  cases h : m.«at» k with
  | error e =>
    have := (UnorderedMap.at_eq_error_iff m k e).1 h
    exact Or.inr ⟨this.2, by rw [this.1]⟩
  | ok v =>
    left
    refine ⟨?_, v, rfl⟩
    cases hc : m.contains k with
    | true => rfl
    | false =>
      rw [UnorderedMap.at_of_not_contains m k hc] at h
      cases h

theorem resolve_both {A B : Type} (x y : Except Exn A) (f : A → A → B) :
    (∀ a b, x = Except.ok a → y = Except.ok b →
      (do let p ← x; let q ← y; pure (f p q) : Except Exn B) = Except.ok (f a b)) ∧
    ((x = Except.error Exn.out_of_range ∨
        ((∃ a, x = Except.ok a) ∧ y = Except.error Exn.out_of_range)) →
      (do let p ← x; let q ← y; pure (f p q) : Except Exn B) =
        Except.error Exn.out_of_range) := by
  constructor
  · intro a b hx hy
    rw [hx, hy]
    rfl
  · rintro (hx | ⟨⟨a, hx⟩, hy⟩)
    · rw [hx]
      rfl
    · rw [hx, hy]
      rfl

theorem resolve_both_absent {V B : Type} (m : UnorderedMap V) (a b : Nat) (f : V → V → B)
    (h : m.contains a = false ∨ m.contains b = false) :
    (do let p ← m.«at» a; let q ← m.«at» b; pure (f p q) : Except Exn B) =
      Except.error Exn.out_of_range := by
  apply (resolve_both (m.«at» a) (m.«at» b) f).2
  rcases UnorderedMap.at_ok_or_out_of_range m a with ⟨_, v, hv⟩ | ⟨_, ha⟩
  · rcases h with h | h
    · rw [UnorderedMap.at_of_not_contains m a h] at hv
      cases hv
    · exact Or.inr ⟨⟨v, hv⟩, UnorderedMap.at_of_not_contains m b h⟩
  · exact Or.inl ha

/-! ## Facts about the records of a binary file -/

theorem read_binary_point2 {S : Type} (vt : ValueType S) (lay : Layout (Point2 S))
    (this : PointSet2 S) (content : List Char) :
    PointSet2.read vt lay this (some content) true = some ⟨recordsOf lay content, none⟩ := by
  simp only [PointSet2.read, if_true, cleared_list, PointSet2.readBinary]
  exact vector_read_binary lay _ content

theorem read_binary_point3 {S : Type} (vt : ValueType S) (lay : Layout (Point3 S))
    (this : PointSet3 S) (content : List Char) :
    PointSet3.read vt lay this (some content) true = some ⟨recordsOf lay content, none⟩ := by
  simp only [PointSet3.read, if_true, cleared_list, PointSet3.readBinary]
  exact vector_read_binary lay _ content

theorem read_binary_ref2 {S : Type} (vt : ValueType S) (lay : Layout (RefPoint2 S))
    (this : RefPointSet2 S) (content : List Char) :
    RefPointSet2.read vt lay this (some content) true =
      some ⟨(recordsOf lay content).foldl (fun c p => (RefPointSet2.insert c p).1)
        UnorderedMap.empty, none⟩ := by
  simp only [RefPointSet2.read, if_true, cleared_map, RefPointSet2.readBinary]
  exact map_read_binary lay (fun p => p.id) content

theorem read_binary_ref3 {S : Type} (vt : ValueType S) (lay : Layout (RefPoint3 S))
    (this : RefPointSet3 S) (content : List Char) :
    RefPointSet3.read vt lay this (some content) true =
      some ⟨(recordsOf lay content).foldl (fun c p => (RefPointSet3.insert c p).1)
        UnorderedMap.empty, none⟩ := by
  simp only [RefPointSet3.read, if_true, cleared_map, RefPointSet3.readBinary]
  exact map_read_binary lay (fun p => p.id) content

theorem recordsOf_length {P : Type} (lay : Layout P) (content : List Char) :
    (recordsOf lay content).length = content.length / lay.sizeof := by
  simp [recordsOf]

theorem recordsOf_getElem {P : Type} (lay : Layout P) (content : List Char) (i : Nat)
    (hi : i < content.length / lay.sizeof) :
    (recordsOf lay content)[i]? =
      some (lay.load (substr content (i * lay.sizeof) ((i + 1) * lay.sizeof))) := by
  unfold recordsOf
  rw [List.getElem?_map, List.getElem?_range hi, Nat.succ_mul]
  rfl

theorem recordsOf_cons {P : Type} (lay : Layout P) (b rest : List Char)
    (hb : b.length = lay.sizeof) (hs : 0 < lay.sizeof) :
    recordsOf lay (b ++ rest) = lay.load b :: recordsOf lay rest := by
  have hlen : (b ++ rest).length / lay.sizeof = rest.length / lay.sizeof + 1 := by
    rw [List.length_append, hb, Nat.add_div_left _ hs]
  unfold recordsOf
  rw [hlen, List.range_succ_eq_map, List.map_cons, List.map_map]
  congr 1
  · have := substr_field [] b rest 0 (0 * lay.sizeof + lay.sizeof) rfl (by simp [hb])
    simpa using congrArg lay.load this
  · apply List.map_congr_left
    intro i _
    simp only [Function.comp, substr]
    have h1 : (i + 1) * lay.sizeof = b.length + i * lay.sizeof := by
      rw [hb, Nat.succ_mul, Nat.add_comm]
    rw [h1, Nat.add_sub_cancel_left, List.drop_append, Nat.add_sub_cancel_left]

theorem recordsOf_written {P : Type} (lay : Layout P) (hs : 0 < lay.sizeof) :
    ∀ ps : List P,
      (∀ p ∈ ps, (lay.bytes p).length = lay.sizeof ∧ lay.load (lay.bytes p) = p) →
      recordsOf lay (ps.flatMap lay.bytes) = ps := by
  intro ps
  induction ps with
  | nil =>
    intro _
    simp [recordsOf]
  | cons p ps ih =>
    intro h
    have hp := h p (List.mem_cons_self _ _)
    rw [List.flatMap_cons, recordsOf_cons lay _ _ hp.1 hs, hp.2,
      ih (fun q hq => h q (List.mem_cons_of_mem _ hq))]

theorem recordsOf_trailing {P : Type} (lay : Layout P) (content extra : List Char)
    (hs : 0 < lay.sizeof) (hfull : content.length % lay.sizeof = 0)
    (hextra : extra.length < lay.sizeof) :
    recordsOf lay (content ++ extra) = recordsOf lay content := by
  have hq : content.length = lay.sizeof * (content.length / lay.sizeof) := by
    have := Nat.div_add_mod content.length lay.sizeof
    omega
  have hlen : (content ++ extra).length / lay.sizeof = content.length / lay.sizeof := by
    rw [List.length_append]
    have h1 : (content.length + extra.length) / lay.sizeof =
        (extra.length + lay.sizeof * (content.length / lay.sizeof)) / lay.sizeof := by
      rw [← hq, Nat.add_comm]
    rw [h1, Nat.add_mul_div_left _ _ hs, Nat.div_eq_of_lt hextra, Nat.zero_add]
  unfold recordsOf
  rw [hlen]
  apply List.map_congr_left
  intro i hi
  have hi1 : i < content.length / lay.sizeof := List.mem_range.1 hi
  have hfit : (i + 1) * lay.sizeof ≤ content.length := (Nat.le_div_iff_mul_le hs).1 hi1
  have hle : i * lay.sizeof + lay.sizeof ≤ content.length := by
    rw [Nat.succ_mul] at hfit
    exact hfit
  simp only [substr, Nat.add_sub_cancel_left]
  rw [List.drop_append_of_le_length (by omega), List.take_append_of_le_length]
  rw [List.length_drop]
  omega

theorem insertAll_records {V : Type} (key : V → Nat) (R : UnorderedMap V)
    (hinv : ∀ e ∈ R.entries, key e.2 = e.1) :
    ((R.entries.map Prod.snd).foldl (fun c p => (c.insert (key p, p)).1)
      UnorderedMap.empty).entries = R.entries := by
  rw [List.foldl_map]
  have hext : R.entries.foldl (fun c (e : Nat × V) => (c.insert (key e.2, e.2)).1)
        UnorderedMap.empty =
      R.entries.foldl (fun c e => (UnorderedMap.insert c e).1) UnorderedMap.empty := by
    apply List.foldl_ext
    intro c e he
    rw [hinv e he]
  rw [hext, UnorderedMap.insertAll_fresh R.entries UnorderedMap.empty R.nodup (fun _ _ => rfl)]
  rfl

theorem written_records {V : Type} (lay : Layout V) (hs : 0 < lay.sizeof)
    (R : UnorderedMap V)
    (h : ∀ e ∈ R.entries, (lay.bytes e.2).length = lay.sizeof ∧ lay.load (lay.bytes e.2) = e.2) :
    recordsOf lay (R.entries.flatMap (fun e => lay.bytes e.2)) = R.entries.map Prod.snd := by
  have hflat : R.entries.flatMap (fun e => lay.bytes e.2) =
      (R.entries.map Prod.snd).flatMap lay.bytes := by
    rw [List.flatMap_map]
  rw [hflat]
  apply recordsOf_written lay hs
  intro p hp
  obtain ⟨e, he, rfl⟩ := List.mem_map.1 hp
  exact h e he

/-! ## Facts about the text round trip of a plain point list -/

theorem parseLine_fields_point3 {S : Type} (vt : ValueType S) (f1 f2 f3 : List Char)
    (h1 : ',' ∉ f1) (h2 : ',' ∉ f2) :
    PointSet3.parseLine vt (f1 ++ ',' :: (f2 ++ ',' :: f3)) =
      match vt.stod f1 with
      | Except.error e => Except.error e
      | Except.ok x =>
        match vt.stod f2 with
        | Except.error e => Except.error e
        | Except.ok y =>
          match vt.stod f3 with
          | Except.error e => Except.error e
          | Except.ok z => Except.ok (Point3.mk x y z) := by
  generalize hstr : f1 ++ ',' :: (f2 ++ ',' :: f3) = str
  have e0 : str = [] ++ (f1 ++ ',' :: (f2 ++ ',' :: f3)) := by rw [← hstr]; rfl
  have e1 : str = (f1 ++ [',']) ++ (f2 ++ ',' :: f3) := by rw [← hstr]; simp
  have e2 : str = (f1 ++ ',' :: (f2 ++ [','])) ++ (f3 ++ []) := by rw [← hstr]; simp
  have hl : str.length = f1.length + 1 + f2.length + 1 + f3.length := by
    rw [← hstr]
    simp
    omega
  have q1 : findFrom str 0 ',' = f1.length := by
    have := findFrom_field ',' [] f1 (f2 ++ ',' :: f3) 0 rfl h1
    rw [← e0] at this
    simpa using this
  have s1 : substr str 0 f1.length = f1 := by
    have := substr_field [] f1 (',' :: (f2 ++ ',' :: f3)) 0 f1.length rfl (by simp)
    rw [← e0] at this
    exact this
  have a1 : advance str f1.length = Except.ok (f1.length + 1) :=
    advance_of_lt _ _ (by omega)
  have q2 : findFrom str (f1.length + 1) ',' = f1.length + 1 + f2.length := by
    rw [e1]
    exact findFrom_field ',' (f1 ++ [',']) f2 f3 _ (by simp) h2
  have s2 : substr str (f1.length + 1) (f1.length + 1 + f2.length) = f2 := by
    rw [e1]
    exact substr_field (f1 ++ [',']) f2 (',' :: f3) _ _ (by simp) rfl
  have a2 : advance str (f1.length + 1 + f2.length) =
      Except.ok (f1.length + 1 + f2.length + 1) :=
    advance_of_lt _ _ (by omega)
  have s3 : substr str (f1.length + 1 + f2.length + 1) str.length = f3 := by
    rw [hl, e2]
    exact substr_field (f1 ++ ',' :: (f2 ++ [','])) f3 [] _ _ (by simp; omega) rfl
  simp only [PointSet3.parseLine, q1, s1, bind, Except.bind, pure, Except.pure]
  cases vt.stod f1 with
  | error e => rfl
  | ok x =>
    simp only [a1, q2, s2]
    cases vt.stod f2 with
    | error e => rfl
    | ok y =>
      simp only [a2, s3]
      cases vt.stod f3 <;> rfl

theorem foldl_push_back {P : Type} (items init : List P) :
    items.foldl (fun c a => push_back c a) init = init ++ items := by
  induction items generalizing init with
  | nil => simp
  | cons a items ih =>
    rw [List.foldl_cons, ih]
    simp [push_back]

theorem text_round_trip_point2 {S : Type} (vt : ValueType S) (lay : Layout (Point2 S))
    (P : PointSet2 S) (h : ∀ p ∈ P, Representable vt p.x ∧ Representable vt p.y) :
    ∃ text, PointSet2.write vt lay P true false = Except.ok text ∧
      PointSet2.read vt lay [] (some text) false = some ⟨P, none⟩ := by
  refine ⟨_, rfl, ?_⟩
  have hloop := textLoop_of_written (PointSet2.parseLine vt) push_back
    (fun p : Point2 S => vt.put p.x ++ [','] ++ vt.put p.y) (fun p => p) P
    ((P.flatMap (fun p => vt.put p.x ++ [','] ++ vt.put p.y ++ ['\n'])).length + 1) []
    (fun p hp => by
      obtain ⟨hx, hy⟩ := h p hp
      refine ⟨?_, by simp, ?_⟩
      · have h1 := hx.2.2
        have h2 := hy.2.2
        simp [h1, h2]
      · have hstr : vt.put p.x ++ [','] ++ vt.put p.y = vt.put p.x ++ ',' :: vt.put p.y := by
          simp
        show PointSet2.parseLine vt (vt.put p.x ++ [','] ++ vt.put p.y) = Except.ok p
        rw [hstr, parseLine_fields_point2 vt _ _ hx.2.1, hx.1, hy.1])
    (Nat.lt_succ_of_le (length_le_written _ P))
  simp only [PointSet2.read, Bool.false_eq_true, if_false, PointSet2.readText,
    IFStream.opened]
  rw [hloop, foldl_push_back]
  rfl

theorem text_round_trip_point3 {S : Type} (vt : ValueType S) (lay : Layout (Point3 S))
    (P : PointSet3 S)
    (h : ∀ p ∈ P, Representable vt p.x ∧ Representable vt p.y ∧ Representable vt p.z) :
    ∃ text, PointSet3.write vt lay P true false = Except.ok text ∧
      PointSet3.read vt lay [] (some text) false = some ⟨P, none⟩ := by
  refine ⟨_, rfl, ?_⟩
  have hloop := textLoop_of_written (PointSet3.parseLine vt) push_back
    (fun p : Point3 S => vt.put p.x ++ [','] ++ vt.put p.y ++ [','] ++ vt.put p.z)
    (fun p => p) P
    ((P.flatMap (fun p =>
      vt.put p.x ++ [','] ++ vt.put p.y ++ [','] ++ vt.put p.z ++ ['\n'])).length + 1) []
    (fun p hp => by
      obtain ⟨hx, hy, hz⟩ := h p hp
      refine ⟨?_, by simp, ?_⟩
      · have h1 := hx.2.2
        have h2 := hy.2.2
        have h3 := hz.2.2
        simp [h1, h2, h3]
      · have hstr : vt.put p.x ++ [','] ++ vt.put p.y ++ [','] ++ vt.put p.z =
            vt.put p.x ++ ',' :: (vt.put p.y ++ ',' :: vt.put p.z) := by
          simp
        show PointSet3.parseLine vt
          (vt.put p.x ++ [','] ++ vt.put p.y ++ [','] ++ vt.put p.z) = Except.ok p
        rw [hstr, parseLine_fields_point3 vt _ _ _ hx.2.1 hy.2.1, hx.1, hy.1, hz.1])
    (Nat.lt_succ_of_le (length_le_written _ P))
  simp only [PointSet3.read, Bool.false_eq_true, if_false, PointSet3.readText,
    IFStream.opened]
  rw [hloop, foldl_push_back]
  rfl

/-! ## Facts about well-formed text input -/

theorem runLines_wellformed {P C : Type} (parseLine : List Char → Except Exn P)
    (push : C → P → C) :
    ∀ (lines : List (List Char)) (this : C), WellFormed parseLine lines →
      runLines parseLine push lines this =
        ⟨(parsedRecords parseLine lines).foldl push this, none⟩ := by
  intro lines
  induction lines with
  | nil =>
    intro this _
    rfl
  | cons l ls ih =>
    intro this h
    have hls : WellFormed parseLine ls := fun s hs => h s (List.mem_cons_of_mem _ hs)
    cases hl : l with
    | nil =>
      simp only [runLines, parsedRecords, List.isEmpty_nil, if_true, List.filterMap_cons]
      exact ih this hls
    | cons c cs =>
      obtain ⟨record, hrec⟩ := h l (List.mem_cons_self _ _) (by rw [hl]; simp)
      rw [hl] at hrec
      simp only [runLines, parsedRecords, List.isEmpty_cons, Bool.false_eq_true, if_false,
        hrec, List.filterMap_cons, List.foldl_cons]
      exact ih (push this record) hls

theorem runLines_up_to_error {P C : Type} (parseLine : List Char → Except Exn P)
    (push : C → P → C) (bad : List Char) (post : List (List Char)) (e : Exn)
    (hne : bad ≠ []) (hbad : parseLine bad = Except.error e) :
    ∀ (pre : List (List Char)) (this : C), WellFormed parseLine pre →
      runLines parseLine push (pre ++ bad :: post) this =
        ⟨(parsedRecords parseLine pre).foldl push this, some e⟩ := by
  intro pre
  induction pre with
  | nil =>
    intro this _
    have hempty : bad.isEmpty = false := by
      cases hq : bad with
      | nil => exact absurd hq hne
      | cons c cs => rfl
    simp only [List.nil_append, runLines, hempty, Bool.false_eq_true, if_false, hbad,
      parsedRecords, List.filterMap_nil, List.foldl_nil]
  | cons l ls ih =>
    intro this h
    have hls : WellFormed parseLine ls := fun s hs => h s (List.mem_cons_of_mem _ hs)
    cases hl : l with
    | nil =>
      simp only [List.cons_append, runLines, parsedRecords, List.isEmpty_nil, if_true,
        List.filterMap_cons]
      exact ih this hls
    | cons c cs =>
      obtain ⟨record, hrec⟩ := h l (List.mem_cons_self _ _) (by rw [hl]; simp)
      rw [hl] at hrec
      simp only [List.cons_append, runLines, parsedRecords, List.isEmpty_cons,
        Bool.false_eq_true, if_false, hrec, List.filterMap_cons, List.foldl_cons]
      exact ih (push this record) hls

theorem parsedRecords_wellformed {P : Type} (parseLine : List Char → Except Exn P) :
    ∀ lines : List (List Char), WellFormed parseLine lines →
      (parsedRecords parseLine lines).map Except.ok =
        (lines.filter (fun str => !str.isEmpty)).map parseLine := by
  intro lines
  induction lines with
  | nil =>
    intro _
    rfl
  | cons l ls ih =>
    intro h
    have hls : WellFormed parseLine ls := fun s hs => h s (List.mem_cons_of_mem _ hs)
    cases hl : l with
    | nil =>
      simp only [parsedRecords, List.isEmpty_nil, if_true, List.filterMap_cons,
        List.filter_cons, Bool.not_true, Bool.false_eq_true, if_false]
      exact ih hls
    | cons c cs =>
      obtain ⟨record, hrec⟩ := h l (List.mem_cons_self _ _) (by rw [hl]; simp)
      rw [hl] at hrec
      simp only [parsedRecords, List.isEmpty_cons, Bool.false_eq_true, if_false, hrec,
        List.filterMap_cons, List.filter_cons, Bool.not_false, if_true, List.map_cons]
      congr 1
      exact ih hls

/-! ## Facts about inserting a list of records -/

theorem insertAll_find_of_some {V : Type} (key : V → Nat) :
    ∀ (recs : List V) (this : UnorderedMap V) (k : Nat) (v : V), this.find k = some v →
      (recs.foldl (fun c p => (c.insert (key p, p)).1) this).find k = some v := by
  intro recs
  induction recs with
  | nil => intro this k v h; exact h
  | cons p recs ih =>
    intro this k v h
    rw [List.foldl_cons]
    exact ih _ k v (UnorderedMap.find_insert_of_find this (key p, p) k v h)

theorem insertAll_find_of_none {V : Type} (key : V → Nat) :
    ∀ (recs : List V) (this : UnorderedMap V) (k : Nat), this.find k = none →
      (recs.foldl (fun c p => (c.insert (key p, p)).1) this).find k =
        recs.find? (fun p => key p == k) := by
  intro recs
  induction recs with
  | nil => intro this k h; exact h
  | cons p recs ih =>
    intro this k h
    rw [List.foldl_cons]
    by_cases hk : key p = k
    · have hc : this.contains (key p, p).1 = false := by
        rw [← UnorderedMap.find_eq_none_iff]
        show this.find (key p) = none
        rw [hk]
        exact h
      have hs : (this.insert (key p, p)).1.find k = some p := by
        have := UnorderedMap.find_insert_self this (key p, p) hc
        rw [← hk]
        exact this
      rw [insertAll_find_of_some key recs _ k p hs]
      simp [List.find?, hk]
    · have hn : (this.insert (key p, p)).1.find k = none := by
        rw [UnorderedMap.find_insert_of_ne this (key p, p) k (fun hh => hk hh.symm)]
        exact h
      rw [ih _ k hn]
      have hb : (key p == k) = false := by simpa using hk
      simp [List.find?, hb]

theorem insertAll_contains {V : Type} (key : V → Nat) (recs : List V) (this : UnorderedMap V)
    (p : V) (hp : p ∈ recs) :
    (recs.foldl (fun c q => (c.insert (key q, q)).1) this).contains (key p) = true := by
  cases hc : (recs.foldl (fun c q => (c.insert (key q, q)).1) this).contains (key p) with
  | true => rfl
  | false =>
    have hnone := (UnorderedMap.find_eq_none_iff _ _).2 hc
    cases hf : this.find (key p) with
    | some v =>
      rw [insertAll_find_of_some key recs this (key p) v hf] at hnone
      cases hnone
    | none =>
      rw [insertAll_find_of_none key recs this (key p) hf, List.find?_eq_none] at hnone
      exact absurd (by simp) (hnone p hp)

theorem find_empty {V : Type} (k : Nat) : (UnorderedMap.empty : UnorderedMap V).find k = none :=
  rfl

theorem insertAll_mem_keys {V : Type} (key : V → Nat) (recs : List V) (k : Nat) :
    k ∈ keysOf (recs.foldl (fun c p => (c.insert (key p, p)).1)
      (UnorderedMap.empty : UnorderedMap V)).entries ↔ k ∈ recs.map key := by
  rw [← UnorderedMap.contains_eq_true_iff]
  constructor
  · intro hc
    have hne : (recs.foldl (fun c p => (c.insert (key p, p)).1)
        (UnorderedMap.empty : UnorderedMap V)).find k ≠ none := by
      intro hnone
      rw [UnorderedMap.find_eq_none_iff] at hnone
      rw [hnone] at hc
      cases hc
    rw [insertAll_find_of_none key recs _ k (find_empty k), Ne, List.find?_eq_none] at hne
    push_neg at hne
    obtain ⟨p, hp, hpk⟩ := hne
    exact List.mem_map.2 ⟨p, hp, by simpa using hpk⟩
  · intro hk
    obtain ⟨p, hp, rfl⟩ := List.mem_map.1 hk
    exact insertAll_contains key recs UnorderedMap.empty p hp

theorem insertAll_size {V : Type} (key : V → Nat) (recs : List V) :
    (recs.foldl (fun c p => (c.insert (key p, p)).1) UnorderedMap.empty).size =
      ((recs.map key).dedup).length := by
  have hnd := (recs.foldl (fun c p => (c.insert (key p, p)).1)
    (UnorderedMap.empty : UnorderedMap V)).nodup
  have h1 : (keysOf (recs.foldl (fun c p => (c.insert (key p, p)).1)
      (UnorderedMap.empty : UnorderedMap V)).entries).toFinset = (recs.map key).toFinset := by
    ext k
    simp only [List.mem_toFinset]
    exact insertAll_mem_keys key recs k
  have h2 := List.toFinset_card_of_nodup hnd
  rw [h1, List.card_toFinset] at h2
  rw [h2]
  simp [UnorderedMap.size, keysOf]

/-! ## Facts about ids that are not an int -/

theorem stoi_of_large_id (n : Nat) (h : 2 ^ 31 ≤ n) :
    stoi (putUInt n) = Except.error Exn.out_of_range := by
  obtain ⟨hne, hdig, hval⟩ := putUInt_decimal n
  unfold stoi
  rw [scanInt_of_digits _ hne hdig, hval]
  simp only
  rw [if_pos]
  right
  have := Int.ofNat_le.2 h
  simpa using this

theorem parseLine2_of_large_id {S : Type} (vt : ValueType S) (n : Nat) (rest : List Char)
    (h : 2 ^ 31 ≤ n) :
    RefPointSet2.parseLine vt (putUInt n ++ ',' :: rest) = Except.error Exn.out_of_range := by
  have f1 : findFrom (putUInt n ++ ',' :: rest) 0 ',' = (putUInt n).length := by
    have := findFrom_field ',' [] (putUInt n) rest 0 rfl (putUInt_no_comma n)
    simpa using this
  have s1 : substr (putUInt n ++ ',' :: rest) 0 (putUInt n).length = putUInt n := by
    have := substr_field [] (putUInt n) (',' :: rest) 0 (putUInt n).length rfl (by simp)
    simpa using this
  simp only [RefPointSet2.parseLine, f1, s1, stoi_of_large_id n h, bind, Except.bind]

theorem parseLine3_of_large_id {S : Type} (vt : ValueType S) (n : Nat) (rest : List Char)
    (h : 2 ^ 31 ≤ n) :
    RefPointSet3.parseLine vt (putUInt n ++ ',' :: rest) = Except.error Exn.out_of_range := by
  have f1 : findFrom (putUInt n ++ ',' :: rest) 0 ',' = (putUInt n).length := by
    have := findFrom_field ',' [] (putUInt n) rest 0 rfl (putUInt_no_comma n)
    simpa using this
  have s1 : substr (putUInt n ++ ',' :: rest) 0 (putUInt n).length = putUInt n := by
    have := substr_field [] (putUInt n) (',' :: rest) 0 (putUInt n).length rfl (by simp)
    simpa using this
  simp only [RefPointSet3.parseLine, f1, s1, stoi_of_large_id n h, bind, Except.bind]

theorem runLines_fails_of_bad_line {P C : Type} (parseLine : List Char → Except Exn P)
    (push : C → P → C) (bad : List Char) (post : List (List Char)) (e : Exn)
    (hne : bad ≠ []) (hbad : parseLine bad = Except.error e) :
    ∀ (pre : List (List Char)) (this : C),
      ∃ r e1, runLines parseLine push (pre ++ bad :: post) this = ⟨r, some e1⟩ := by
  intro pre
  induction pre with
  | nil =>
    intro this
    have hempty : bad.isEmpty = false := by
      cases hq : bad with
      | nil => exact absurd hq hne
      | cons c cs => rfl
    exact ⟨this, e, by simp only [List.nil_append, runLines, hempty, Bool.false_eq_true,
      if_false, hbad]⟩
  | cons l ls ih =>
    intro this
    cases hl : l with
    | nil =>
      simp only [List.cons_append, runLines, List.isEmpty_nil, if_true]
      exact ih this
    | cons c cs =>
      cases hp : parseLine (c :: cs) with
      | error e1 =>
        exact ⟨this, e1, by simp only [List.cons_append, runLines, List.isEmpty_cons,
          Bool.false_eq_true, if_false, hp]⟩
      | ok record =>
        simp only [List.cons_append, runLines, List.isEmpty_cons, Bool.false_eq_true,
          if_false, hp]
        exact ih (push this record)

theorem runLines_written_until_bad {α P C : Type} (parseLine : List Char → Except Exn P)
    (push : C → P → C) (enc : α → List Char) (dec : α → P) (bad : List Char)
    (post : List (List Char)) (e : Exn) (hne : bad ≠ [])
    (hbad : parseLine bad = Except.error e) :
    ∀ (before : List α) (this : C),
      (∀ a ∈ before, enc a ≠ [] ∧ parseLine (enc a) = Except.ok (dec a)) →
      runLines parseLine push (before.map enc ++ bad :: post) this =
        ⟨before.foldl (fun c a => push c (dec a)) this, some e⟩ := by
  intro before
  induction before with
  | nil =>
    intro this _
    have hempty : bad.isEmpty = false := by
      cases hq : bad with
      | nil => exact absurd hq hne
      | cons c cs => rfl
    simp only [List.map_nil, List.nil_append, runLines, hempty, Bool.false_eq_true, if_false,
      hbad, List.foldl_nil]
  | cons a before ih =>
    intro this h
    obtain ⟨hane, hparse⟩ := h a (List.mem_cons_self _ _)
    have hempty : (enc a).isEmpty = false := by
      cases hq : enc a with
      | nil => exact absurd hq hane
      | cons c cs => rfl
    have hstep : runLines parseLine push (enc a :: (before.map enc ++ bad :: post)) this =
        runLines parseLine push (before.map enc ++ bad :: post) (push this (dec a)) := by
      cases hq : enc a with
      | nil => exact absurd hq hane
      | cons c cs =>
        rw [hq] at hparse
        simp only [runLines, List.isEmpty_cons, Bool.false_eq_true, if_false, hparse]
    rw [List.map_cons, List.cons_append, hstep, List.foldl_cons]
    exact ih _ (fun b hb => h b (List.mem_cons_of_mem _ hb))

theorem linesOf_prefix (p s : List Char) (hp : '\n' ∉ p) :
    ∃ l ls, linesOf (p ++ s) = (p ++ l) :: ls := by
  rcases split_at_newline s with hs | ⟨l, rest, hs, hl⟩
  · refine ⟨s, [], ?_⟩
    apply linesOf_of_no_newline
    intro hmem
    rcases List.mem_append.1 hmem with h | h
    · exact hp h
    · exact hs h
  · refine ⟨l, linesOf rest, ?_⟩
    rw [hs, ← List.append_assoc]
    apply linesOf_line
    intro hmem
    rcases List.mem_append.1 hmem with h | h
    · exact hp h
    · exact hl h

theorem linesOf_after_records {α : Type} (body : α → List Char) :
    ∀ before : List α, ∃ pre : List (List Char), ∀ rest : List Char,
      linesOf (before.flatMap (fun a => body a ++ ['\n']) ++ rest) = pre ++ linesOf rest := by
  intro before
  induction before with
  | nil => exact ⟨[], fun rest => rfl⟩
  | cons a before ih =>
    obtain ⟨pre, hpre⟩ := ih
    refine ⟨linesOf (body a) ++ pre, fun rest => ?_⟩
    have hbuf : (a :: before).flatMap (fun a => body a ++ ['\n']) ++ rest =
        body a ++ '\n' :: (before.flatMap (fun a => body a ++ ['\n']) ++ rest) := by
      simp [List.flatMap_cons]
    rw [hbuf, linesOf_append_newline, hpre, List.append_assoc]

theorem split_at_first_large {α : Type} (f : α → Nat) :
    ∀ es : List α, (∃ e ∈ es, 2 ^ 31 ≤ f e) →
      ∃ before bad after, es = before ++ bad :: after ∧ (∀ a ∈ before, f a < 2 ^ 31) ∧
        2 ^ 31 ≤ f bad := by
  intro es
  induction es with
  | nil =>
    rintro ⟨e, he, _⟩
    cases he
  | cons a es ih =>
    intro h
    by_cases ha : 2 ^ 31 ≤ f a
    · exact ⟨[], a, es, rfl, fun _ hb => absurd hb (List.not_mem_nil _), ha⟩
    · have hes : ∃ e ∈ es, 2 ^ 31 ≤ f e := by
        obtain ⟨e, he, hle⟩ := h
        rcases List.mem_cons.1 he with rfl | he
        · exact absurd hle ha
        · exact ⟨e, he, hle⟩
      obtain ⟨before, bad, after, hsplit, hlt, hbad⟩ := ih hes
      refine ⟨a :: before, bad, after, by rw [hsplit]; rfl, ?_, hbad⟩
      intro b hb
      rcases List.mem_cons.1 hb with rfl | hb
      · exact Nat.lt_of_not_le ha
      · exact hlt b hb

theorem read_written_fails {α P C : Type} (parseLine : List Char → Except Exn P)
    (push : C → P → C) (body : α → List Char) (f : α → Nat)
    (hbody : ∀ a, ∃ rest, body a = putUInt (f a) ++ ',' :: rest)
    (hparse : ∀ n rest, 2 ^ 31 ≤ n →
      parseLine (putUInt n ++ ',' :: rest) = Except.error Exn.out_of_range)
    (es : List α) (h : ∃ e ∈ es, 2 ^ 31 ≤ f e) (this : C) :
    ∃ r e, runLines parseLine push (linesOf (es.flatMap (fun a => body a ++ ['\n']))) this =
      ⟨r, some e⟩ := by
  obtain ⟨before, bad, after, hsplit, _, hbad⟩ := split_at_first_large f es h
  obtain ⟨rest, hrest⟩ := hbody bad
  have htext : es.flatMap (fun a => body a ++ ['\n']) =
      before.flatMap (fun a => body a ++ ['\n']) ++
        ((putUInt (f bad) ++ [',']) ++
          (rest ++ '\n' :: after.flatMap (fun a => body a ++ ['\n']))) := by
    rw [hsplit, List.flatMap_append, List.flatMap_cons, hrest]
    simp
  obtain ⟨pre, hpre⟩ := linesOf_after_records body before
  obtain ⟨l, ls, hl⟩ := linesOf_prefix (putUInt (f bad) ++ [','])
    (rest ++ '\n' :: after.flatMap (fun a => body a ++ ['\n']))
    (by
      intro hmem
      rcases List.mem_append.1 hmem with h1 | h1
      · exact putUInt_no_newline _ h1
      · simp at h1)
  rw [htext, hpre, hl]
  refine runLines_fails_of_bad_line parseLine push _ ls Exn.out_of_range (by simp) ?_ pre this
  have := hparse (f bad) l hbad
  simpa using this

theorem read_written_until_large {α P C : Type} (parseLine : List Char → Except Exn P)
    (push : C → P → C) (body : α → List Char) (dec : α → P) (f : α → Nat)
    (hbody : ∀ a, ∃ rest, body a = putUInt (f a) ++ ',' :: rest)
    (hparse : ∀ n rest, 2 ^ 31 ≤ n →
      parseLine (putUInt n ++ ',' :: rest) = Except.error Exn.out_of_range)
    (es before : List α) (bad : α) (after : List α) (hsplit : es = before ++ bad :: after)
    (hnl : ∀ a ∈ es, '\n' ∉ body a)
    (hok : ∀ a ∈ before, parseLine (body a) = Except.ok (dec a))
    (hbad : 2 ^ 31 ≤ f bad) (this : C) :
    runLines parseLine push (linesOf (es.flatMap (fun a => body a ++ ['\n']))) this =
      ⟨before.foldl (fun c a => push c (dec a)) this, some Exn.out_of_range⟩ := by
  have hne : ∀ a, body a ≠ [] := by
    intro a
    obtain ⟨rest, hrest⟩ := hbody a
    rw [hrest]
    simp
  rw [linesOf_written body es hnl, hsplit, List.map_append, List.map_cons, List.append_assoc,
    List.cons_append]
  refine runLines_written_until_bad parseLine push body dec (body bad)
    (after.map body ++ [[]]) Exn.out_of_range (hne bad) ?_ before this
    (fun a ha => ⟨hne a, hok a ha⟩)
  obtain ⟨rest, hrest⟩ := hbody bad
  rw [hrest]
  exact hparse (f bad) rest hbad

theorem insertAll_keys_of_map {α V : Type} (key : V → Nat) (dec : α → V) (before : List α)
    (j : Nat)
    (hj : j ∈ keysOf (before.foldl (fun c a => (c.insert (key (dec a), dec a)).1)
      (UnorderedMap.empty : UnorderedMap V)).entries) :
    ∃ a ∈ before, key (dec a) = j := by
  have hfold : before.foldl (fun c a => (c.insert (key (dec a), dec a)).1)
      (UnorderedMap.empty : UnorderedMap V) =
      (before.map dec).foldl (fun c p => (c.insert (key p, p)).1) UnorderedMap.empty := by
    rw [List.foldl_map]
  rw [hfold, insertAll_mem_keys] at hj
  obtain ⟨p, hp, hpj⟩ := List.mem_map.1 hj
  obtain ⟨a, ha, rfl⟩ := List.mem_map.1 hp
  exact ⟨a, ha, hpj⟩

/-! ## Facts about the steps of the field splitting -/

theorem step_find (str : List Char) (n : Nat) (f rest : List Char)
    (hd : str.drop n = f ++ ',' :: rest) (hn : n ≤ str.length) (hf : ',' ∉ f) :
    findFrom str n ',' = n + f.length ∧ substr str n (n + f.length) = f ∧
      advance str (n + f.length) = Except.ok (n + f.length + 1) ∧
      str.drop (n + f.length + 1) = rest ∧ n + f.length + 1 ≤ str.length := by
  have hlen : str.length = n + f.length + 1 + rest.length := by
    have := congrArg List.length hd
    rw [List.length_drop] at this
    simp at this
    omega
  refine ⟨?_, ?_, ?_, ?_, by omega⟩
  · unfold findFrom
    rw [hd, takeWhile_ne_until ',' f rest hf]
  · unfold substr
    rw [hd, Nat.add_sub_cancel_left, List.take_left]
  · exact advance_of_lt _ _ (by omega)
  · have h1 : str.drop (n + f.length + 1) = (str.drop n).drop (f.length + 1) := by
      rw [List.drop_drop]
      congr 1
    rw [h1, hd]
    have h2 : f ++ ',' :: rest = (f ++ [',']) ++ rest := by simp
    rw [h2]
    exact List.drop_left' (by simp)

theorem step_end (str : List Char) (n : Nat) (hn : n ≤ str.length) (hd : ',' ∉ str.drop n) :
    findFrom str n ',' = str.length ∧ substr str n str.length = str.drop n ∧
      advance str str.length = Except.error Exn.undefined_behaviour := by
  refine ⟨?_, ?_, ?_⟩
  · unfold findFrom
    have : (str.drop n).takeWhile (fun d => d != ',') = str.drop n := by
      apply List.takeWhile_eq_self_iff.2
      intro c hc
      have : c ≠ ',' := fun h => hd (h ▸ hc)
      simpa using this
    rw [this, List.length_drop]
    omega
  · unfold substr
    apply List.take_of_length_le
    rw [List.length_drop]
  · unfold advance
    rw [if_neg (Nat.lt_irrefl _)]

theorem substr_to_end (str : List Char) (n : Nat) :
    substr str n str.length = str.drop n := by
  unfold substr
  apply List.take_of_length_le
  rw [List.length_drop]

theorem parseLine_point2_no_comma {S : Type} (vt : ValueType S) (str : List Char)
    (h1 : ',' ∉ str) :
    PointSet2.parseLine vt str =
      match vt.stod str with
      | Except.error e => Except.error e
      | Except.ok _ => Except.error Exn.undefined_behaviour := by
  obtain ⟨q1, s1, a1⟩ := step_end str 0 (Nat.zero_le _) (by simpa using h1)
  rw [List.drop_zero] at s1
  simp only [PointSet2.parseLine, q1, s1, a1, bind,
    Except.bind, pure, Except.pure]
  cases vt.stod str <;> rfl

theorem parseLine_point3_no_comma {S : Type} (vt : ValueType S) (str : List Char)
    (h1 : ',' ∉ str) :
    PointSet3.parseLine vt str =
      match vt.stod str with
      | Except.error e => Except.error e
      | Except.ok _ => Except.error Exn.undefined_behaviour := by
  obtain ⟨q1, s1, a1⟩ := step_end str 0 (Nat.zero_le _) (by simpa using h1)
  rw [List.drop_zero] at s1
  simp only [PointSet3.parseLine, q1, s1, a1, bind,
    Except.bind, pure, Except.pure]
  cases vt.stod str <;> rfl

theorem parseLine_point3_one_comma {S : Type} (vt : ValueType S) (f1 f2 : List Char)
    (h1 : ',' ∉ f1) (h2 : ',' ∉ f2) :
    PointSet3.parseLine vt (f1 ++ ',' :: f2) =
      match vt.stod f1 with
      | Except.error e => Except.error e
      | Except.ok _ =>
        match vt.stod f2 with
        | Except.error e => Except.error e
        | Except.ok _ => Except.error Exn.undefined_behaviour := by
  generalize hstr : f1 ++ ',' :: f2 = str
  have d0 : str.drop 0 = f1 ++ ',' :: f2 := by
    rw [List.drop_zero, hstr]
  obtain ⟨q1, s1, a1, d1, l1⟩ :=
    step_find str (0) f1 (f2) d0 (Nat.zero_le _) h1
  simp only [Nat.zero_add] at q1 s1 a1 d1 l1
  obtain ⟨q2, s2, a2⟩ :=
    step_end str (f1.length + 1) l1 (by rw [d1]; exact h2)
  rw [d1] at s2
  simp only [PointSet3.parseLine, q1, s1, a1, q2, s2, a2, bind,
    Except.bind, pure, Except.pure]
  cases vt.stod f1 with
  | error e => rfl
  | ok v0 =>
    simp only []
    cases vt.stod f2 <;> rfl

theorem parseLine_ref2_no_comma {S : Type} (vt : ValueType S) (str : List Char)
    (h1 : ',' ∉ str) :
    RefPointSet2.parseLine vt str =
      match stoi str with
      | Except.error e => Except.error e
      | Except.ok _ => Except.error Exn.undefined_behaviour := by
  obtain ⟨q1, s1, a1⟩ := step_end str 0 (Nat.zero_le _) (by simpa using h1)
  rw [List.drop_zero] at s1
  simp only [RefPointSet2.parseLine, q1, s1, a1, bind,
    Except.bind, pure, Except.pure]
  cases stoi str <;> rfl

theorem parseLine_ref2_one_comma {S : Type} (vt : ValueType S) (f1 f2 : List Char)
    (h1 : ',' ∉ f1) (h2 : ',' ∉ f2) :
    RefPointSet2.parseLine vt (f1 ++ ',' :: f2) =
      match stoi f1 with
      | Except.error e => Except.error e
      | Except.ok _ =>
        match vt.stod f2 with
        | Except.error e => Except.error e
        | Except.ok _ => Except.error Exn.undefined_behaviour := by
  generalize hstr : f1 ++ ',' :: f2 = str
  have d0 : str.drop 0 = f1 ++ ',' :: f2 := by
    rw [List.drop_zero, hstr]
  obtain ⟨q1, s1, a1, d1, l1⟩ :=
    step_find str (0) f1 (f2) d0 (Nat.zero_le _) h1
  simp only [Nat.zero_add] at q1 s1 a1 d1 l1
  obtain ⟨q2, s2, a2⟩ :=
    step_end str (f1.length + 1) l1 (by rw [d1]; exact h2)
  rw [d1] at s2
  simp only [RefPointSet2.parseLine, q1, s1, a1, q2, s2, a2, bind,
    Except.bind, pure, Except.pure]
  cases stoi f1 with
  | error e => rfl
  | ok v0 =>
    simp only []
    cases vt.stod f2 <;> rfl

theorem parseLine_ref3_no_comma {S : Type} (vt : ValueType S) (str : List Char)
    (h1 : ',' ∉ str) :
    RefPointSet3.parseLine vt str =
      match stoi str with
      | Except.error e => Except.error e
      | Except.ok _ => Except.error Exn.undefined_behaviour := by
  obtain ⟨q1, s1, a1⟩ := step_end str 0 (Nat.zero_le _) (by simpa using h1)
  rw [List.drop_zero] at s1
  simp only [RefPointSet3.parseLine, q1, s1, a1, bind,
    Except.bind, pure, Except.pure]
  cases stoi str <;> rfl

theorem parseLine_ref3_one_comma {S : Type} (vt : ValueType S) (f1 f2 : List Char)
    (h1 : ',' ∉ f1) (h2 : ',' ∉ f2) :
    RefPointSet3.parseLine vt (f1 ++ ',' :: f2) =
      match stoi f1 with
      | Except.error e => Except.error e
      | Except.ok _ =>
        match vt.stod f2 with
        | Except.error e => Except.error e
        | Except.ok _ => Except.error Exn.undefined_behaviour := by
  generalize hstr : f1 ++ ',' :: f2 = str
  have d0 : str.drop 0 = f1 ++ ',' :: f2 := by
    rw [List.drop_zero, hstr]
  obtain ⟨q1, s1, a1, d1, l1⟩ :=
    step_find str (0) f1 (f2) d0 (Nat.zero_le _) h1
  simp only [Nat.zero_add] at q1 s1 a1 d1 l1
  obtain ⟨q2, s2, a2⟩ :=
    step_end str (f1.length + 1) l1 (by rw [d1]; exact h2)
  rw [d1] at s2
  simp only [RefPointSet3.parseLine, q1, s1, a1, q2, s2, a2, bind,
    Except.bind, pure, Except.pure]
  cases stoi f1 with
  | error e => rfl
  | ok v0 =>
    simp only []
    cases vt.stod f2 <;> rfl

theorem parseLine_ref3_two_commas {S : Type} (vt : ValueType S) (f1 f2 f3 : List Char)
    (h1 : ',' ∉ f1) (h2 : ',' ∉ f2) (h3 : ',' ∉ f3) :
    RefPointSet3.parseLine vt (f1 ++ ',' :: (f2 ++ ',' :: f3)) =
      match stoi f1 with
      | Except.error e => Except.error e
      | Except.ok _ =>
        match vt.stod f2 with
        | Except.error e => Except.error e
        | Except.ok _ =>
          match vt.stod f3 with
          | Except.error e => Except.error e
          | Except.ok _ => Except.error Exn.undefined_behaviour := by
  generalize hstr : f1 ++ ',' :: (f2 ++ ',' :: f3) = str
  have d0 : str.drop 0 = f1 ++ ',' :: (f2 ++ ',' :: f3) := by
    rw [List.drop_zero, hstr]
  obtain ⟨q1, s1, a1, d1, l1⟩ :=
    step_find str (0) f1 (f2 ++ ',' :: f3) d0 (Nat.zero_le _) h1
  simp only [Nat.zero_add] at q1 s1 a1 d1 l1
  obtain ⟨q2, s2, a2, d2, l2⟩ :=
    step_find str (f1.length + 1) f2 (f3) d1 l1 h2
  obtain ⟨q3, s3, a3⟩ :=
    step_end str (f1.length + 1 + f2.length + 1) l2 (by rw [d2]; exact h3)
  rw [d2] at s3
  simp only [RefPointSet3.parseLine, q1, s1, a1, q2, s2, a2, q3, s3, a3, bind,
    Except.bind, pure, Except.pure]
  cases stoi f1 with
  | error e => rfl
  | ok v0 =>
    simp only []
    cases vt.stod f2 with
    | error e => rfl
    | ok v1 =>
      simp only []
      cases vt.stod f3 <;> rfl

theorem parseLine_fields_ref3 {S : Type} (vt : ValueType S) (f1 f2 f3 f4 : List Char)
    (h1 : ',' ∉ f1) (h2 : ',' ∉ f2) (h3 : ',' ∉ f3) :
    RefPointSet3.parseLine vt (f1 ++ ',' :: (f2 ++ ',' :: (f3 ++ ',' :: f4))) =
      match stoi f1 with
      | Except.error e => Except.error e
      | Except.ok id =>
        match vt.stod f2 with
        | Except.error e => Except.error e
        | Except.ok x =>
          match vt.stod f3 with
          | Except.error e => Except.error e
          | Except.ok y =>
            match vt.stod f4 with
            | Except.error e => Except.error e
            | Except.ok z => Except.ok (RefPoint3.make (toUInt id) x y z) := by
  generalize hstr : f1 ++ ',' :: (f2 ++ ',' :: (f3 ++ ',' :: f4)) = str
  have d0 : str.drop 0 = f1 ++ ',' :: (f2 ++ ',' :: (f3 ++ ',' :: f4)) := by
    rw [List.drop_zero, hstr]
  obtain ⟨q1, s1, a1, d1, l1⟩ :=
    step_find str (0) f1 (f2 ++ ',' :: (f3 ++ ',' :: f4)) d0 (Nat.zero_le _) h1
  simp only [Nat.zero_add] at q1 s1 a1 d1 l1
  obtain ⟨q2, s2, a2, d2, l2⟩ :=
    step_find str (f1.length + 1) f2 (f3 ++ ',' :: f4) d1 l1 h2
  obtain ⟨q3, s3, a3, d3, l3⟩ :=
    step_find str (f1.length + 1 + f2.length + 1) f3 (f4) d2 l2 h3
  have s4 := substr_to_end str (f1.length + 1 + f2.length + 1 + f3.length + 1)
  rw [d3] at s4
  simp only [RefPointSet3.parseLine, q1, s1, a1, q2, s2, a2, q3, s3, a3, s4, bind,
    Except.bind, pure, Except.pure]
  cases stoi f1 with
  | error e => rfl
  | ok v0 =>
    simp only []
    cases vt.stod f2 with
    | error e => rfl
    | ok v1 =>
      simp only []
      cases vt.stod f3 with
      | error e => rfl
      | ok v2 =>
        simp only []
        cases vt.stod f4 <;> rfl

theorem comma_fields (s : List Char) (h : 0 < s.count ',') :
    ∃ f rest, s = f ++ ',' :: rest ∧ ',' ∉ f ∧ s.count ',' = rest.count ',' + 1 := by
  induction s with
  | nil => simp at h
  | cons c cs ih =>
    by_cases hc : c = ','
    · refine ⟨[], cs, by simp [hc], by simp, ?_⟩
      rw [hc, List.count_cons_self]
    · have hcs : 0 < cs.count ',' := by
        rw [List.count_cons_of_ne (fun hh => hc hh.symm)] at h
        exact h
      obtain ⟨f, rest, hs, hf, hcount⟩ := ih hcs
      refine ⟨c :: f, rest, by simp [hs], ?_, ?_⟩
      · intro hmem
        rcases List.mem_cons.1 hmem with h1 | h1
        · exact hc h1.symm
        · exact hf h1
      · rw [List.count_cons_of_ne (fun hh => hc hh.symm)]
        exact hcount

theorem stoi_ne_undefined (s : List Char) : stoi s ≠ Except.error Exn.undefined_behaviour := by
  unfold stoi
  cases scanInt s with
  | none => simp
  | some v =>
    simp only
    split <;> simp

theorem intValueType_stod_ne_undefined (s : List Char) :
    intValueType.stod s ≠ Except.error Exn.undefined_behaviour := by
  show (match scanInt s with
    | none => Except.error Exn.invalid_argument
    | some v => Except.ok v) ≠ Except.error Exn.undefined_behaviour
  cases scanInt s <;> simp

/-! ## Facts about the inherited constructors -/

theorem find_pair_iff {V : Type} :
    ∀ (es : List (Nat × V)), (keysOf es).Nodup → ∀ (k : Nat) (v : V),
      (es.find? (fun e => e.1 == k)).map Prod.snd = some v ↔ (k, v) ∈ es := by
  intro es
  induction es with
  | nil =>
    intro _ k v
    simp
  | cons e es ih =>
    intro hnd k v
    have hnd1 : e.1 ∉ keysOf es ∧ (keysOf es).Nodup := by
      simpa [keysOf] using hnd
    by_cases hk : e.1 = k
    · have hb : (e.1 == k) = true := by simpa using hk
      have hfind : (e :: es).find? (fun e => e.1 == k) = some e := by
        simp only [List.find?_cons, hb]
      rw [hfind]
      constructor
      · intro h
        have hv : e.2 = v := by simpa using h
        rw [← hk, ← hv]
        exact List.mem_cons_self _ _
      · intro h
        rcases List.mem_cons.1 h with h1 | h1
        · rw [← h1]
          rfl
        · exfalso
          apply hnd1.1
          rw [hk]
          exact List.mem_map.2 ⟨(k, v), h1, rfl⟩
    · have hb : (e.1 == k) = false := by simpa using hk
      have hfind : (e :: es).find? (fun e => e.1 == k) = es.find? (fun e => e.1 == k) := by
        simp only [List.find?_cons, hb]
      rw [hfind, ih hnd1.2 k v]
      constructor
      · intro h
        exact List.mem_cons_of_mem _ h
      · intro h
        rcases List.mem_cons.1 h with h1 | h1
        · exfalso
          apply hk
          rw [← h1]
        · exact h1

theorem keyIs_iff_find {V : Type} (key : V → Nat) (m : UnorderedMap V) :
    (∀ e ∈ m.entries, key e.2 = e.1) ↔ ∀ k v, m.find k = some v → key v = k := by
  constructor
  · intro h k v hf
    exact h (k, v) ((find_pair_iff m.entries m.nodup k v).1 hf)
  · intro h e he
    exact h e.1 e.2 ((find_pair_iff m.entries m.nodup e.1 e.2).2 he)

theorem pairs_find_of_some {V : Type} :
    ∀ (il : List (Nat × V)) (this : UnorderedMap V) (k : Nat) (v : V), this.find k = some v →
      (il.foldl (fun m kv => (UnorderedMap.insert m kv).1) this).find k = some v := by
  intro il
  induction il with
  | nil => intro this k v h; exact h
  | cons kv il ih =>
    intro this k v h
    rw [List.foldl_cons]
    exact ih _ k v (UnorderedMap.find_insert_of_find this kv k v h)

theorem pairs_find_of_none {V : Type} :
    ∀ (il : List (Nat × V)) (this : UnorderedMap V) (k : Nat), this.find k = none →
      (il.foldl (fun m kv => (UnorderedMap.insert m kv).1) this).find k =
        (il.find? (fun kv => kv.1 == k)).map Prod.snd := by
  intro il
  induction il with
  | nil => intro this k h; exact h
  | cons kv il ih =>
    intro this k h
    rw [List.foldl_cons]
    by_cases hk : kv.1 = k
    · have hc : this.contains kv.1 = false := by
        rw [← UnorderedMap.find_eq_none_iff, hk]
        exact h
      have hs : (this.insert kv).1.find k = some kv.2 := by
        have := UnorderedMap.find_insert_self this kv hc
        rw [← hk]
        exact this
      have hb : (kv.1 == k) = true := by simpa using hk
      have hfind : (kv :: il).find? (fun e => e.1 == k) = some kv := by
        simp only [List.find?_cons, hb]
      rw [pairs_find_of_some il _ k kv.2 hs, hfind]
      rfl
    · have hn : (this.insert kv).1.find k = none := by
        rw [UnorderedMap.find_insert_of_ne this kv k (fun hh => hk hh.symm)]
        exact h
      have hb : (kv.1 == k) = false := by simpa using hk
      have hfind : (kv :: il).find? (fun e => e.1 == k) = il.find? (fun e => e.1 == k) := by
        simp only [List.find?_cons, hb]
      rw [ih _ k hn, hfind]

theorem keyIs_of_pairs_iff {V : Type} (key : V → Nat) (il : List (Nat × V)) :
    (∀ e ∈ (il.foldl (fun m kv => (UnorderedMap.insert m kv).1)
        (UnorderedMap.empty : UnorderedMap V)).entries, key e.2 = e.1) ↔
      ∀ k kv, il.find? (fun e => e.1 == k) = some kv → key kv.2 = kv.1 := by
  rw [keyIs_iff_find]
  constructor
  · intro h k kv hf
    have hk : kv.1 = k := by
      have := List.find?_some hf
      simpa using this
    have := h k kv.2 (by rw [pairs_find_of_none il _ k (find_empty k), hf]; rfl)
    rw [this, hk]
  · intro h k v hf
    rw [pairs_find_of_none il _ k (find_empty k)] at hf
    cases hq : il.find? (fun e => e.1 == k) with
    | none => rw [hq] at hf; cases hf
    | some kv =>
      rw [hq] at hf
      have hv : kv.2 = v := by simpa using hf
      have hk : kv.1 = k := by
        have := List.find?_some hq
        simpa using this
      rw [← hv, ← hk]
      exact h k kv hq

/-! ## Facts about the sampler -/

theorem coordinate_between {S F : Type} [LE S] [LE F] (sm : Sampler S F) (hsm : sm.Lawful)
    (axis : Nat) (lo hi : S) (h : sm.toFloat lo ≤ sm.toFloat hi) (k : Nat) :
    sm.InRange lo hi (sm.coordinate axis lo hi k) :=
  ⟨hsm.2 _ _ (hsm.1 axis _ _ k h).1, hsm.2 _ _ (hsm.1 axis _ _ k h).2⟩

theorem intSampler_lawful : intSampler.Lawful := by
  constructor
  · intro axis a b k hab
    show a ≤ (if a < b then a + Int.ofNat (k % (b - a).toNat) else a) ∧
      (if a < b then a + Int.ofNat (k % (b - a).toNat) else a) ≤ b
    split
    · next hlt =>
      have hpos : 0 < (b - a).toNat := by omega
      have hmod : k % (b - a).toNat < (b - a).toNat := Nat.mod_lt _ hpos
      have hcast : Int.ofNat (k % (b - a).toNat) = ((k % (b - a).toNat : Nat) : Int) := rfl
      rw [hcast]
      omega
    · exact ⟨Int.le_refl _, hab⟩
  · intro c d h
    exact h

theorem generateLoop_returns {V : Type} (mk : Nat → Nat → V) (key : V → Nat) (num : Nat) :
    ∀ (fuel k count : Nat) (ps : UnorderedMap V), num - count ≤ fuel → count ≤ num →
      ∃ r, generateLoop mk key none num fuel k count ps = some r := by
  intro fuel
  induction fuel with
  | zero =>
    intro k count ps hfuel hle
    have hc : count = num := by omega
    exact ⟨ps, by unfold generateLoop; rw [if_pos hc]⟩
  | succ fuel ih =>
    intro k count ps hfuel hle
    by_cases hc : count = num
    · exact ⟨ps, by unfold generateLoop; rw [if_pos hc]⟩
    · obtain ⟨r, hr⟩ := ih (k + 1) (count + 1)
        (ps.insert (key (mk count k), mk count k)).1 (by omega) (by omega)
      refine ⟨r, ?_⟩
      unfold generateLoop
      rw [if_neg hc]
      have hacc : accepts (none : Option (V → Bool)) (mk count k) = true := rfl
      rw [if_pos hacc]
      exact hr

theorem generate_vector_returns {S : Type} (u_x u_y : Nat → S) (num : Nat) (z : Point2 S) :
    ∀ (fuel k : Nat) (acc : List (Point2 S)), num - acc.length ≤ fuel → acc.length ≤ num →
      ∃ res, PointSet2.generate u_x u_y none num fuel k acc.length
        (acc ++ List.replicate (num - acc.length) z) = some res := by
  intro fuel
  induction fuel with
  | zero =>
    intro k acc hfuel hle
    have hc : acc.length = num := by omega
    exact ⟨_, by unfold PointSet2.generate; rw [if_pos hc]⟩
  | succ fuel ih =>
    intro k acc hfuel hle
    by_cases hc : acc.length = num
    · exact ⟨_, by unfold PointSet2.generate; rw [if_pos hc]⟩
    · have hlen : (acc ++ [Point2.mk (u_x k) (u_y k)]).length = acc.length + 1 := by simp
      obtain ⟨res, hres⟩ := ih (k + 1) (acc ++ [Point2.mk (u_x k) (u_y k)])
        (by rw [hlen]; omega) (by rw [hlen]; omega)
      refine ⟨res, ?_⟩
      unfold PointSet2.generate
      rw [if_neg hc]
      have hacc : accepts (none : Option (Point2 S → Bool)) (Point2.mk (u_x k) (u_y k)) =
          true := rfl
      simp only [hacc, if_true]
      rw [assignAt_next acc z _ num (by omega)]
      simp only
      rw [hlen] at hres ⊢
      exact hres

/-! ## Facts about fields without a number -/

theorem takeWhile_isdigit_eq_nil_iff (s : List Char) :
    s.takeWhile isdigit = [] ↔ startsInteger s = false := by
  cases s with
  | nil => simp [startsInteger]
  | cons c cs =>
    cases hc : isdigit c <;> simp [startsInteger, List.takeWhile_cons, hc]

theorem scanInt_eq_none_iff (s : List Char) : scanInt s = none ↔ NoInteger s := by
  unfold NoInteger
  rw [← takeWhile_isdigit_eq_nil_iff]
  unfold scanInt
  cases h : (splitSign (s.dropWhile isspace)).2.takeWhile isdigit with
  | nil => simp [h]
  | cons c cs => simp [h]

theorem stoi_invalid_iff (s : List Char) :
    stoi s = Except.error Exn.invalid_argument ↔ NoInteger s := by
  rw [← scanInt_eq_none_iff]
  unfold stoi
  cases h : scanInt s with
  | none => simp
  | some v =>
    simp only
    split <;> simp

theorem stoi_out_of_range_iff (s : List Char) :
    stoi s = Except.error Exn.out_of_range ↔
      ∃ v, scanInt s = some v ∧ (v < -(2 ^ 31 : Int) ∨ (2 ^ 31 : Int) ≤ v) := by
  unfold stoi
  cases h : scanInt s with
  | none => simp
  | some v =>
    simp only
    split
    · next hv =>
      constructor
      · intro _
        exact ⟨v, rfl, hv⟩
      · intro _
        rfl
    · next hv =>
      constructor
      · intro h1
        cases h1
      · rintro ⟨w, hw, hbad⟩
        injection hw with hw
        exact absurd (hw ▸ hbad) hv

theorem dropWhile_isspace_of_blanks (ws t : List Char) (hws : ∀ c ∈ ws, isspace c = true)
    (ht : ∀ c, t.head? = some c → isspace c = false) :
    (ws ++ t).dropWhile isspace = t := by
  induction ws with
  | nil =>
    cases t with
    | nil => rfl
    | cons c cs =>
      rw [List.nil_append, List.dropWhile_cons, ht c rfl]
      rfl
  | cons w ws ih =>
    rw [List.cons_append, List.dropWhile_cons, hws w (List.mem_cons_self _ _)]
    exact ih (fun c hc => hws c (List.mem_cons_of_mem _ hc))

theorem takeWhile_isdigit_of_digits (ds rest : List Char) (hds : ∀ c ∈ ds, isdigit c = true)
    (hrest : startsInteger rest = false) : (ds ++ rest).takeWhile isdigit = ds := by
  induction ds with
  | nil => exact (takeWhile_isdigit_eq_nil_iff rest).2 hrest
  | cons d ds ih =>
    rw [List.cons_append, List.takeWhile_cons, hds d (List.mem_cons_self _ _)]
    simp only [if_true]
    rw [ih (fun c hc => hds c (List.mem_cons_of_mem _ hc))]

theorem scanInt_of_leading_digits (ws sg ds rest : List Char)
    (hws : ∀ c ∈ ws, isspace c = true) (hsg : sg = [] ∨ sg = ['-'] ∨ sg = ['+'])
    (hne : ds ≠ []) (hds : ∀ c ∈ ds, isdigit c = true) (hrest : startsInteger rest = false) :
    scanInt (ws ++ sg ++ ds ++ rest) =
      some (if sg = ['-'] then -Int.ofNat (digitsValue 0 ds) else Int.ofNat (digitsValue 0 ds)) := by
  obtain ⟨d, ds1, rfl⟩ := List.exists_cons_of_ne_nil hne
  have hd := hds d (List.mem_cons_self _ _)
  have htake := takeWhile_isdigit_of_digits (d :: ds1) rest hds hrest
  have hassoc : ws ++ sg ++ (d :: ds1) ++ rest = ws ++ (sg ++ ((d :: ds1) ++ rest)) := by
    simp
  rw [hassoc]
  rcases hsg with rfl | rfl | rfl
  · have hdrop := dropWhile_isspace_of_blanks ws ([] ++ ((d :: ds1) ++ rest)) hws
      (fun c hc => by
        have : c = d := by simpa using hc.symm
        rw [this]
        exact isdigit_not_isspace d hd)
    unfold scanInt
    rw [hdrop]
    have hsplit : splitSign ([] ++ ((d :: ds1) ++ rest)) = (false, (d :: ds1) ++ rest) :=
      splitSign_of_digit d (ds1 ++ rest) hd
    simp only [hsplit, htake]
    simp
  · have hdrop := dropWhile_isspace_of_blanks ws (['-'] ++ ((d :: ds1) ++ rest)) hws
      (fun c hc => by
        have : c = '-' := by simpa using hc.symm
        rw [this]
        decide)
    unfold scanInt
    rw [hdrop]
    have hsplit : splitSign (['-'] ++ ((d :: ds1) ++ rest)) = (true, (d :: ds1) ++ rest) := rfl
    simp only [hsplit, htake]
    simp
  · have hdrop := dropWhile_isspace_of_blanks ws (['+'] ++ ((d :: ds1) ++ rest)) hws
      (fun c hc => by
        have : c = '+' := by simpa using hc.symm
        rw [this]
        decide)
    unfold scanInt
    rw [hdrop]
    have hsplit : splitSign (['+'] ++ ((d :: ds1) ++ rest)) = (false, (d :: ds1) ++ rest) :=
      rfl
    simp only [hsplit, htake]
    simp

theorem intValueType_rejects_non_numbers : intValueType.RejectsNonNumbers := by
  intro s hs
  have hno : NoInteger s := by
    unfold NoNumber at hs
    unfold NoInteger
    cases hrest : (splitSign (s.dropWhile isspace)).2 with
    | nil => rfl
    | cons c cs =>
      rw [hrest] at hs
      simp only [startsNumber, Bool.or_eq_false_iff] at hs
      exact hs.1.1.1
  have hscan := (scanInt_eq_none_iff s).2 hno
  show (match scanInt s with
    | none => Except.error Exn.invalid_argument
    | some v => Except.ok v) = Except.error Exn.invalid_argument
  rw [hscan]

theorem first_failing_line {P : Type} (parseLine : List Char → Except Exn P) :
    ∀ lines : List (List Char),
      (∃ bad ∈ lines, bad ≠ [] ∧ ∃ e, parseLine bad = Except.error e) →
      ∃ pre first post e, lines = pre ++ first :: post ∧ WellFormed parseLine pre ∧
        first ≠ [] ∧ parseLine first = Except.error e := by
  intro lines
  induction lines with
  | nil =>
    rintro ⟨bad, hmem, _⟩
    cases hmem
  | cons l ls ih =>
    rintro ⟨bad, hmem, hne, e, hbad⟩
    by_cases hl : l = []
    · have hin : bad ∈ ls := by
        rcases List.mem_cons.1 hmem with h | h
        · exact absurd (h.trans hl) hne
        · exact h
      obtain ⟨pre, first, post, e1, hsplit, hwf, hfne, hfirst⟩ := ih ⟨bad, hin, hne, e, hbad⟩
      refine ⟨l :: pre, first, post, e1, by rw [hsplit]; rfl, ?_, hfne, hfirst⟩
      intro str hstr hsne
      rcases List.mem_cons.1 hstr with h | h
      · exact absurd (h.trans hl) hsne
      · exact hwf str h hsne
    · cases hp : parseLine l with
      | error e1 => exact ⟨[], l, ls, e1, rfl, fun _ h => absurd h (List.not_mem_nil _), hl, hp⟩
      | ok record =>
        have hin : bad ∈ ls := by
          rcases List.mem_cons.1 hmem with h | h
          · rw [h, hp] at hbad
            cases hbad
          · exact h
        obtain ⟨pre, first, post, e1, hsplit, hwf, hfne, hfirst⟩ :=
          ih ⟨bad, hin, hne, e, hbad⟩
        refine ⟨l :: pre, first, post, e1, by rw [hsplit]; rfl, ?_, hfne, hfirst⟩
        intro str hstr hsne
        rcases List.mem_cons.1 hstr with h | h
        · exact ⟨record, by rw [h]; exact hp⟩
        · exact hwf str h hsne

theorem read_point2_first_failure {S : Type} (vt : ValueType S) (lay : Layout (Point2 S))
    (this : PointSet2 S) (content bad : List Char) (hmem : bad ∈ linesOf content)
    (hne : bad ≠ []) (hbad : ∃ e, PointSet2.parseLine vt bad = Except.error e) :
    ∃ pre first post e, linesOf content = pre ++ first :: post ∧
      WellFormed (PointSet2.parseLine vt) pre ∧ first ≠ [] ∧
      PointSet2.parseLine vt first = Except.error e ∧
      PointSet2.read vt lay this (some content) false =
        some ⟨this ++ parsedRecords (PointSet2.parseLine vt) pre, some e⟩ := by
  obtain ⟨pre, first, post, e, hsplit, hwf, hfne, hfirst⟩ :=
    first_failing_line (PointSet2.parseLine vt) (linesOf content) ⟨bad, hmem, hne, hbad⟩
  refine ⟨pre, first, post, e, hsplit, hwf, hfne, hfirst, ?_⟩
  rw [read_text_point2, hsplit, runLines_up_to_error _ _ first post e hfne hfirst pre this hwf]
  have hf : List.foldl push_back this (parsedRecords (PointSet2.parseLine vt) pre) =
      this ++ parsedRecords (PointSet2.parseLine vt) pre :=
    foldl_push_back (parsedRecords (PointSet2.parseLine vt) pre) this
  rw [hf]

theorem read_ref2_first_failure {S : Type} (vt : ValueType S) (lay : Layout (RefPoint2 S))
    (this : RefPointSet2 S) (content bad : List Char) (hmem : bad ∈ linesOf content)
    (hne : bad ≠ []) (hbad : ∃ e, RefPointSet2.parseLine vt bad = Except.error e) :
    ∃ pre first post e, linesOf content = pre ++ first :: post ∧
      WellFormed (RefPointSet2.parseLine vt) pre ∧ first ≠ [] ∧
      RefPointSet2.parseLine vt first = Except.error e ∧
      RefPointSet2.read vt lay this (some content) false =
        some ⟨(parsedRecords (RefPointSet2.parseLine vt) pre).foldl
          (fun c p => (RefPointSet2.insert c p).1) this, some e⟩ := by
  obtain ⟨pre, first, post, e, hsplit, hwf, hfne, hfirst⟩ :=
    first_failing_line (RefPointSet2.parseLine vt) (linesOf content) ⟨bad, hmem, hne, hbad⟩
  refine ⟨pre, first, post, e, hsplit, hwf, hfne, hfirst, ?_⟩
  rw [read_text_ref2, hsplit, runLines_up_to_error _ _ first post e hfne hfirst pre this hwf]

theorem parseLine_point2_of_bad_field {S : Type} (vt : ValueType S)
    (hstod : vt.RejectsNonNumbers) (f1 f2 : List Char) (h1 : ',' ∉ f1) :
    (NoNumber f1 →
      PointSet2.parseLine vt (f1 ++ ',' :: f2) = Except.error Exn.invalid_argument) ∧
    (NoNumber f2 → ∃ e, PointSet2.parseLine vt (f1 ++ ',' :: f2) = Except.error e ∧
      (e = Exn.invalid_argument ∨ vt.stod f1 = Except.error e)) := by
  rw [parseLine_fields_point2 vt f1 f2 h1]
  constructor
  · intro h
    rw [hstod f1 h]
  · intro h
    rw [hstod f2 h]
    cases hx : vt.stod f1 with
    | error e => exact ⟨e, rfl, Or.inr rfl⟩
    | ok x => exact ⟨Exn.invalid_argument, rfl, Or.inl rfl⟩

theorem parseLine_ref2_of_bad_id {S : Type} (vt : ValueType S) (f1 f2 f3 : List Char)
    (h1 : ',' ∉ f1) (h2 : ',' ∉ f2) :
    (NoInteger f1 →
      RefPointSet2.parseLine vt (f1 ++ ',' :: (f2 ++ ',' :: f3)) =
        Except.error Exn.invalid_argument) ∧
    ((∃ v, scanInt f1 = some v ∧ (v < -(2 ^ 31 : Int) ∨ (2 ^ 31 : Int) ≤ v)) →
      RefPointSet2.parseLine vt (f1 ++ ',' :: (f2 ++ ',' :: f3)) =
        Except.error Exn.out_of_range) := by
  rw [parseLine_fields_ref2 vt f1 f2 f3 h1 h2]
  refine ⟨?_, ?_⟩
  · intro h
    rw [(stoi_invalid_iff f1).2 h]
  · intro h
    rw [(stoi_out_of_range_iff f1).2 h]

theorem parseLine_ref2_of_bad_field {S : Type} (vt : ValueType S)
    (hstod : vt.RejectsNonNumbers) (f1 f2 f3 : List Char) (h1 : ',' ∉ f1) (h2 : ',' ∉ f2) :
    (NoNumber f2 →
      ∃ e, RefPointSet2.parseLine vt (f1 ++ ',' :: (f2 ++ ',' :: f3)) = Except.error e ∧
        (e = Exn.invalid_argument ∨ stoi f1 = Except.error e)) ∧
    (NoNumber f3 →
      ∃ e, RefPointSet2.parseLine vt (f1 ++ ',' :: (f2 ++ ',' :: f3)) = Except.error e ∧
        (e = Exn.invalid_argument ∨ stoi f1 = Except.error e ∨
          vt.stod f2 = Except.error e)) := by
  rw [parseLine_fields_ref2 vt f1 f2 f3 h1 h2]
  refine ⟨?_, ?_⟩
  · intro h
    rw [hstod f2 h]
    cases hid : stoi f1 with
    | error e => exact ⟨e, rfl, Or.inr rfl⟩
    | ok id => exact ⟨Exn.invalid_argument, rfl, Or.inl rfl⟩
  · intro h
    rw [hstod f3 h]
    cases hid : stoi f1 with
    | error e => exact ⟨e, rfl, Or.inr (Or.inl rfl)⟩
    | ok id =>
      simp only
      cases hx : vt.stod f2 with
      | error e => exact ⟨e, rfl, Or.inr (Or.inr rfl)⟩
      | ok x => exact ⟨Exn.invalid_argument, rfl, Or.inl rfl⟩

theorem stoi_of_leading_digits (ws sg ds rest : List Char)
    (hws : ∀ c ∈ ws, isspace c = true) (hsg : sg = [] ∨ sg = ['-'] ∨ sg = ['+'])
    (hne : ds ≠ []) (hds : ∀ c ∈ ds, isdigit c = true) (hrest : startsInteger rest = false) :
    stoi (ws ++ sg ++ ds ++ rest) =
      if (if sg = ['-'] then -Int.ofNat (digitsValue 0 ds) else Int.ofNat (digitsValue 0 ds)) <
            -(2 ^ 31 : Int) ∨
          (2 ^ 31 : Int) ≤
            (if sg = ['-'] then -Int.ofNat (digitsValue 0 ds) else Int.ofNat (digitsValue 0 ds))
      then Except.error Exn.out_of_range
      else Except.ok
        (if sg = ['-'] then -Int.ofNat (digitsValue 0 ds) else Int.ofNat (digitsValue 0 ds)) := by
  unfold stoi
  rw [scanInt_of_leading_digits ws sg ds rest hws hsg hne hds hrest]

theorem fieldsOf_no_comma (k : Nat) (str : List Char) (h : ',' ∉ str) :
    fieldsOf k str = [str] := by
  cases k with
  | zero => rfl
  | succ k =>
    unfold fieldsOf
    rw [if_neg h]

theorem fieldsOf_field (k : Nat) (f rest : List Char) (h : ',' ∉ f) :
    fieldsOf (k + 1) (f ++ ',' :: rest) = f :: fieldsOf k rest := by
  have hmem : ',' ∈ f ++ ',' :: rest := by simp
  rw [fieldsOf, if_pos hmem, takeWhile_ne_until ',' f rest h, dropWhile_ne_until ',' f rest h]
  rfl

theorem split_at_comma (s : List Char) (h : ',' ∈ s) :
    ∃ f rest, s = f ++ ',' :: rest ∧ ',' ∉ f := by
  obtain ⟨f, rest, hs, hf, _⟩ := comma_fields s (List.count_pos_iff.2 h)
  exact ⟨f, rest, hs, hf⟩

theorem parseLine_point2_of_field_without_number {S : Type} (vt : ValueType S)
    (hstod : vt.RejectsNonNumbers) (str : List Char)
    (h : ∃ f ∈ fieldsOf 1 str, NoNumber f) :
    ∃ e f, f ∈ fieldsOf 1 str ∧ vt.stod f = Except.error e ∧
      PointSet2.parseLine vt str = Except.error e := by
  by_cases hc : ',' ∈ str
  · obtain ⟨f1, f2, rfl, h1⟩ := split_at_comma str hc
    have hfields : fieldsOf 1 (f1 ++ ',' :: f2) = [f1, f2] := fieldsOf_field 0 f1 f2 h1
    rw [hfields] at h ⊢
    rw [parseLine_fields_point2 vt f1 f2 h1]
    cases hx : vt.stod f1 with
    | error e => exact ⟨e, f1, by simp, hx, rfl⟩
    | ok x =>
      obtain ⟨f, hf, hno⟩ := h
      have hf2 : NoNumber f2 := by
        rcases List.mem_cons.1 hf with rfl | hf
        · rw [hstod _ hno] at hx
          cases hx
        · rw [List.mem_singleton] at hf
          rw [← hf]
          exact hno
      exact ⟨Exn.invalid_argument, f2, by simp, hstod f2 hf2, by simp only [hstod f2 hf2]⟩
  · rw [fieldsOf_no_comma 1 str hc] at h ⊢
    obtain ⟨f, hf, hno⟩ := h
    rw [List.mem_singleton] at hf
    rw [hf] at hno
    refine ⟨Exn.invalid_argument, str, by simp, hstod str hno, ?_⟩
    rw [parseLine_point2_no_comma vt str hc, hstod str hno]

theorem parseLine_ref2_of_field_without_number {S : Type} (vt : ValueType S)
    (str : List Char)
    (h : NoInteger ((fieldsOf 2 str).headD []) ∨
      (∃ v, scanInt ((fieldsOf 2 str).headD []) = some v ∧
        (v < -(2 ^ 31 : Int) ∨ (2 ^ 31 : Int) ≤ v)) ∨
      (vt.RejectsNonNumbers ∧ ∃ f ∈ (fieldsOf 2 str).tail, NoNumber f)) :
    ∃ e, RefPointSet2.parseLine vt str = Except.error e ∧
      (stoi ((fieldsOf 2 str).headD []) = Except.error e ∨
        ∃ f ∈ (fieldsOf 2 str).tail, vt.stod f = Except.error e) := by
  have hid : ∀ f1 : List Char,
      (NoInteger f1 ∨ ∃ v, scanInt f1 = some v ∧ (v < -(2 ^ 31 : Int) ∨ (2 ^ 31 : Int) ≤ v)) →
      ∃ e, stoi f1 = Except.error e := by
    rintro f1 (h1 | h1)
    · exact ⟨_, (stoi_invalid_iff f1).2 h1⟩
    · exact ⟨_, (stoi_out_of_range_iff f1).2 h1⟩
  by_cases hc : ',' ∈ str
  · obtain ⟨f1, r1, rfl, h1⟩ := split_at_comma str hc
    by_cases hc2 : ',' ∈ r1
    · obtain ⟨f2, f3, rfl, h2⟩ := split_at_comma r1 hc2
      have hfields : fieldsOf 2 (f1 ++ ',' :: (f2 ++ ',' :: f3)) = [f1, f2, f3] := by
        rw [fieldsOf_field 1 f1 _ h1, fieldsOf_field 0 f2 f3 h2]
        rfl
      rw [hfields] at h ⊢
      simp only [List.headD_cons, List.tail_cons] at h ⊢
      rw [parseLine_fields_ref2 vt f1 f2 f3 h1 h2]
      cases hs : stoi f1 with
      | error e => exact ⟨e, rfl, Or.inl rfl⟩
      | ok id =>
        have hcoord : vt.RejectsNonNumbers ∧ ∃ f ∈ [f2, f3], NoNumber f := by
          rcases h with h | h | h
          · obtain ⟨e, he⟩ := hid f1 (Or.inl h)
            rw [he] at hs
            cases hs
          · obtain ⟨e, he⟩ := hid f1 (Or.inr h)
            rw [he] at hs
            cases hs
          · exact h
        obtain ⟨hstod, f, hf, hno⟩ := hcoord
        simp only
        cases hx : vt.stod f2 with
        | error e => exact ⟨e, rfl, Or.inr ⟨f2, by simp, hx⟩⟩
        | ok x =>
          have hf3 : NoNumber f3 := by
            rcases List.mem_cons.1 hf with rfl | hf
            · rw [hstod _ hno] at hx
              cases hx
            · rw [List.mem_singleton] at hf
              rw [← hf]
              exact hno
          exact ⟨Exn.invalid_argument, by simp only [hstod f3 hf3],
            Or.inr ⟨f3, by simp, hstod f3 hf3⟩⟩
    · have hfields : fieldsOf 2 (f1 ++ ',' :: r1) = [f1, r1] := by
        rw [fieldsOf_field 1 f1 _ h1, fieldsOf_no_comma 1 r1 hc2]
      rw [hfields] at h ⊢
      simp only [List.headD_cons, List.tail_cons] at h ⊢
      rw [parseLine_ref2_one_comma vt f1 r1 h1 hc2]
      cases hs : stoi f1 with
      | error e => exact ⟨e, rfl, Or.inl rfl⟩
      | ok id =>
        have hcoord : vt.RejectsNonNumbers ∧ ∃ f ∈ [r1], NoNumber f := by
          rcases h with h | h | h
          · obtain ⟨e, he⟩ := hid f1 (Or.inl h)
            rw [he] at hs
            cases hs
          · obtain ⟨e, he⟩ := hid f1 (Or.inr h)
            rw [he] at hs
            cases hs
          · exact h
        obtain ⟨hstod, f, hf, hno⟩ := hcoord
        rw [List.mem_singleton] at hf
        rw [hf] at hno
        exact ⟨Exn.invalid_argument, by simp only [hstod r1 hno],
          Or.inr ⟨r1, by simp, hstod r1 hno⟩⟩
  · have hfields : fieldsOf 2 str = [str] := fieldsOf_no_comma 2 str hc
    rw [hfields] at h ⊢
    simp only [List.headD_cons, List.tail_cons] at h ⊢
    rw [parseLine_ref2_no_comma vt str hc]
    have hbad : NoInteger str ∨
        ∃ v, scanInt str = some v ∧ (v < -(2 ^ 31 : Int) ∨ (2 ^ 31 : Int) ≤ v) := by
      rcases h with h | h | ⟨_, f, hf, _⟩
      · exact Or.inl h
      · exact Or.inr h
      · cases hf
    obtain ⟨e, he⟩ := hid str hbad
    rw [he]
    exact ⟨e, rfl, Or.inl rfl⟩

/-! ## The claims -/

/-- C1 fails as stated: the registry `{2147483648: (1, 2)}` satisfies the key-is-id invariant,
its id lies in `[0, n)` for `n = 2 ^ 32` and its coordinates are representable; it is written
in text mode as the line `2147483648,1,2`, and the text-mode read of that line into an empty
registry ends with `std::out_of_range` and an empty registry. -/
theorem text_round_trip_fails_at_large_id :
    KeyIsId2 regBig ∧
    (∀ e ∈ regBig.entries, e.1 < 2 ^ 32 ∧ Representable intValueType e.2.x ∧
      Representable intValueType e.2.y) ∧
    RefPointSet2.write intValueType sampleRefLayout2 regBig true false =
      Except.ok "2147483648,1,2\n".toList ∧
    RefPointSet2.read intValueType sampleRefLayout2 UnorderedMap.empty
      (some "2147483648,1,2\n".toList) false =
      some ⟨UnorderedMap.empty, some Exn.out_of_range⟩ := by
  decide

/-- C1, amended. Text round trip of a registry: let `R` be a registry (2D or 3D) that satisfies
the key-is-id invariant, whose ids are below `2 ^ 31` and whose coordinates are representable,
and let `W` be the same registry in whatever iteration order the writer meets. Then the
text-mode `write` of `W` succeeds, and the text-mode `read` of what it wrote into an empty
registry returns without exception a registry whose entries are, up to order, exactly the
entries of `R`. -/
theorem text_round_trip_of_registry {S : Type} (vt : ValueType S) :
    (∀ (lay : Layout (RefPoint2 S)) (R W : RefPointSet2 S), W.entries.Perm R.entries →
      KeyIsId2 R →
      (∀ e ∈ R.entries, e.1 < 2 ^ 31 ∧ Representable vt e.2.x ∧ Representable vt e.2.y) →
      ∃ text r, RefPointSet2.write vt lay W true false = Except.ok text ∧
        RefPointSet2.read vt lay UnorderedMap.empty (some text) false = some r ∧
        r.thrown = none ∧ r.container.entries.Perm R.entries) ∧
    (∀ (lay : Layout (RefPoint3 S)) (R W : RefPointSet3 S), W.entries.Perm R.entries →
      KeyIsId3 R →
      (∀ e ∈ R.entries, e.1 < 2 ^ 31 ∧ Representable vt e.2.x ∧ Representable vt e.2.y ∧
        Representable vt e.2.z) →
      ∃ text r, RefPointSet3.write vt lay W true false = Except.ok text ∧
        RefPointSet3.read vt lay UnorderedMap.empty (some text) false = some r ∧
        r.thrown = none ∧ r.container.entries.Perm R.entries) := by
  constructor
  · intro lay R W hperm hinv hrep
    obtain ⟨text, hw, hr⟩ := text_round_trip2 vt lay W
      (fun e he => hinv e (hperm.subset he)) (fun e he => hrep e (hperm.subset he))
    exact ⟨text, ⟨W, none⟩, hw, hr, rfl, hperm⟩
  · intro lay R W hperm hinv hrep
    obtain ⟨text, hw, hr⟩ := text_round_trip3 vt lay W
      (fun e he => hinv e (hperm.subset he)) (fun e he => hrep e (hperm.subset he))
    exact ⟨text, ⟨W, none⟩, hw, hr, rfl, hperm⟩

/-- C1, amended, at a concrete input: the registry `{0: (1, 2), 1: (3, 4)}`, written with
entry 1 first. -/
theorem text_round_trip_of_registry_witness :
    (reg10.entries.Perm reg01.entries ∧ KeyIsId2 reg01 ∧
      ∀ e ∈ reg01.entries, e.1 < 2 ^ 31 ∧ Representable intValueType e.2.x ∧
        Representable intValueType e.2.y) ∧
    ∃ text r, RefPointSet2.write intValueType sampleRefLayout2 reg10 true false =
        Except.ok text ∧
      RefPointSet2.read intValueType sampleRefLayout2 UnorderedMap.empty (some text) false =
        some r ∧
      r.thrown = none ∧ r.container.entries.Perm reg01.entries :=
  ⟨⟨List.Perm.swap _ _ _, by decide, by decide⟩,
    (text_round_trip_of_registry intValueType).1 sampleRefLayout2 reg01 reg10
      (List.Perm.swap _ _ _) (by decide) (by decide)⟩

/-- C2. Registry invariant: starting from an empty 2D registry, after every sequence of calls of
`insert`, text-mode `read`, binary-mode `read` and `randomGenerator` that returns (a `read` may
return by an exception), every entry stored under key `k` holds a reference point whose own id
is `k`. -/
theorem registry_calls_keep_key_is_id {S : Type} (vt : ValueType S)
    (lay : Layout (RefPoint2 S)) (calls : List (RegistryCall S)) (R : RefPointSet2 S)
    (h : runCalls vt lay calls UnorderedMap.empty = some R) :
    ∀ e ∈ R.entries, e.2.id = e.1 :=
  runCalls_keeps_keyIsId2 vt lay calls UnorderedMap.empty R keyIsId2_empty h

/-- C2, at a concrete input: a generator call, a binary read, two inserts (one refused) and a
text read that ends with an exception on its second line. -/
theorem registry_calls_keep_key_is_id_witness :
    runCalls intValueType sampleRefLayout2
      [RegistryCall.randomGenerator 2 (fun k => (k : Int)) (fun k => (k : Int) + 10) none 2,
        RegistryCall.readBinary (some "abcd".toList),
        RegistryCall.insert (RefPoint2.make 7 1 2),
        RegistryCall.insert (RefPoint2.make 97 5 5),
        RegistryCall.readText (some "3,4,5\nx".toList)]
      UnorderedMap.empty =
      some (UnorderedMap.mk [(97, RefPoint2.make 97 98 0), (99, RefPoint2.make 99 100 0),
        (7, RefPoint2.make 7 1 2), (3, RefPoint2.make 3 4 5)] (by decide)) ∧
    ∀ e ∈ [(97, RefPoint2.make 97 (98 : Int) 0), (99, RefPoint2.make 99 100 0),
        (7, RefPoint2.make 7 1 2), (3, RefPoint2.make 3 4 5)], e.2.id = e.1 :=
  ⟨by decide,
    registry_calls_keep_key_is_id intValueType sampleRefLayout2
      [RegistryCall.randomGenerator 2 (fun k => (k : Int)) (fun k => (k : Int) + 10) none 2,
        RegistryCall.readBinary (some "abcd".toList),
        RegistryCall.insert (RefPoint2.make 7 1 2),
        RegistryCall.insert (RefPoint2.make 97 5 5),
        RegistryCall.readText (some "3,4,5\nx".toList)]
      (UnorderedMap.mk [(97, RefPoint2.make 97 98 0), (99, RefPoint2.make 99 100 0),
        (7, RefPoint2.make 7 1 2), (3, RefPoint2.make 3 4 5)] (by decide)) (by decide)⟩

/-- C3. Insert with an id already present: when `p.id` is a key of the registry `R` (2D or 3D),
`insert(p)` reports `inserted = false` and returns `R` unchanged, so `at(p.id)` still gives the
old value, whatever the coordinates of `p` are. -/
theorem insert_present_id_keeps_registry {S : Type} :
    (∀ (R : RefPointSet2 S) (p : RefPoint2 S), R.contains p.id = true →
      RefPointSet2.insert R p = (R, false) ∧
      (RefPointSet2.insert R p).1.«at» p.id = R.«at» p.id) ∧
    (∀ (R : RefPointSet3 S) (p : RefPoint3 S), R.contains p.id = true →
      RefPointSet3.insert R p = (R, false) ∧
      (RefPointSet3.insert R p).1.«at» p.id = R.«at» p.id) := by
  constructor
  · intro R p h
    have h1 : RefPointSet2.insert R p = (R, false) := UnorderedMap.insert_of_contains R (p.id, p) h
    exact ⟨h1, by rw [h1]⟩
  · intro R p h
    have h1 : RefPointSet3.insert R p = (R, false) := UnorderedMap.insert_of_contains R (p.id, p) h
    exact ⟨h1, by rw [h1]⟩

/-- C3, at a concrete input: inserting `{1: (9, 9)}` into `{0: (1, 2), 1: (3, 4)}` is refused
and `at(1)` is still `(3, 4)`. -/
theorem insert_present_id_keeps_registry_witness :
    reg01.contains (RefPoint2.make 1 (9 : Int) 9).id = true ∧
    (RefPointSet2.insert reg01 (RefPoint2.make 1 9 9) = (reg01, false) ∧
      (RefPointSet2.insert reg01 (RefPoint2.make 1 9 9)).1.«at» 1 =
        Except.ok (RefPoint2.make 1 3 4)) :=
  ⟨by decide,
    (insert_present_id_keeps_registry.1 reg01 (RefPoint2.make 1 9 9) (by decide)).1,
    ((insert_present_id_keeps_registry.1 reg01 (RefPoint2.make 1 9 9) (by decide)).2).trans
      (by decide)⟩

/-- C4. Insert with a fresh id: when `p.id` is not a key of the registry `R` (2D or 3D),
`insert(p)` reports `inserted = true`, afterwards `at(p.id)` returns `p`, the size has grown by
exactly one, every entry of `R` is still there with the same value, and `at` is unchanged at
every other key. -/
theorem insert_fresh_id_adds_entry {S : Type} :
    (∀ (R : RefPointSet2 S) (p : RefPoint2 S), R.contains p.id = false →
      (RefPointSet2.insert R p).2 = true ∧
      (RefPointSet2.insert R p).1.«at» p.id = Except.ok p ∧
      (RefPointSet2.insert R p).1.size = R.size + 1 ∧
      (∀ k v, R.find k = some v → (RefPointSet2.insert R p).1.find k = some v) ∧
      (∀ k, k ≠ p.id → (RefPointSet2.insert R p).1.«at» k = R.«at» k)) ∧
    (∀ (R : RefPointSet3 S) (p : RefPoint3 S), R.contains p.id = false →
      (RefPointSet3.insert R p).2 = true ∧
      (RefPointSet3.insert R p).1.«at» p.id = Except.ok p ∧
      (RefPointSet3.insert R p).1.size = R.size + 1 ∧
      (∀ k v, R.find k = some v → (RefPointSet3.insert R p).1.find k = some v) ∧
      (∀ k, k ≠ p.id → (RefPointSet3.insert R p).1.«at» k = R.«at» k)) := by
  constructor
  · intro R p h
    refine ⟨(UnorderedMap.insert_entries_of_not_contains R (p.id, p) h).2,
      UnorderedMap.at_eq_of_find (UnorderedMap.find_insert_self R (p.id, p) h),
      UnorderedMap.size_insert_of_not_contains R (p.id, p) h,
      fun k v hv => UnorderedMap.find_insert_of_find R (p.id, p) k v hv, ?_⟩
    intro k hk
    unfold UnorderedMap.«at» RefPointSet2.insert
    rw [UnorderedMap.find_insert_of_ne R (p.id, p) k hk]
  · intro R p h
    refine ⟨(UnorderedMap.insert_entries_of_not_contains R (p.id, p) h).2,
      UnorderedMap.at_eq_of_find (UnorderedMap.find_insert_self R (p.id, p) h),
      UnorderedMap.size_insert_of_not_contains R (p.id, p) h,
      fun k v hv => UnorderedMap.find_insert_of_find R (p.id, p) k v hv, ?_⟩
    intro k hk
    unfold UnorderedMap.«at» RefPointSet3.insert
    rw [UnorderedMap.find_insert_of_ne R (p.id, p) k hk]

/-- C4, at a concrete input: inserting `{5: (9, 9)}` into `{0: (1, 2), 1: (3, 4)}`. -/
theorem insert_fresh_id_adds_entry_witness :
    reg01.contains (RefPoint2.make 5 (9 : Int) 9).id = false ∧
    (RefPointSet2.insert reg01 (RefPoint2.make 5 9 9)).2 = true ∧
    (RefPointSet2.insert reg01 (RefPoint2.make 5 9 9)).1.«at» 5 =
      Except.ok (RefPoint2.make 5 9 9) ∧
    (RefPointSet2.insert reg01 (RefPoint2.make 5 9 9)).1.size = 3 :=
  ⟨by decide,
    (insert_fresh_id_adds_entry.1 reg01 (RefPoint2.make 5 9 9) (by decide)).1,
    (insert_fresh_id_adds_entry.1 reg01 (RefPoint2.make 5 9 9) (by decide)).2.1,
    (insert_fresh_id_adds_entry.1 reg01 (RefPoint2.make 5 9 9) (by decide)).2.2.1⟩

/-- C5. Read-through resolution: for every store of registries and every RefLine (2D or 3D),
`p1()` is `at(pid1)` and `p2()` is `at(pid2)` on the registry that the line's pointer
designates in the current store; and for the line `createRefLine(a, b)` of the registry at
address `r`, once the entry `a` of that registry has been erased and inserted again with other
coordinates, `p1()` returns the new reference point. -/
theorem refline_resolves_through_current_registry {S : Type} :
    (∀ (store : Nat → RefPointSet2 S) (line : RefLine2),
      RefLine2.p1 store line = (store line.rps).«at» line.pid1 ∧
      RefLine2.p2 store line = (store line.rps).«at» line.pid2) ∧
    (∀ (store : Nat → RefPointSet2 S) (r a b : Nat) (x y : S),
      RefLine2.p1
        (storeAt store r (RefPointSet2.insert ((store r).erase a) (RefPoint2.make a x y)).1)
        (RefPointSet2.createRefLine2 r a b) = Except.ok (RefPoint2.make a x y) ∧
      RefLine2.p2
        (storeAt store r (RefPointSet2.insert ((store r).erase b) (RefPoint2.make b x y)).1)
        (RefPointSet2.createRefLine2 r a b) = Except.ok (RefPoint2.make b x y)) ∧
    (∀ (store : Nat → RefPointSet3 S) (line : RefLine3),
      RefLine3.p1 store line = (store line.rps).«at» line.pid1 ∧
      RefLine3.p2 store line = (store line.rps).«at» line.pid2) ∧
    (∀ (store : Nat → RefPointSet3 S) (r a b : Nat) (x y z : S),
      RefLine3.p1
        (storeAt store r (RefPointSet3.insert ((store r).erase a) (RefPoint3.make a x y z)).1)
        (RefPointSet3.createRefLine3 r a b) = Except.ok (RefPoint3.make a x y z) ∧
      RefLine3.p2
        (storeAt store r (RefPointSet3.insert ((store r).erase b) (RefPoint3.make b x y z)).1)
        (RefPointSet3.createRefLine3 r a b) = Except.ok (RefPoint3.make b x y z)) := by
  refine ⟨fun _ _ => ⟨rfl, rfl⟩, ?_, fun _ _ => ⟨rfl, rfl⟩, ?_⟩
  · intro store r a b x y
    constructor
    · simp only [RefLine2.p1, RefPointSet2.createRefLine2, storeAt, if_true]
      exact UnorderedMap.at_eq_of_find
        (UnorderedMap.find_insert_self _ (a, RefPoint2.make a x y)
          (UnorderedMap.contains_erase_self (store r) a))
    · simp only [RefLine2.p2, RefPointSet2.createRefLine2, storeAt, if_true]
      exact UnorderedMap.at_eq_of_find
        (UnorderedMap.find_insert_self _ (b, RefPoint2.make b x y)
          (UnorderedMap.contains_erase_self (store r) b))
  · intro store r a b x y z
    constructor
    · simp only [RefLine3.p1, RefPointSet3.createRefLine3, storeAt, if_true]
      exact UnorderedMap.at_eq_of_find
        (UnorderedMap.find_insert_self _ (a, RefPoint3.make a x y z)
          (UnorderedMap.contains_erase_self (store r) a))
    · simp only [RefLine3.p2, RefPointSet3.createRefLine3, storeAt, if_true]
      exact UnorderedMap.at_eq_of_find
        (UnorderedMap.find_insert_self _ (b, RefPoint3.make b x y z)
          (UnorderedMap.contains_erase_self (store r) b))

/-- C6. Resolution failure: for every RefLine (2D or 3D), `p1()` ends with an exception exactly
when `pid1` is not a key of the bound registry, `p2()` exactly when `pid2` is not, the exception
is the `std::out_of_range` of `at`, and `p1()` does not depend on `pid2` nor `p2()` on `pid1`. -/
theorem refline_fails_iff_id_absent {S : Type} :
    (∀ (store : Nat → RefPointSet2 S) (line : RefLine2) (e : Exn),
      (RefLine2.p1 store line = Except.error e ↔
        (e = Exn.out_of_range ∧ (store line.rps).contains line.pid1 = false)) ∧
      (RefLine2.p2 store line = Except.error e ↔
        (e = Exn.out_of_range ∧ (store line.rps).contains line.pid2 = false))) ∧
    (∀ (store : Nat → RefPointSet2 S) (r a b c : Nat),
      RefLine2.p1 store (RefLine2.mk a b r) = RefLine2.p1 store (RefLine2.mk a c r) ∧
      RefLine2.p2 store (RefLine2.mk a b r) = RefLine2.p2 store (RefLine2.mk c b r)) ∧
    (∀ (store : Nat → RefPointSet3 S) (line : RefLine3) (e : Exn),
      (RefLine3.p1 store line = Except.error e ↔
        (e = Exn.out_of_range ∧ (store line.rps).contains line.pid1 = false)) ∧
      (RefLine3.p2 store line = Except.error e ↔
        (e = Exn.out_of_range ∧ (store line.rps).contains line.pid2 = false))) ∧
    (∀ (store : Nat → RefPointSet3 S) (r a b c : Nat),
      RefLine3.p1 store (RefLine3.mk a b r) = RefLine3.p1 store (RefLine3.mk a c r) ∧
      RefLine3.p2 store (RefLine3.mk a b r) = RefLine3.p2 store (RefLine3.mk c b r)) :=
  ⟨fun store line e =>
      ⟨UnorderedMap.at_eq_error_iff (store line.rps) line.pid1 e,
        UnorderedMap.at_eq_error_iff (store line.rps) line.pid2 e⟩,
    fun _ _ _ _ _ => ⟨rfl, rfl⟩,
    fun store line e =>
      ⟨UnorderedMap.at_eq_error_iff (store line.rps) line.pid1 e,
        UnorderedMap.at_eq_error_iff (store line.rps) line.pid2 e⟩,
    fun _ _ _ _ _ => ⟨rfl, rfl⟩⟩

/-- C7. Reverse is an involution: for every RefLine (2D or 3D), calling `reverse()` twice gives
back the line itself, that is the original `(pid1, pid2)` pair and the original registry
pointer. -/
theorem reverse_twice_restores_line :
    (∀ line : RefLine2, line.reverse.reverse = line) ∧
    (∀ line : RefLine3, line.reverse.reverse = line) :=
  ⟨fun _ => rfl, fun _ => rfl⟩

/-- C8. `reverse()` and `reversed()` agree and keep the binding: for every RefLine (2D or 3D)
with ids `(a, b)` and registry pointer `r`, `reversed()` is the line with ids `(b, a)` and the
same pointer `r`, and `reverse()` turns the receiver into that same line. -/
theorem reverse_agrees_with_reversed :
    (∀ a b r : Nat,
      (RefLine2.mk a b r).reversed = RefLine2.mk b a r ∧
      (RefLine2.mk a b r).reverse = (RefLine2.mk a b r).reversed ∧
      (RefLine2.mk a b r).reverse.refPointSet = r ∧
      (RefLine2.mk a b r).reversed.refPointSet = (RefLine2.mk a b r).refPointSet) ∧
    (∀ a b r : Nat,
      (RefLine3.mk a b r).reversed = RefLine3.mk b a r ∧
      (RefLine3.mk a b r).reverse = (RefLine3.mk a b r).reversed ∧
      (RefLine3.mk a b r).reverse.refPointSet = r ∧
      (RefLine3.mk a b r).reversed.refPointSet = (RefLine3.mk a b r).refPointSet) :=
  ⟨fun _ _ _ => ⟨rfl, rfl, rfl, rfl⟩, fun _ _ _ => ⟨rfl, rfl, rfl, rfl⟩⟩

/-- C9, evaluated on the code: a text-mode `read` of the one-line file `1,2` into the point
list `[(9, 9)]` returns `[(9, 9), (1, 2)]`, not the `[(1, 2)]` that the same read gives on an
empty list; the 3D point list and the registry keep their prior content in the same way. -/
theorem text_read_keeps_prior_content :
    PointSet2.read intValueType sampleLayout2 [Point2.mk 9 9] (some "1,2\n".toList) false =
      some ⟨[Point2.mk 9 9, Point2.mk 1 2], none⟩ ∧
    PointSet2.read intValueType sampleLayout2 [] (some "1,2\n".toList) false =
      some ⟨[Point2.mk 1 2], none⟩ ∧
    PointSet3.read intValueType sampleLayout3 [Point3.mk 9 9 9] (some "1,2,3\n".toList) false =
      some ⟨[Point3.mk 9 9 9, Point3.mk 1 2 3], none⟩ ∧
    PointSet3.read intValueType sampleLayout3 [] (some "1,2,3\n".toList) false =
      some ⟨[Point3.mk 1 2 3], none⟩ ∧
    RefPointSet2.read intValueType sampleRefLayout2 reg01 (some "5,6,7\n".toList) false =
      some ⟨UnorderedMap.mk [(0, RefPoint2.make 0 1 2), (1, RefPoint2.make 1 3 4),
        (5, RefPoint2.make 5 6 7)] (by decide), none⟩ ∧
    RefPointSet2.read intValueType sampleRefLayout2 UnorderedMap.empty
        (some "5,6,7\n".toList) false =
      some ⟨UnorderedMap.mk [(5, RefPoint2.make 5 6 7)] (by decide), none⟩ := by
  decide

/-- C10. Binary-mode read discards prior content: whatever a plain point list or a registry
(2D or 3D) held before, a binary-mode `read` of a file that opens returns without exception;
the point list is then exactly the list of the records decoded from the file, in file order,
and the registry is the one obtained by inserting the decoded records, in file order, into an
empty registry, so that each of its entries is a decoded record under that record's id. -/
theorem binary_read_discards_prior_content {S : Type} (vt : ValueType S) :
    (∀ (lay : Layout (Point2 S)) (this : PointSet2 S) (content : List Char),
      PointSet2.read vt lay this (some content) true = some ⟨recordsOf lay content, none⟩) ∧
    (∀ (lay : Layout (Point3 S)) (this : PointSet3 S) (content : List Char),
      PointSet3.read vt lay this (some content) true = some ⟨recordsOf lay content, none⟩) ∧
    (∀ (lay : Layout (RefPoint2 S)) (this : RefPointSet2 S) (content : List Char),
      RefPointSet2.read vt lay this (some content) true =
        some ⟨(recordsOf lay content).foldl (fun c p => (RefPointSet2.insert c p).1)
          UnorderedMap.empty, none⟩ ∧
      ∀ e ∈ ((recordsOf lay content).foldl (fun c p => (RefPointSet2.insert c p).1)
          UnorderedMap.empty).entries, ∃ p ∈ recordsOf lay content, e = (p.id, p)) ∧
    (∀ (lay : Layout (RefPoint3 S)) (this : RefPointSet3 S) (content : List Char),
      RefPointSet3.read vt lay this (some content) true =
        some ⟨(recordsOf lay content).foldl (fun c p => (RefPointSet3.insert c p).1)
          UnorderedMap.empty, none⟩ ∧
      ∀ e ∈ ((recordsOf lay content).foldl (fun c p => (RefPointSet3.insert c p).1)
          UnorderedMap.empty).entries, ∃ p ∈ recordsOf lay content, e = (p.id, p)) := by
  refine ⟨?_, ?_, ?_, ?_⟩
  · intro lay this content
    simp only [PointSet2.read, if_true, cleared_list, PointSet2.readBinary]
    exact vector_read_binary lay _ content
  · intro lay this content
    simp only [PointSet3.read, if_true, cleared_list, PointSet3.readBinary]
    exact vector_read_binary lay _ content
  · intro lay this content
    constructor
    · simp only [RefPointSet2.read, if_true, cleared_map, RefPointSet2.readBinary]
      exact map_read_binary lay (fun p => p.id) content
    · intro e he
      rcases UnorderedMap.insertAll_entries_from (fun p : RefPoint2 S => p.id) _ _ e he
        with h | h
      · cases h
      · exact h
  · intro lay this content
    constructor
    · simp only [RefPointSet3.read, if_true, cleared_map, RefPointSet3.readBinary]
      exact map_read_binary lay (fun p => p.id) content
    · intro e he
      rcases UnorderedMap.insertAll_entries_from (fun p : RefPoint3 S => p.id) _ _ e he
        with h | h
      · cases h
      · exact h

/-- C11 fails as stated: in the one-line file `7abc,1,2` the id field `7abc` is a number
followed by letters, not a numeric token; `std::stoi` converts its numeric prefix, and the
text-mode read into an empty registry returns normally with the registry `{7: (1, 2)}`. -/
theorem text_read_accepts_number_followed_by_letters :
    stoi "7abc".toList = Except.ok 7 ∧
    RefPointSet2.read intValueType sampleRefLayout2 UnorderedMap.empty
        (some "7abc,1,2\n".toList) false =
      some ⟨UnorderedMap.mk [(7, RefPoint2.make 7 1 2)] (by decide), none⟩ := by
  decide

/-- C11, amended. A field without a number is rejected. (1, 2) When some non-blank line of the
file is a line on which the parse of the loop body throws, the text-mode `read` of a plain
point list or of a registry ends at the first such line, with the exception thrown there, and
the container holds what it held before followed by the records of the lines before that line.
(3, 4) On a line with the separators of its record the parse throws exactly when the
conversion of one of its fields throws, with the exception of the first such field.
(5 to 9) `std::stoi` throws `std::invalid_argument` exactly on a field in which, after white
space and an optional sign, no digit follows, so on an empty field; it throws
`std::out_of_range` exactly when the number it finds is not an `int`; and a field that starts
with a number is converted from these digits alone, whatever follows them. (10 to 14) The
fields of a line are the text before each of the first commas and the rest of the line. A
line whose id field holds no number, or a number that is not an `int`, throws the exception of
`std::stoi`; when `std::stod` throws `std::invalid_argument` on every field that holds no
number, a line with a coordinate field without number throws the exception of a field
conversion; and a file with such a non-blank line is read as in (1, 2). (15 to 17) On a line
with its separators the exception is `std::invalid_argument` for a first field without number,
`std::out_of_range` for an id that is not an `int`, and otherwise `std::invalid_argument`
unless the conversion of an earlier field has thrown. -/
theorem text_read_fails_on_unconvertible_field {S : Type} (vt : ValueType S) :
    (∀ (lay : Layout (Point2 S)) (this : PointSet2 S) (content bad : List Char),
      bad ∈ linesOf content → bad ≠ [] → (∃ e, PointSet2.parseLine vt bad = Except.error e) →
      ∃ pre first post e, linesOf content = pre ++ first :: post ∧
        WellFormed (PointSet2.parseLine vt) pre ∧ first ≠ [] ∧
        PointSet2.parseLine vt first = Except.error e ∧
        PointSet2.read vt lay this (some content) false =
          some ⟨this ++ parsedRecords (PointSet2.parseLine vt) pre, some e⟩) ∧
    (∀ (lay : Layout (RefPoint2 S)) (this : RefPointSet2 S) (content bad : List Char),
      bad ∈ linesOf content → bad ≠ [] →
      (∃ e, RefPointSet2.parseLine vt bad = Except.error e) →
      ∃ pre first post e, linesOf content = pre ++ first :: post ∧
        WellFormed (RefPointSet2.parseLine vt) pre ∧ first ≠ [] ∧
        RefPointSet2.parseLine vt first = Except.error e ∧
        RefPointSet2.read vt lay this (some content) false =
          some ⟨(parsedRecords (RefPointSet2.parseLine vt) pre).foldl
            (fun c p => (RefPointSet2.insert c p).1) this, some e⟩) ∧
    (∀ f1 f2 : List Char, ',' ∉ f1 →
      PointSet2.parseLine vt (f1 ++ ',' :: f2) =
        match vt.stod f1 with
        | Except.error e => Except.error e
        | Except.ok x =>
          match vt.stod f2 with
          | Except.error e => Except.error e
          | Except.ok y => Except.ok (Point2.mk x y)) ∧
    (∀ f1 f2 f3 : List Char, ',' ∉ f1 → ',' ∉ f2 →
      RefPointSet2.parseLine vt (f1 ++ ',' :: (f2 ++ ',' :: f3)) =
        match stoi f1 with
        | Except.error e => Except.error e
        | Except.ok id =>
          match vt.stod f2 with
          | Except.error e => Except.error e
          | Except.ok x =>
            match vt.stod f3 with
            | Except.error e => Except.error e
            | Except.ok y => Except.ok (RefPoint2.make (toUInt id) x y)) ∧
    stoi [] = Except.error Exn.invalid_argument ∧
    (∀ (c : Char) (cs : List Char), isdigit c = false → isspace c = false → c ≠ '-' →
      c ≠ '+' → stoi (c :: cs) = Except.error Exn.invalid_argument) ∧
    (∀ s : List Char, stoi s = Except.error Exn.invalid_argument ↔ NoInteger s) ∧
    (∀ s : List Char, stoi s = Except.error Exn.out_of_range ↔
      ∃ v, scanInt s = some v ∧ (v < -(2 ^ 31 : Int) ∨ (2 ^ 31 : Int) ≤ v)) ∧
    (∀ ws sg ds rest : List Char, (∀ c ∈ ws, isspace c = true) →
      (sg = [] ∨ sg = ['-'] ∨ sg = ['+']) → ds ≠ [] → (∀ c ∈ ds, isdigit c = true) →
      startsInteger rest = false →
      stoi (ws ++ sg ++ ds ++ rest) =
        if (if sg = ['-'] then -Int.ofNat (digitsValue 0 ds)
              else Int.ofNat (digitsValue 0 ds)) < -(2 ^ 31 : Int) ∨
            (2 ^ 31 : Int) ≤
              (if sg = ['-'] then -Int.ofNat (digitsValue 0 ds)
                else Int.ofNat (digitsValue 0 ds))
        then Except.error Exn.out_of_range
        else Except.ok
          (if sg = ['-'] then -Int.ofNat (digitsValue 0 ds)
            else Int.ofNat (digitsValue 0 ds))) ∧
    ((∀ (k : Nat) (str : List Char), ',' ∉ str → fieldsOf k str = [str]) ∧
      (∀ f1 f2 : List Char, ',' ∉ f1 → fieldsOf 1 (f1 ++ ',' :: f2) = [f1, f2]) ∧
      (∀ f1 f2 f3 : List Char, ',' ∉ f1 → ',' ∉ f2 →
        fieldsOf 2 (f1 ++ ',' :: (f2 ++ ',' :: f3)) = [f1, f2, f3])) ∧
    (vt.RejectsNonNumbers → ∀ str : List Char, (∃ f ∈ fieldsOf 1 str, NoNumber f) →
      ∃ e f, f ∈ fieldsOf 1 str ∧ vt.stod f = Except.error e ∧
        PointSet2.parseLine vt str = Except.error e) ∧
    (∀ str : List Char,
      NoInteger ((fieldsOf 2 str).headD []) ∨
        (∃ v, scanInt ((fieldsOf 2 str).headD []) = some v ∧
          (v < -(2 ^ 31 : Int) ∨ (2 ^ 31 : Int) ≤ v)) ∨
        (vt.RejectsNonNumbers ∧ ∃ f ∈ (fieldsOf 2 str).tail, NoNumber f) →
      ∃ e, RefPointSet2.parseLine vt str = Except.error e ∧
        (stoi ((fieldsOf 2 str).headD []) = Except.error e ∨
          ∃ f ∈ (fieldsOf 2 str).tail, vt.stod f = Except.error e)) ∧
    (vt.RejectsNonNumbers →
      ∀ (lay : Layout (Point2 S)) (this : PointSet2 S) (content line : List Char),
      line ∈ linesOf content → line ≠ [] → (∃ f ∈ fieldsOf 1 line, NoNumber f) →
      ∃ pre first post e, linesOf content = pre ++ first :: post ∧
        WellFormed (PointSet2.parseLine vt) pre ∧ first ≠ [] ∧
        PointSet2.parseLine vt first = Except.error e ∧
        PointSet2.read vt lay this (some content) false =
          some ⟨this ++ parsedRecords (PointSet2.parseLine vt) pre, some e⟩) ∧
    (∀ (lay : Layout (RefPoint2 S)) (this : RefPointSet2 S) (content line : List Char),
      line ∈ linesOf content → line ≠ [] →
      NoInteger ((fieldsOf 2 line).headD []) ∨
        (∃ v, scanInt ((fieldsOf 2 line).headD []) = some v ∧
          (v < -(2 ^ 31 : Int) ∨ (2 ^ 31 : Int) ≤ v)) ∨
        (vt.RejectsNonNumbers ∧ ∃ f ∈ (fieldsOf 2 line).tail, NoNumber f) →
      ∃ pre first post e, linesOf content = pre ++ first :: post ∧
        WellFormed (RefPointSet2.parseLine vt) pre ∧ first ≠ [] ∧
        RefPointSet2.parseLine vt first = Except.error e ∧
        RefPointSet2.read vt lay this (some content) false =
          some ⟨(parsedRecords (RefPointSet2.parseLine vt) pre).foldl
            (fun c p => (RefPointSet2.insert c p).1) this, some e⟩) ∧
    (vt.RejectsNonNumbers → ∀ f1 f2 : List Char, ',' ∉ f1 →
      (NoNumber f1 →
        PointSet2.parseLine vt (f1 ++ ',' :: f2) = Except.error Exn.invalid_argument) ∧
      (NoNumber f2 → ∃ e, PointSet2.parseLine vt (f1 ++ ',' :: f2) = Except.error e ∧
        (e = Exn.invalid_argument ∨ vt.stod f1 = Except.error e))) ∧
    (∀ f1 f2 f3 : List Char, ',' ∉ f1 → ',' ∉ f2 →
      (NoInteger f1 →
        RefPointSet2.parseLine vt (f1 ++ ',' :: (f2 ++ ',' :: f3)) =
          Except.error Exn.invalid_argument) ∧
      ((∃ v, scanInt f1 = some v ∧ (v < -(2 ^ 31 : Int) ∨ (2 ^ 31 : Int) ≤ v)) →
        RefPointSet2.parseLine vt (f1 ++ ',' :: (f2 ++ ',' :: f3)) =
          Except.error Exn.out_of_range)) ∧
    (vt.RejectsNonNumbers → ∀ f1 f2 f3 : List Char, ',' ∉ f1 → ',' ∉ f2 →
      (NoNumber f2 →
        ∃ e, RefPointSet2.parseLine vt (f1 ++ ',' :: (f2 ++ ',' :: f3)) = Except.error e ∧
          (e = Exn.invalid_argument ∨ stoi f1 = Except.error e)) ∧
      (NoNumber f3 →
        ∃ e, RefPointSet2.parseLine vt (f1 ++ ',' :: (f2 ++ ',' :: f3)) = Except.error e ∧
          (e = Exn.invalid_argument ∨ stoi f1 = Except.error e ∨
            vt.stod f2 = Except.error e))) := by
  refine ⟨read_point2_first_failure vt, read_ref2_first_failure vt,
    parseLine_fields_point2 vt, parseLine_fields_ref2 vt, rfl, stoi_of_no_number,
    stoi_invalid_iff, stoi_out_of_range_iff, stoi_of_leading_digits,
    ⟨fieldsOf_no_comma, fun f1 f2 h1 => fieldsOf_field 0 f1 f2 h1, ?_⟩,
    parseLine_point2_of_field_without_number vt,
    parseLine_ref2_of_field_without_number vt, ?_, ?_,
    parseLine_point2_of_bad_field vt, parseLine_ref2_of_bad_id vt,
    parseLine_ref2_of_bad_field vt⟩
  · intro f1 f2 f3 h1 h2
    rw [fieldsOf_field 1 f1 _ h1, fieldsOf_field 0 f2 f3 h2]
    rfl
  · intro hstod lay this content line hmem hne hbad
    obtain ⟨e, _, _, _, he⟩ := parseLine_point2_of_field_without_number vt hstod line hbad
    exact read_point2_first_failure vt lay this content line hmem hne ⟨e, he⟩
  · intro lay this content line hmem hne hbad
    obtain ⟨e, he, _⟩ := parseLine_ref2_of_field_without_number vt line hbad
    exact read_ref2_first_failure vt lay this content line hmem hne ⟨e, he⟩

/-- C11, amended, at concrete inputs: the second line of the file `1,2`, `x,3` has the first
field `x`, which holds no number; the read ends there with `std::invalid_argument`, and the
list holds the point of the first line. The second line of the registry file `1,2,3`, `,4,5`
has an empty id field, and the read ends there in the same way. -/
theorem text_read_fails_on_unconvertible_field_witness :
    (intValueType.RejectsNonNumbers ∧
      "x,3".toList ∈ linesOf "1,2\nx,3\n".toList ∧ "x,3".toList ≠ [] ∧
      ∃ f ∈ fieldsOf 1 "x,3".toList, NoNumber f) ∧
    (∃ pre first post e, linesOf "1,2\nx,3\n".toList = pre ++ first :: post ∧
      WellFormed (PointSet2.parseLine intValueType) pre ∧ first ≠ [] ∧
      PointSet2.parseLine intValueType first = Except.error e ∧
      PointSet2.read intValueType sampleLayout2 [] (some "1,2\nx,3\n".toList) false =
        some ⟨[] ++ parsedRecords (PointSet2.parseLine intValueType) pre, some e⟩) ∧
    PointSet2.read intValueType sampleLayout2 [] (some "1,2\nx,3\n".toList) false =
      some ⟨[Point2.mk 1 2], some Exn.invalid_argument⟩ ∧
    (∃ pre first post e, linesOf "1,2,3\n,4,5\n".toList = pre ++ first :: post ∧
      WellFormed (RefPointSet2.parseLine intValueType) pre ∧ first ≠ [] ∧
      RefPointSet2.parseLine intValueType first = Except.error e ∧
      RefPointSet2.read intValueType sampleRefLayout2 UnorderedMap.empty
          (some "1,2,3\n,4,5\n".toList) false =
        some ⟨(parsedRecords (RefPointSet2.parseLine intValueType) pre).foldl
          (fun c p => (RefPointSet2.insert c p).1) UnorderedMap.empty, some e⟩) ∧
    RefPointSet2.read intValueType sampleRefLayout2 UnorderedMap.empty
        (some "1,2,3\n,4,5\n".toList) false =
      some ⟨UnorderedMap.mk [(1, RefPoint2.make 1 2 3)] (by decide),
        some Exn.invalid_argument⟩ :=
  ⟨⟨intValueType_rejects_non_numbers, by decide, by decide,
      ⟨"x".toList, by decide, by decide⟩⟩,
    (text_read_fails_on_unconvertible_field intValueType).2.2.2.2.2.2.2.2.2.2.2.2.1
      intValueType_rejects_non_numbers sampleLayout2 [] "1,2\nx,3\n".toList "x,3".toList
      (by decide) (by decide) ⟨"x".toList, by decide, by decide⟩,
    by decide,
    (text_read_fails_on_unconvertible_field intValueType).2.2.2.2.2.2.2.2.2.2.2.2.2.1
      sampleRefLayout2 UnorderedMap.empty "1,2,3\n,4,5\n".toList ",4,5".toList
      (by decide) (by decide) (Or.inl (by decide)),
    by decide⟩

/-- C12. Text write format: for every container whose printed coordinates hold no newline,
text-mode `write` succeeds and its output is the concatenation, record by record, of the
record's fields in the order `[id,] x, y [, z]` joined by single commas and followed by one
newline; read line by line, the output is exactly one line per record, in the writer's order,
and nothing after the last newline. For the registry `{0: (1, 2), 1: (3, 4)}`, whose
coordinates print as `1`, `2`, `3`, `4`, the output is `0,1,2` and `1,3,4`, each followed by a
newline, in the order in which the writer meets the two entries. -/
theorem text_write_emits_one_line_per_record {S : Type} (vt : ValueType S) :
    (∀ (lay : Layout (Point2 S)) (this : PointSet2 S),
      (∀ p ∈ this, '\n' ∉ vt.put p.x ∧ '\n' ∉ vt.put p.y) →
      ∃ text, PointSet2.write vt lay this true false = Except.ok text ∧
        text = this.flatMap (fun p => (vt.put p.x ++ [','] ++ vt.put p.y) ++ ['\n']) ∧
        linesOf text = this.map (fun p => vt.put p.x ++ [','] ++ vt.put p.y) ++ [[]]) ∧
    (∀ (lay : Layout (Point3 S)) (this : PointSet3 S),
      (∀ p ∈ this, '\n' ∉ vt.put p.x ∧ '\n' ∉ vt.put p.y ∧ '\n' ∉ vt.put p.z) →
      ∃ text, PointSet3.write vt lay this true false = Except.ok text ∧
        text = this.flatMap (fun p =>
          (vt.put p.x ++ [','] ++ vt.put p.y ++ [','] ++ vt.put p.z) ++ ['\n']) ∧
        linesOf text =
          this.map (fun p => vt.put p.x ++ [','] ++ vt.put p.y ++ [','] ++ vt.put p.z) ++
            [[]]) ∧
    (∀ (lay : Layout (RefPoint2 S)) (this : RefPointSet2 S),
      (∀ e ∈ this.entries, '\n' ∉ vt.put e.2.x ∧ '\n' ∉ vt.put e.2.y) →
      ∃ text, RefPointSet2.write vt lay this true false = Except.ok text ∧
        text = this.entries.flatMap (fun e =>
          (putUInt e.1 ++ [','] ++ vt.put e.2.x ++ [','] ++ vt.put e.2.y) ++ ['\n']) ∧
        linesOf text =
          this.entries.map (fun e =>
            putUInt e.1 ++ [','] ++ vt.put e.2.x ++ [','] ++ vt.put e.2.y) ++ [[]]) ∧
    (∀ (lay : Layout (RefPoint3 S)) (this : RefPointSet3 S),
      (∀ e ∈ this.entries, '\n' ∉ vt.put e.2.x ∧ '\n' ∉ vt.put e.2.y ∧ '\n' ∉ vt.put e.2.z) →
      ∃ text, RefPointSet3.write vt lay this true false = Except.ok text ∧
        text = this.entries.flatMap (fun e =>
          (putUInt e.2.id ++ [','] ++ vt.put e.2.x ++ [','] ++ vt.put e.2.y ++ [','] ++
            vt.put e.2.z) ++ ['\n']) ∧
        linesOf text =
          this.entries.map (fun e =>
            putUInt e.2.id ++ [','] ++ vt.put e.2.x ++ [','] ++ vt.put e.2.y ++ [','] ++
              vt.put e.2.z) ++ [[]]) ∧
    (∀ (lay : Layout (RefPoint2 S)) (a b c d : S),
      vt.put a = ['1'] → vt.put b = ['2'] → vt.put c = ['3'] → vt.put d = ['4'] →
      RefPointSet2.write vt lay
          (RefPointSet2.insert (RefPointSet2.insert UnorderedMap.empty (RefPoint2.make 0 a b)).1
            (RefPoint2.make 1 c d)).1 true false =
        Except.ok "0,1,2\n1,3,4\n".toList ∧
      RefPointSet2.write vt lay
          (RefPointSet2.insert (RefPointSet2.insert UnorderedMap.empty (RefPoint2.make 1 c d)).1
            (RefPoint2.make 0 a b)).1 true false =
        Except.ok "1,3,4\n0,1,2\n".toList) := by
  refine ⟨?_, ?_, ?_, ?_, ?_⟩
  · intro lay this h
    refine ⟨_, rfl, rfl, ?_⟩
    refine linesOf_written (fun p : Point2 S => vt.put p.x ++ [','] ++ vt.put p.y) this ?_
    intro p hp
    have h1 := (h p hp).1
    have h2 := (h p hp).2
    simp [h1, h2]
  · intro lay this h
    refine ⟨_, rfl, rfl, ?_⟩
    refine linesOf_written
      (fun p : Point3 S => vt.put p.x ++ [','] ++ vt.put p.y ++ [','] ++ vt.put p.z) this ?_
    intro p hp
    have h1 := (h p hp).1
    have h2 := (h p hp).2.1
    have h3 := (h p hp).2.2
    simp [h1, h2, h3]
  · intro lay this h
    refine ⟨_, rfl, rfl, ?_⟩
    refine linesOf_written (fun e : Nat × RefPoint2 S =>
      putUInt e.1 ++ [','] ++ vt.put e.2.x ++ [','] ++ vt.put e.2.y) this.entries ?_
    intro e he
    have h0 := putUInt_no_newline e.1
    have h1 := (h e he).1
    have h2 := (h e he).2
    simp [h0, h1, h2]
  · intro lay this h
    refine ⟨_, rfl, rfl, ?_⟩
    refine linesOf_written (fun e : Nat × RefPoint3 S =>
      putUInt e.2.id ++ [','] ++ vt.put e.2.x ++ [','] ++ vt.put e.2.y ++ [','] ++
        vt.put e.2.z) this.entries ?_
    intro e he
    have h0 := putUInt_no_newline e.2.id
    have h1 := (h e he).1
    have h2 := (h e he).2.1
    have h3 := (h e he).2.2
    simp [h0, h1, h2, h3]
  · intro lay a b c d ha hb hc hd
    constructor
    · have hent : (RefPointSet2.insert
          (RefPointSet2.insert UnorderedMap.empty (RefPoint2.make 0 a b)).1
          (RefPoint2.make 1 c d)).1.entries =
          [(0, RefPoint2.make 0 a b), (1, RefPoint2.make 1 c d)] := rfl
      simp only [RefPointSet2.write, hent]
      simp [RefPoint2.make, ha, hb, hc, hd, putUInt, Nat.toDigits, Nat.toDigitsCore,
        Nat.digitChar]
    · have hent : (RefPointSet2.insert
          (RefPointSet2.insert UnorderedMap.empty (RefPoint2.make 1 c d)).1
          (RefPoint2.make 0 a b)).1.entries =
          [(1, RefPoint2.make 1 c d), (0, RefPoint2.make 0 a b)] := rfl
      simp only [RefPointSet2.write, hent]
      simp [RefPoint2.make, ha, hb, hc, hd, putUInt, Nat.toDigits, Nat.toDigitsCore,
        Nat.digitChar]

/-- C12, at a concrete input: the registry `{0: (1, 2), 1: (3, 4)}` with integer coordinates,
written in both entry orders. -/
theorem text_write_emits_one_line_per_record_witness :
    (intValueType.put 1 = ['1'] ∧ intValueType.put 2 = ['2'] ∧ intValueType.put 3 = ['3'] ∧
      intValueType.put 4 = ['4']) ∧
    RefPointSet2.write intValueType sampleRefLayout2 reg01 true false =
      Except.ok "0,1,2\n1,3,4\n".toList ∧
    RefPointSet2.write intValueType sampleRefLayout2 reg10 true false =
      Except.ok "1,3,4\n0,1,2\n".toList :=
  ⟨by decide,
    (text_write_emits_one_line_per_record intValueType).2.2.2.2 sampleRefLayout2 1 2 3 4
      (by decide) (by decide) (by decide) (by decide)⟩

/-- C13. Blank lines are ignored on read: for every text input and every container (plain
point list or registry, 2D or 3D), an empty line inserted at the start of the input or right
after any newline of it (so at the start, in the middle or at the end), and a newline added at
the very end, leave the outcome of a text-mode `read` unchanged: the same container and the
same exception, if any. Any number of empty lines can be inserted by repeating this. -/
theorem text_read_ignores_blank_lines {S : Type} (vt : ValueType S) :
    (∀ (lay : Layout (Point2 S)) (this : PointSet2 S) (pre post : List Char),
      (pre = [] ∨ ∃ q, pre = q ++ ['\n']) →
      PointSet2.read vt lay this (some (pre ++ '\n' :: post)) false =
        PointSet2.read vt lay this (some (pre ++ post)) false ∧
      PointSet2.read vt lay this (some (post ++ ['\n'])) false =
        PointSet2.read vt lay this (some post) false) ∧
    (∀ (lay : Layout (Point3 S)) (this : PointSet3 S) (pre post : List Char),
      (pre = [] ∨ ∃ q, pre = q ++ ['\n']) →
      PointSet3.read vt lay this (some (pre ++ '\n' :: post)) false =
        PointSet3.read vt lay this (some (pre ++ post)) false ∧
      PointSet3.read vt lay this (some (post ++ ['\n'])) false =
        PointSet3.read vt lay this (some post) false) ∧
    (∀ (lay : Layout (RefPoint2 S)) (this : RefPointSet2 S) (pre post : List Char),
      (pre = [] ∨ ∃ q, pre = q ++ ['\n']) →
      RefPointSet2.read vt lay this (some (pre ++ '\n' :: post)) false =
        RefPointSet2.read vt lay this (some (pre ++ post)) false ∧
      RefPointSet2.read vt lay this (some (post ++ ['\n'])) false =
        RefPointSet2.read vt lay this (some post) false) ∧
    (∀ (lay : Layout (RefPoint3 S)) (this : RefPointSet3 S) (pre post : List Char),
      (pre = [] ∨ ∃ q, pre = q ++ ['\n']) →
      RefPointSet3.read vt lay this (some (pre ++ '\n' :: post)) false =
        RefPointSet3.read vt lay this (some (pre ++ post)) false ∧
      RefPointSet3.read vt lay this (some (post ++ ['\n'])) false =
        RefPointSet3.read vt lay this (some post) false) := by
  refine ⟨?_, ?_, ?_, ?_⟩
  · intro lay this pre post hpre
    simp only [read_text_point2]
    exact ⟨congrArg some (runLines_insert_blank _ _ this pre post hpre),
      congrArg some (runLines_final_newline _ _ this post)⟩
  · intro lay this pre post hpre
    simp only [read_text_point3]
    exact ⟨congrArg some (runLines_insert_blank _ _ this pre post hpre),
      congrArg some (runLines_final_newline _ _ this post)⟩
  · intro lay this pre post hpre
    simp only [read_text_ref2]
    exact ⟨congrArg some (runLines_insert_blank _ _ this pre post hpre),
      congrArg some (runLines_final_newline _ _ this post)⟩
  · intro lay this pre post hpre
    simp only [read_text_ref3]
    exact ⟨congrArg some (runLines_insert_blank _ _ this pre post hpre),
      congrArg some (runLines_final_newline _ _ this post)⟩

/-- C13, at a concrete input: an empty line between the lines `1,2` and `3,4`. -/
theorem text_read_ignores_blank_lines_witness :
    ("1,2\n".toList = [] ∨ ∃ q, "1,2\n".toList = q ++ ['\n']) ∧
    PointSet2.read intValueType sampleLayout2 [] (some "1,2\n\n3,4\n".toList) false =
      PointSet2.read intValueType sampleLayout2 [] (some "1,2\n3,4\n".toList) false ∧
    PointSet2.read intValueType sampleLayout2 [] (some "1,2\n3,4\n".toList) false =
      some ⟨[Point2.mk 1 2, Point2.mk 3 4], none⟩ :=
  ⟨Or.inr ⟨"1,2".toList, by decide⟩,
    ((text_read_ignores_blank_lines intValueType).1 sampleLayout2 [] "1,2\n".toList
      "3,4\n".toList (Or.inr ⟨"1,2".toList, by decide⟩)).1,
    by decide⟩

/-- C14 fails as stated: asked for one point with the x range `[16777217, 16777217]` and the y
range `[0, 0]`, the 2D point generator on the scalar type `int` returns the point
`(16777216, 0)`. The bound 16777217 is not a `float`: the cast that the generator applies to it
gives 16777216, the distribution is constructed on `[16777216, 16777216]`, and the x coordinate
of the point it returns is below the range given to the call. The sampler respects the
guarantees of the library. -/
theorem generator_leaves_range_at_unrepresentable_bound :
    intSampler.Lawful ∧
    floatOfInt 16777217 = 16777216 ∧
    PointSet2.randomGeneratorOn intSampler intValueType 1 16777217 16777217 0 0 none 1 =
      some (Except.ok [Point2.mk 16777216 0]) ∧
    ¬ ((16777217 : Int) ≤ (Point2.mk (16777216 : Int) 0).x) :=
  ⟨intSampler_lawful, by decide, by decide, by decide⟩

/-- C14, amended. Generator postcondition: let the sampler respect the guarantees of the
library. For every count `num`, every range per axis whose bounds are in order after the cast
to `float`, and every acceptance predicate (or none), whenever `randomGenerator` returns, it
returns a container and no exception, the container holds exactly `num` points, every point
satisfies the predicate when one is given, and every coordinate lies in the closed range
between the two bounds of its axis as the generator uses them, that is cast to `float` (plain
2D list, 2D and 3D registry). When the cast leaves both bounds unchanged, that is the range
given to the call. Without a predicate the generator returns within `num` iterations. -/
theorem generator_returns_accepted_points_in_range {S F : Type} [LE S] [LE F]
    (sm : Sampler S F) (hsm : sm.Lawful) :
    (∀ (vt : ValueType S) (num : Nat) (x_min x_max y_min y_max : S)
      (slor : Option (Point2 S → Bool)) (fuel : Nat) (res : Except Exn (PointSet2 S)),
      sm.toFloat x_min ≤ sm.toFloat x_max → sm.toFloat y_min ≤ sm.toFloat y_max →
      PointSet2.randomGeneratorOn sm vt num x_min x_max y_min y_max slor fuel = some res →
      ∃ ps, res = Except.ok ps ∧ ps.length = num ∧
        ∀ p ∈ ps, (sm.InRange x_min x_max p.x ∧ sm.InRange y_min y_max p.y) ∧
          ∀ f, slor = some f → f p = true) ∧
    (∀ (num : Nat) (x_min x_max y_min y_max : S) (slor : Option (RefPoint2 S → Bool))
      (fuel : Nat) (ps : RefPointSet2 S),
      sm.toFloat x_min ≤ sm.toFloat x_max → sm.toFloat y_min ≤ sm.toFloat y_max →
      RefPointSet2.randomGeneratorOn sm num x_min x_max y_min y_max slor fuel = some ps →
      ps.size = num ∧
        ∀ e ∈ ps.entries, (sm.InRange x_min x_max e.2.x ∧ sm.InRange y_min y_max e.2.y) ∧
          ∀ f, slor = some f → f e.2 = true) ∧
    (∀ (num : Nat) (x_min x_max y_min y_max z_min z_max : S)
      (slor : Option (RefPoint3 S → Bool)) (fuel : Nat) (ps : RefPointSet3 S),
      sm.toFloat x_min ≤ sm.toFloat x_max → sm.toFloat y_min ≤ sm.toFloat y_max →
      sm.toFloat z_min ≤ sm.toFloat z_max →
      RefPointSet3.randomGeneratorOn sm num x_min x_max y_min y_max z_min z_max slor fuel =
        some ps →
      ps.size = num ∧
        ∀ e ∈ ps.entries, (sm.InRange x_min x_max e.2.x ∧ sm.InRange y_min y_max e.2.y ∧
            sm.InRange z_min z_max e.2.z) ∧
          ∀ f, slor = some f → f e.2 = true) ∧
    (∀ lo hi v : S, sm.bound lo = lo → sm.bound hi = hi →
      (sm.InRange lo hi v ↔ lo ≤ v ∧ v ≤ hi)) ∧
    (∀ (vt : ValueType S) (num : Nat) (x_min x_max y_min y_max : S),
      ∃ res, PointSet2.randomGeneratorOn sm vt num x_min x_max y_min y_max none num =
        some res) ∧
    (∀ (num : Nat) (x_min x_max y_min y_max : S),
      ∃ ps, RefPointSet2.randomGeneratorOn sm num x_min x_max y_min y_max none num =
        some ps) ∧
    (∀ (num : Nat) (x_min x_max y_min y_max z_min z_max : S),
      ∃ ps, RefPointSet3.randomGeneratorOn sm num x_min x_max y_min y_max z_min z_max none
        num = some ps) := by
  refine ⟨?_, ?_, ?_, ?_, ?_, ?_, ?_⟩
  · intro vt num x_min x_max y_min y_max slor fuel res hx hy h
    exact generate_vector_result (sm.coordinate 0 x_min x_max) (sm.coordinate 1 y_min y_max)
      slor num (Point2.mk vt.zero vt.zero)
      (fun p => (sm.InRange x_min x_max p.x ∧ sm.InRange y_min y_max p.y) ∧
        ∀ f, slor = some f → f p = true)
      (fun j hacc => ⟨⟨coordinate_between sm hsm 0 x_min x_max hx j,
          coordinate_between sm hsm 1 y_min y_max hy j⟩,
        fun f hf => by rw [hf] at hacc; exact hacc⟩)
      fuel 0 [] res (Nat.zero_le _) (fun p hp => by cases hp) h
  · intro num x_min x_max y_min y_max slor fuel ps hx hy h
    unfold RefPointSet2.randomGeneratorOn RefPointSet2.randomGenerator at h
    rw [generate2_eq_loop] at h
    have hgen := generateLoop_result
      (fun c j => RefPoint2.make c (sm.coordinate 0 x_min x_max j)
        (sm.coordinate 1 y_min y_max j))
      (fun p => p.id) slor num (fun _ _ => rfl)
      (fun p => (sm.InRange x_min x_max p.x ∧ sm.InRange y_min y_max p.y) ∧
        ∀ f, slor = some f → f p = true)
      (fun c j hacc => ⟨⟨coordinate_between sm hsm 0 x_min x_max hx j,
          coordinate_between sm hsm 1 y_min y_max hy j⟩,
        fun f hf => by rw [hf] at hacc; exact hacc⟩)
      fuel 0 0 UnorderedMap.empty ps rfl (fun e he => by cases he) h
    exact ⟨(size_of_keys_range ps num hgen.1).1, fun e he => (hgen.2 e he).1⟩
  · intro num x_min x_max y_min y_max z_min z_max slor fuel ps hx hy hz h
    unfold RefPointSet3.randomGeneratorOn RefPointSet3.randomGenerator at h
    rw [generate3_eq_loop] at h
    have hgen := generateLoop_result
      (fun c j => RefPoint3.make c (sm.coordinate 0 x_min x_max j)
        (sm.coordinate 1 y_min y_max j) (sm.coordinate 2 z_min z_max j))
      (fun p => p.id) slor num (fun _ _ => rfl)
      (fun p => (sm.InRange x_min x_max p.x ∧ sm.InRange y_min y_max p.y ∧
          sm.InRange z_min z_max p.z) ∧
        ∀ f, slor = some f → f p = true)
      (fun c j hacc => ⟨⟨coordinate_between sm hsm 0 x_min x_max hx j,
          coordinate_between sm hsm 1 y_min y_max hy j,
          coordinate_between sm hsm 2 z_min z_max hz j⟩,
        fun f hf => by rw [hf] at hacc; exact hacc⟩)
      fuel 0 0 UnorderedMap.empty ps rfl (fun e he => by cases he) h
    exact ⟨(size_of_keys_range ps num hgen.1).1, fun e he => (hgen.2 e he).1⟩
  · intro lo hi v hlo hhi
    unfold Sampler.InRange
    rw [hlo, hhi]
  · intro vt num x_min x_max y_min y_max
    have := generate_vector_returns (sm.coordinate 0 x_min x_max)
      (sm.coordinate 1 y_min y_max) num (Point2.mk vt.zero vt.zero) num 0 []
      (by simp) (Nat.zero_le _)
    exact this
  · intro num x_min x_max y_min y_max
    unfold RefPointSet2.randomGeneratorOn RefPointSet2.randomGenerator
    rw [generate2_eq_loop]
    exact generateLoop_returns _ _ num num 0 0 UnorderedMap.empty (by omega) (Nat.zero_le _)
  · intro num x_min x_max y_min y_max z_min z_max
    unfold RefPointSet3.randomGeneratorOn RefPointSet3.randomGenerator
    rw [generate3_eq_loop]
    exact generateLoop_returns _ _ num num 0 0 UnorderedMap.empty (by omega) (Nat.zero_le _)

/-- C14, amended, at a concrete input: two points asked for from the sample sampler with the
ranges `[0, 4]` and `[10, 12]`, which the cast to `float` leaves unchanged, and a predicate
that accepts odd `x`; the call returns after four draws with the candidates of draws 1 and 3,
both in the ranges given. -/
theorem generator_returns_accepted_points_in_range_witness :
    (intSampler.Lawful ∧
      intSampler.toFloat 0 ≤ intSampler.toFloat 4 ∧
      intSampler.toFloat 10 ≤ intSampler.toFloat 12 ∧
      RefPointSet2.randomGeneratorOn intSampler 2 0 4 10 12 (some (fun p => p.x % 2 == 1)) 4 =
        some (UnorderedMap.mk [(0, RefPoint2.make 0 1 11), (1, RefPoint2.make 1 3 11)]
          (by decide))) ∧
    (UnorderedMap.mk [(0, RefPoint2.make 0 (1 : Int) 11), (1, RefPoint2.make 1 3 11)]
        (by decide)).size = 2 ∧
    ∀ e ∈ (UnorderedMap.mk [(0, RefPoint2.make 0 (1 : Int) 11), (1, RefPoint2.make 1 3 11)]
        (by decide)).entries,
      (intSampler.InRange 0 4 e.2.x ∧ intSampler.InRange 10 12 e.2.y) ∧
        ∀ f, some (fun p : RefPoint2 Int => p.x % 2 == 1) = some f → f e.2 = true :=
  ⟨⟨intSampler_lawful, by decide, by decide, by decide⟩,
    (generator_returns_accepted_points_in_range intSampler intSampler_lawful).2.1 2 0 4 10 12
      (some (fun p => p.x % 2 == 1)) 4
      (UnorderedMap.mk [(0, RefPoint2.make 0 1 11), (1, RefPoint2.make 1 3 11)] (by decide))
      (by decide) (by decide) (by decide)⟩

/-- C15. Generator ids are sequential: whenever the registry `randomGenerator` (2D or 3D)
returns for count `num`, the keys of the returned registry are exactly `0, ..., num - 1`, there
are `num` entries, and each entry holds a point whose id is its key, however many candidates
the predicate rejected on the way. -/
theorem generator_ids_are_sequential {S : Type} :
    (∀ (num : Nat) (u_x u_y : Nat → S) (slor : Option (RefPoint2 S → Bool))
      (fuel : Nat) (ps : RefPointSet2 S),
      RefPointSet2.randomGenerator num u_x u_y slor fuel = some ps →
      (∀ k, ps.contains k = true ↔ k < num) ∧ ps.size = num ∧
        ∀ e ∈ ps.entries, e.2.id = e.1) ∧
    (∀ (num : Nat) (u_x u_y u_z : Nat → S) (slor : Option (RefPoint3 S → Bool))
      (fuel : Nat) (ps : RefPointSet3 S),
      RefPointSet3.randomGenerator num u_x u_y u_z slor fuel = some ps →
      (∀ k, ps.contains k = true ↔ k < num) ∧ ps.size = num ∧
        ∀ e ∈ ps.entries, e.2.id = e.1) := by
  constructor
  · intro num u_x u_y slor fuel ps h
    unfold RefPointSet2.randomGenerator at h
    rw [generate2_eq_loop] at h
    have hgen := generateLoop_result (fun c j => RefPoint2.make c (u_x j) (u_y j))
      (fun p => p.id) slor num (fun _ _ => rfl) (fun _ => True) (fun _ _ _ => trivial)
      fuel 0 0 UnorderedMap.empty ps rfl (fun e he => by cases he) h
    exact ⟨(size_of_keys_range ps num hgen.1).2, (size_of_keys_range ps num hgen.1).1,
      fun e he => (hgen.2 e he).2⟩
  · intro num u_x u_y u_z slor fuel ps h
    unfold RefPointSet3.randomGenerator at h
    rw [generate3_eq_loop] at h
    have hgen := generateLoop_result (fun c j => RefPoint3.make c (u_x j) (u_y j) (u_z j))
      (fun p => p.id) slor num (fun _ _ => rfl) (fun _ => True) (fun _ _ _ => trivial)
      fuel 0 0 UnorderedMap.empty ps rfl (fun e he => by cases he) h
    exact ⟨(size_of_keys_range ps num hgen.1).2, (size_of_keys_range ps num hgen.1).1,
      fun e he => (hgen.2 e he).2⟩

/-- C15, at a concrete input: three points asked for, the predicate rejects the candidates of
draws 0, 2 and 4, and the ids of the result are 0, 1, 2. -/
theorem generator_ids_are_sequential_witness :
    RefPointSet2.randomGenerator 3 (fun k => (k : Int)) (fun k => (k : Int) + 10)
        (some (fun p => p.x % 2 == 1)) 6 =
      some (UnorderedMap.mk [(0, RefPoint2.make 0 1 11), (1, RefPoint2.make 1 3 13),
        (2, RefPoint2.make 2 5 15)] (by decide)) ∧
    ∀ k, (UnorderedMap.mk [(0, RefPoint2.make 0 (1 : Int) 11), (1, RefPoint2.make 1 3 13),
        (2, RefPoint2.make 2 5 15)] (by decide)).contains k = true ↔ k < 3 :=
  ⟨by decide,
    (generator_ids_are_sequential.1 3 (fun k => (k : Int)) (fun k => (k : Int) + 10)
      (some (fun p => p.x % 2 == 1)) 6
      (UnorderedMap.mk [(0, RefPoint2.make 0 1 11), (1, RefPoint2.make 1 3 13),
        (2, RefPoint2.make 2 5 15)] (by decide)) (by decide)).1⟩

/-- C16 fails as stated: with one point asked for, the x range `[16777217, 16777217]`, the y
range `[0, 0]` and a predicate that rejects every point whose x is 16777217, so every point of
the ranges, the 2D point generator on the scalar type `int` draws `(16777216, 0)` from the
bounds cast to `float`, the predicate accepts it, and the loop ends after one iteration. -/
theorem generator_returns_though_ranges_rejected :
    intSampler.Lawful ∧
    (∀ p : Point2 Int, 16777217 ≤ p.x → p.x ≤ 16777217 → 0 ≤ p.y → p.y ≤ 0 →
      (fun q : Point2 Int => q.x != 16777217) p = false) ∧
    PointSet2.randomGeneratorOn intSampler intValueType 1 16777217 16777217 0 0
        (some (fun q => q.x != 16777217)) 1 =
      some (Except.ok [Point2.mk 16777216 0]) :=
  ⟨intSampler_lawful,
    fun p h1 h2 _ _ => by
      have hx : p.x = 16777217 := Int.le_antisymm h2 h1
      simp [hx],
    by decide⟩

/-- C16, amended. Generator has no attempt cap: let the sampler respect the guarantees of the
library, `num > 0`, the bounds of each range be in order after the cast to `float`, and the
predicate reject every point whose coordinates lie between the bounds as the generator uses
them, that is cast to `float` (when the cast leaves the bounds unchanged: every point of the
ranges given). Then after any number `j` of iterations the loop of `randomGenerator` is in the
state it started from but for the `j` draws made (accepted count 0, container untouched), and
`randomGenerator` does not return within any number of iterations (plain 2D list and 2D
registry). The same holds for any sampler when the predicate rejects every point. With
`num = 0` the generator returns the empty container before the first draw, whatever the
sampler, the ranges and the predicate are. -/
theorem generator_runs_forever_when_all_rejected {S F : Type} [LE S] [LE F]
    (sm : Sampler S F) (hsm : sm.Lawful) :
    (∀ (vt : ValueType S) (num : Nat) (x_min x_max y_min y_max : S) (f : Point2 S → Bool),
      0 < num → sm.toFloat x_min ≤ sm.toFloat x_max → sm.toFloat y_min ≤ sm.toFloat y_max →
      (∀ p : Point2 S, sm.InRange x_min x_max p.x → sm.InRange y_min y_max p.y →
        f p = false) →
      (∀ j fuel : Nat,
        PointSet2.generate (sm.coordinate 0 x_min x_max) (sm.coordinate 1 y_min y_max)
            (some f) num (fuel + j) 0 0 (List.replicate num (Point2.mk vt.zero vt.zero)) =
          PointSet2.generate (sm.coordinate 0 x_min x_max) (sm.coordinate 1 y_min y_max)
            (some f) num fuel j 0 (List.replicate num (Point2.mk vt.zero vt.zero))) ∧
      ∀ fuel : Nat,
        PointSet2.randomGeneratorOn sm vt num x_min x_max y_min y_max (some f) fuel = none) ∧
    (∀ (num : Nat) (x_min x_max y_min y_max : S) (f : RefPoint2 S → Bool),
      0 < num → sm.toFloat x_min ≤ sm.toFloat x_max → sm.toFloat y_min ≤ sm.toFloat y_max →
      (∀ p : RefPoint2 S, sm.InRange x_min x_max p.x → sm.InRange y_min y_max p.y →
        f p = false) →
      (∀ j fuel : Nat,
        RefPointSet2.generate (sm.coordinate 0 x_min x_max) (sm.coordinate 1 y_min y_max)
            (some f) num (fuel + j) 0 0 UnorderedMap.empty =
          RefPointSet2.generate (sm.coordinate 0 x_min x_max) (sm.coordinate 1 y_min y_max)
            (some f) num fuel j 0 UnorderedMap.empty) ∧
      ∀ fuel : Nat,
        RefPointSet2.randomGeneratorOn sm num x_min x_max y_min y_max (some f) fuel = none) ∧
    (∀ lo hi v : S, sm.bound lo = lo → sm.bound hi = hi →
      (sm.InRange lo hi v ↔ lo ≤ v ∧ v ≤ hi)) ∧
    (∀ (any : Sampler S F) (vt : ValueType S) (num : Nat) (x_min x_max y_min y_max : S)
      (f : Point2 S → Bool), 0 < num → (∀ p, f p = false) →
      ∀ fuel : Nat,
        PointSet2.randomGeneratorOn any vt num x_min x_max y_min y_max (some f) fuel = none) ∧
    (∀ (any : Sampler S F) (num : Nat) (x_min x_max y_min y_max : S)
      (f : RefPoint2 S → Bool), 0 < num → (∀ p, f p = false) →
      ∀ fuel : Nat,
        RefPointSet2.randomGeneratorOn any num x_min x_max y_min y_max (some f) fuel = none) ∧
    (∀ (any : Sampler S F) (vt : ValueType S) (x_min x_max y_min y_max : S)
      (slor : Option (Point2 S → Bool)) (fuel : Nat),
      PointSet2.randomGeneratorOn any vt 0 x_min x_max y_min y_max slor fuel =
        some (Except.ok [])) ∧
    (∀ (any : Sampler S F) (x_min x_max y_min y_max : S)
      (slor : Option (RefPoint2 S → Bool)) (fuel : Nat),
      RefPointSet2.randomGeneratorOn any 0 x_min x_max y_min y_max slor fuel =
        some UnorderedMap.empty) := by
  refine ⟨?_, ?_, ?_, ?_, ?_, ?_, ?_⟩
  · intro vt num x_min x_max y_min y_max f hnum hx hy hrej
    have hstuck := generate_vector_rejecting (sm.coordinate 0 x_min x_max)
      (sm.coordinate 1 y_min y_max) (some f) num 0
      (List.replicate num (Point2.mk vt.zero vt.zero)) (by omega)
      (fun j => hrej _ (coordinate_between sm hsm 0 x_min x_max hx j)
        (coordinate_between sm hsm 1 y_min y_max hy j))
    refine ⟨fun j fuel => ?_, fun fuel => hstuck.2 fuel 0⟩
    have := hstuck.1 j fuel 0
    rwa [Nat.zero_add] at this
  · intro num x_min x_max y_min y_max f hnum hx hy hrej
    have hstuck := generateLoop_rejecting
      (fun c j => RefPoint2.make c (sm.coordinate 0 x_min x_max j)
        (sm.coordinate 1 y_min y_max j))
      (fun p => p.id) (some f) num 0 UnorderedMap.empty (by omega)
      (fun j => hrej _ (coordinate_between sm hsm 0 x_min x_max hx j)
        (coordinate_between sm hsm 1 y_min y_max hy j))
    refine ⟨fun j fuel => ?_, fun fuel => ?_⟩
    · have := hstuck.1 j fuel 0
      rw [Nat.zero_add] at this
      rw [generate2_eq_loop, generate2_eq_loop]
      exact this
    · unfold RefPointSet2.randomGeneratorOn RefPointSet2.randomGenerator
      rw [generate2_eq_loop]
      exact hstuck.2 fuel 0
  · intro lo hi v hlo hhi
    unfold Sampler.InRange
    rw [hlo, hhi]
  · intro any vt num x_min x_max y_min y_max f hnum hrej fuel
    exact (generate_vector_rejecting (any.coordinate 0 x_min x_max)
      (any.coordinate 1 y_min y_max) (some f) num 0
      (List.replicate num (Point2.mk vt.zero vt.zero)) (by omega)
      (fun _ => hrej _)).2 fuel 0
  · intro any num x_min x_max y_min y_max f hnum hrej fuel
    unfold RefPointSet2.randomGeneratorOn RefPointSet2.randomGenerator
    rw [generate2_eq_loop]
    exact (generateLoop_rejecting
      (fun c j => RefPoint2.make c (any.coordinate 0 x_min x_max j)
        (any.coordinate 1 y_min y_max j))
      (fun p => p.id) (some f) num 0 UnorderedMap.empty (by omega) (fun _ => hrej _)).2 fuel 0
  · intro any vt x_min x_max y_min y_max slor fuel
    cases fuel <;> rfl
  · intro any x_min x_max y_min y_max slor fuel
    cases fuel <;> rfl

/-- C16, amended, at a concrete input: one point asked for from the sample sampler with the
ranges `[0, 4]` and `[10, 12]`, which the cast to `float` leaves unchanged, and a predicate
that accepts only points with `x > 4`; the generator returns for no number of iterations. -/
theorem generator_runs_forever_when_all_rejected_witness :
    (intSampler.Lawful ∧ 0 < 1 ∧
      intSampler.toFloat 0 ≤ intSampler.toFloat 4 ∧
      intSampler.toFloat 10 ≤ intSampler.toFloat 12 ∧
      (∀ p : RefPoint2 Int, intSampler.InRange 0 4 p.x → intSampler.InRange 10 12 p.y →
        (fun q : RefPoint2 Int => decide (4 < q.x)) p = false)) ∧
    ∀ fuel : Nat, RefPointSet2.randomGeneratorOn intSampler 1 0 4 10 12
      (some (fun q => decide (4 < q.x))) fuel = none :=
  ⟨⟨intSampler_lawful, by decide, by decide, by decide,
      fun p hx _ => by
        have h4 : intSampler.bound 4 = 4 := by decide
        have h := hx.2
        rw [h4] at h
        simp only [decide_eq_false_iff_not, Int.not_lt]
        exact h⟩,
    ((generator_runs_forever_when_all_rejected intSampler intSampler_lawful).2.1 1 0 4 10 12
      (fun q => decide (4 < q.x)) (by decide) (by decide) (by decide)
      (fun p hx _ => by
        have h4 : intSampler.bound 4 = 4 := by decide
        have h := hx.2
        rw [h4] at h
        simp only [decide_eq_false_iff_not, Int.not_lt]
        exact h)).2⟩

/-- C17 fails as stated: the public constructor that the registry inherits from
`std::unordered_map` through `using container_type::container_type;` builds, from the
initializer list `{{5, RefPoint2(7, 1, 2)}}`, a registry whose entry under key 5 holds a
reference point with id 7. -/
theorem inherited_constructor_breaks_key_is_id :
    ¬ KeyIsId2 (RefPointSet2.ofInitializerList [(5, RefPoint2.make 7 (1 : Int) 2)]) ∧
    (RefPointSet2.ofInitializerList [(5, RefPoint2.make 7 (1 : Int) 2)]).«at» 5 =
      Except.ok (RefPoint2.make 7 1 2) ∧
    (RefPoint2.make 7 (1 : Int) 2).id ≠ 5 := by
  decide

/-- C17, amended. The registry's own operations keep key = id: the empty registry satisfies
the invariant; from a registry that satisfies it, `insert`, `erase`, `clear` and `read` (text
or binary, also when it ends by an exception) lead to a registry that satisfies it; and every
registry that `randomGenerator` returns satisfies it. The inherited initializer-list
constructor stores, for each key, the first pair given under it: the registry it builds
satisfies the invariant exactly when each of these first pairs has the id of its point as key,
in particular when every given pair does (2D and 3D). -/
theorem own_operations_keep_key_is_id {S : Type} (vt : ValueType S) :
    (KeyIsId2 (UnorderedMap.empty : RefPointSet2 S) ∧
      (∀ (R : RefPointSet2 S) (p : RefPoint2 S), KeyIsId2 R →
        KeyIsId2 (RefPointSet2.insert R p).1) ∧
      (∀ (R : RefPointSet2 S) (k : Nat), KeyIsId2 R → KeyIsId2 (R.erase k)) ∧
      (∀ R : RefPointSet2 S, KeyIsId2 R.clear) ∧
      (∀ (lay : Layout (RefPoint2 S)) (R : RefPointSet2 S) (file : Option (List Char))
        (binary : Bool) (r : Ran (RefPointSet2 S)), KeyIsId2 R →
        RefPointSet2.read vt lay R file binary = some r → KeyIsId2 r.container) ∧
      (∀ il : List (Nat × RefPoint2 S), (∀ kv ∈ il, kv.2.id = kv.1) →
        KeyIsId2 (RefPointSet2.ofInitializerList il))) ∧
    (KeyIsId3 (UnorderedMap.empty : RefPointSet3 S) ∧
      (∀ (R : RefPointSet3 S) (p : RefPoint3 S), KeyIsId3 R →
        KeyIsId3 (RefPointSet3.insert R p).1) ∧
      (∀ (R : RefPointSet3 S) (k : Nat), KeyIsId3 R → KeyIsId3 (R.erase k)) ∧
      (∀ R : RefPointSet3 S, KeyIsId3 R.clear) ∧
      (∀ (lay : Layout (RefPoint3 S)) (R : RefPointSet3 S) (file : Option (List Char))
        (binary : Bool) (r : Ran (RefPointSet3 S)), KeyIsId3 R →
        RefPointSet3.read vt lay R file binary = some r → KeyIsId3 r.container) ∧
      (∀ il : List (Nat × RefPoint3 S), (∀ kv ∈ il, kv.2.id = kv.1) →
        KeyIsId3 (RefPointSet3.ofInitializerList il))) ∧
    (∀ (num : Nat) (u_x u_y : Nat → S) (slor : Option (RefPoint2 S → Bool)) (fuel : Nat)
      (ps : RefPointSet2 S),
      RefPointSet2.randomGenerator num u_x u_y slor fuel = some ps → KeyIsId2 ps) ∧
    (∀ (num : Nat) (u_x u_y u_z : Nat → S) (slor : Option (RefPoint3 S → Bool)) (fuel : Nat)
      (ps : RefPointSet3 S),
      RefPointSet3.randomGenerator num u_x u_y u_z slor fuel = some ps → KeyIsId3 ps) ∧
    (∀ il : List (Nat × RefPoint2 S),
      KeyIsId2 (RefPointSet2.ofInitializerList il) ↔
        ∀ k kv, il.find? (fun e => e.1 == k) = some kv → kv.2.id = kv.1) ∧
    (∀ il : List (Nat × RefPoint3 S),
      KeyIsId3 (RefPointSet3.ofInitializerList il) ↔
        ∀ k kv, il.find? (fun e => e.1 == k) = some kv → kv.2.id = kv.1) :=
  ⟨⟨keyIsId2_empty, keyIsId2_insert,
      fun R k h => keyIs_erase (fun q : RefPoint2 S => q.id) R k h,
      fun _ => keyIsId2_empty,
      fun lay R file binary r h hr => read_keeps_keyIsId2 vt lay R file binary r h hr,
      fun il h => keyIs_insertAll (fun q : RefPoint2 S => q.id) il UnorderedMap.empty
        keyIsId2_empty h⟩,
    ⟨keyIsId3_empty, keyIsId3_insert,
      fun R k h => keyIs_erase (fun q : RefPoint3 S => q.id) R k h,
      fun _ => keyIsId3_empty,
      fun lay R file binary r h hr => read_keeps_keyIsId3 vt lay R file binary r h hr,
      fun il h => keyIs_insertAll (fun q : RefPoint3 S => q.id) il UnorderedMap.empty
        keyIsId3_empty h⟩,
    fun num u_x u_y slor fuel ps h =>
      generate_invariant u_x u_y slor num fuel 0 0 UnorderedMap.empty ps keyIsId2_empty h,
    fun num u_x u_y u_z slor fuel ps h e he =>
      ((generateLoop_result (fun c j => RefPoint3.make c (u_x j) (u_y j) (u_z j))
        (fun q => q.id) slor num (fun _ _ => rfl) (fun _ => True) (fun _ _ _ => trivial)
        fuel 0 0 UnorderedMap.empty ps rfl (fun e he => by cases he)
        ((generate3_eq_loop u_x u_y u_z slor num fuel 0 0 UnorderedMap.empty).symm.trans
          h)).2 e he).2,
    fun il => keyIs_of_pairs_iff (fun q : RefPoint2 S => q.id) il,
    fun il => keyIs_of_pairs_iff (fun q : RefPoint3 S => q.id) il⟩

/-- C17, amended, at a concrete input: erasing key 0 of `{0: (1, 2), 1: (3, 4)}` and reading
the line `5,6,7` in text mode; the initializer list `{{5, RefPoint2(5, 1, 2)}}`; and the
initializer list `{{5, RefPoint2(5, 1, 2)}, {5, RefPoint2(7, 1, 2)}}`, whose second pair is
not stored. -/
theorem own_operations_keep_key_is_id_witness :
    (KeyIsId2 reg01 ∧
      RefPointSet2.read intValueType sampleRefLayout2 (reg01.erase 0)
          (some "5,6,7\n".toList) false =
        some ⟨UnorderedMap.mk [(1, RefPoint2.make 1 3 4), (5, RefPoint2.make 5 6 7)]
          (by decide), none⟩ ∧
      ∀ kv ∈ [(5, RefPoint2.make 5 (1 : Int) 2)], kv.2.id = kv.1) ∧
    KeyIsId2 (UnorderedMap.mk [(1, RefPoint2.make 1 (3 : Int) 4), (5, RefPoint2.make 5 6 7)]
      (by decide)) ∧
    KeyIsId2 (RefPointSet2.ofInitializerList [(5, RefPoint2.make 5 (1 : Int) 2)]) ∧
    KeyIsId2 (RefPointSet2.ofInitializerList
      [(5, RefPoint2.make 5 (1 : Int) 2), (5, RefPoint2.make 7 1 2)]) :=
  ⟨⟨by decide, by decide, by decide⟩,
    (own_operations_keep_key_is_id intValueType).1.2.2.2.2.1 sampleRefLayout2
      (reg01.erase 0) (some "5,6,7\n".toList) false
      ⟨UnorderedMap.mk [(1, RefPoint2.make 1 3 4), (5, RefPoint2.make 5 6 7)] (by decide),
        none⟩
      ((own_operations_keep_key_is_id intValueType).1.2.2.1 reg01 0 (by decide)) (by decide),
    (own_operations_keep_key_is_id intValueType).1.2.2.2.2.2
      [(5, RefPoint2.make 5 1 2)] (by decide),
    ((own_operations_keep_key_is_id intValueType).2.2.2.2.1
      [(5, RefPoint2.make 5 1 2), (5, RefPoint2.make 7 1 2)]).2
      (fun k kv h => by
        by_cases hk : (5 : Nat) = k
        · subst hk
          simp only [List.find?_cons, beq_self_eq_true] at h
          cases h
          rfl
        · have hb : ((5 : Nat) == k) = false := by simpa using hk
          simp only [List.find?_cons, hb, List.find?_nil] at h
          cases h)⟩

/-- C18. Factory does not validate: for every registry address `r` and every pair of ids,
`createRefLine2`/`createRefLine3` returns the line with `pid1 = id1`, `pid2 = id2` and the
pointer `r`, without looking at the registry (it is unchanged); when an id is not a key of the
registry, the line is built all the same and the accessor of that id then ends with
`std::out_of_range`. -/
theorem factory_builds_line_without_validation {S : Type} :
    (∀ r id1 id2 : Nat,
      RefPointSet2.createRefLine2 r id1 id2 = RefLine2.mk id1 id2 r ∧
      (RefPointSet2.createRefLine2 r id1 id2).pid1 = id1 ∧
      (RefPointSet2.createRefLine2 r id1 id2).pid2 = id2 ∧
      (RefPointSet2.createRefLine2 r id1 id2).refPointSet = r) ∧
    (∀ (store : Nat → RefPointSet2 S) (r id1 id2 : Nat),
      ((store r).contains id1 = false →
        RefLine2.p1 store (RefPointSet2.createRefLine2 r id1 id2) =
          Except.error Exn.out_of_range) ∧
      ((store r).contains id2 = false →
        RefLine2.p2 store (RefPointSet2.createRefLine2 r id1 id2) =
          Except.error Exn.out_of_range)) ∧
    (∀ r id1 id2 : Nat,
      RefPointSet3.createRefLine3 r id1 id2 = RefLine3.mk id1 id2 r ∧
      (RefPointSet3.createRefLine3 r id1 id2).pid1 = id1 ∧
      (RefPointSet3.createRefLine3 r id1 id2).pid2 = id2 ∧
      (RefPointSet3.createRefLine3 r id1 id2).refPointSet = r) ∧
    (∀ (store : Nat → RefPointSet3 S) (r id1 id2 : Nat),
      ((store r).contains id1 = false →
        RefLine3.p1 store (RefPointSet3.createRefLine3 r id1 id2) =
          Except.error Exn.out_of_range) ∧
      ((store r).contains id2 = false →
        RefLine3.p2 store (RefPointSet3.createRefLine3 r id1 id2) =
          Except.error Exn.out_of_range)) :=
  ⟨fun _ _ _ => ⟨rfl, rfl, rfl, rfl⟩,
    fun store r id1 id2 =>
      ⟨fun h => UnorderedMap.at_of_not_contains (store r) id1 h,
        fun h => UnorderedMap.at_of_not_contains (store r) id2 h⟩,
    fun _ _ _ => ⟨rfl, rfl, rfl, rfl⟩,
    fun store r id1 id2 =>
      ⟨fun h => UnorderedMap.at_of_not_contains (store r) id1 h,
        fun h => UnorderedMap.at_of_not_contains (store r) id2 h⟩⟩

/-- C18, at a concrete input: the line `createRefLine2(0, 9)` over `{0: (1, 2), 1: (3, 4)}`,
where 9 is not a key. -/
theorem factory_builds_line_without_validation_witness :
    reg01.contains 9 = false ∧
    RefPointSet2.createRefLine2 0 0 9 = RefLine2.mk 0 9 0 ∧
    RefLine2.p2 (fun _ => reg01) (RefPointSet2.createRefLine2 0 0 9) =
      Except.error Exn.out_of_range :=
  ⟨by decide, (@factory_builds_line_without_validation Int).1 0 0 9 |>.1,
    ((@factory_builds_line_without_validation Int).2.1 (fun _ => reg01) 0 0 9).2
      (by decide)⟩

/-- C19. Measures are functions of the resolved endpoints: for every RefLine with ids
`(a, b)` over a registry that contains both, `length()` is the collaborator's `distance` of
`at(a)` and `at(b)`, `azimuthRHR()`/`azimuthLHR()` are its right-hand and left-hand `azimuth`
of the same pair and, in 3D, `zenithRHR()`/`zenithLHR()` its `zenith`, in that argument order;
when `a` or `b` is not a key, each of them ends with `std::out_of_range`. For the registry
`{0: (x0, y0), 1: (x1, y1)}`, `createRefLine2(0, 1).length()` is
`distance((x0, y0), (x1, y1))`. -/
theorem measures_use_resolved_endpoints {S F : Type} :
    (∀ (ar : Arithmetic2 S F) (store : Nat → RefPointSet2 S) (line : RefLine2)
      (pa pb : RefPoint2 S),
      (store line.rps).«at» line.pid1 = Except.ok pa →
      (store line.rps).«at» line.pid2 = Except.ok pb →
      line.length ar store = Except.ok (ar.distance pa pb) ∧
      line.azimuthRHR ar store = Except.ok (ar.azimuthRH pa pb) ∧
      line.azimuthLHR ar store = Except.ok (ar.azimuthLH pa pb)) ∧
    (∀ (ar : Arithmetic2 S F) (store : Nat → RefPointSet2 S) (line : RefLine2),
      ((store line.rps).contains line.pid1 = false ∨
        (store line.rps).contains line.pid2 = false) →
      line.length ar store = Except.error Exn.out_of_range ∧
      line.azimuthRHR ar store = Except.error Exn.out_of_range ∧
      line.azimuthLHR ar store = Except.error Exn.out_of_range) ∧
    (∀ (ar : Arithmetic3 S F) (store : Nat → RefPointSet3 S) (line : RefLine3)
      (pa pb : RefPoint3 S),
      (store line.rps).«at» line.pid1 = Except.ok pa →
      (store line.rps).«at» line.pid2 = Except.ok pb →
      line.length ar store = Except.ok (ar.distance pa pb) ∧
      line.azimuthRHR ar store = Except.ok (ar.azimuthRH pa pb) ∧
      line.azimuthLHR ar store = Except.ok (ar.azimuthLH pa pb) ∧
      line.zenithRHR ar store = Except.ok (ar.zenithRH pa pb) ∧
      line.zenithLHR ar store = Except.ok (ar.zenithLH pa pb)) ∧
    (∀ (ar : Arithmetic3 S F) (store : Nat → RefPointSet3 S) (line : RefLine3),
      ((store line.rps).contains line.pid1 = false ∨
        (store line.rps).contains line.pid2 = false) →
      line.length ar store = Except.error Exn.out_of_range ∧
      line.azimuthRHR ar store = Except.error Exn.out_of_range ∧
      line.azimuthLHR ar store = Except.error Exn.out_of_range ∧
      line.zenithRHR ar store = Except.error Exn.out_of_range ∧
      line.zenithLHR ar store = Except.error Exn.out_of_range) ∧
    (∀ (ar : Arithmetic2 S F) (store : Nat → RefPointSet2 S) (r : Nat) (x0 y0 x1 y1 : S),
      store r =
        (RefPointSet2.insert
          (RefPointSet2.insert UnorderedMap.empty (RefPoint2.make 0 x0 y0)).1
          (RefPoint2.make 1 x1 y1)).1 →
      (RefPointSet2.createRefLine2 r 0 1).length ar store =
        Except.ok (ar.distance (RefPoint2.make 0 x0 y0) (RefPoint2.make 1 x1 y1))) := by
  refine ⟨?_, ?_, ?_, ?_, ?_⟩
  · intro ar store line pa pb ha hb
    exact ⟨(resolve_both _ _ ar.distance).1 pa pb ha hb,
      (resolve_both _ _ ar.azimuthRH).1 pa pb ha hb,
      (resolve_both _ _ ar.azimuthLH).1 pa pb ha hb⟩
  · intro ar store line h
    exact ⟨resolve_both_absent _ _ _ ar.distance h,
      resolve_both_absent _ _ _ ar.azimuthRH h,
      resolve_both_absent _ _ _ ar.azimuthLH h⟩
  · intro ar store line pa pb ha hb
    exact ⟨(resolve_both _ _ ar.distance).1 pa pb ha hb,
      (resolve_both _ _ ar.azimuthRH).1 pa pb ha hb,
      (resolve_both _ _ ar.azimuthLH).1 pa pb ha hb,
      (resolve_both _ _ ar.zenithRH).1 pa pb ha hb,
      (resolve_both _ _ ar.zenithLH).1 pa pb ha hb⟩
  · intro ar store line h
    exact ⟨resolve_both_absent _ _ _ ar.distance h,
      resolve_both_absent _ _ _ ar.azimuthRH h,
      resolve_both_absent _ _ _ ar.azimuthLH h,
      resolve_both_absent _ _ _ ar.zenithRH h,
      resolve_both_absent _ _ _ ar.zenithLH h⟩
  · intro ar store r x0 y0 x1 y1 hr
    refine (resolve_both _ _ ar.distance).1 _ _ ?_ ?_
    · show (store r).«at» 0 = _
      rw [hr]
      rfl
    · show (store r).«at» 1 = _
      rw [hr]
      rfl

/-- C19, at a concrete input: the registry `{0: (1, 2), 1: (3, 4)}` and a collaborator whose
measures return their two arguments. -/
theorem measures_use_resolved_endpoints_witness :
    ((fun _ : Nat => reg01) 0 =
      (RefPointSet2.insert
        (RefPointSet2.insert UnorderedMap.empty (RefPoint2.make 0 (1 : Int) 2)).1
        (RefPoint2.make 1 3 4)).1) ∧
    (RefPointSet2.createRefLine2 0 0 1).length sampleArithmetic2 (fun _ => reg01) =
      Except.ok (RefPoint2.make 0 1 2, RefPoint2.make 1 3 4) :=
  ⟨rfl, (@measures_use_resolved_endpoints Int (RefPoint2 Int × RefPoint2 Int)).2.2.2.2
    sampleArithmetic2 (fun _ => reg01) 0 1 2 3 4 rfl⟩

/-- C20. Conversion to an owning line: for every RefLine with ids `(a, b)` over a registry
that contains both, the conversion to `Line2`/`Line3` returns the line whose first point has
the coordinates of `at(a)` and whose second point has those of `at(b)`; the result is a value
made of coordinates only, with no pointer to the registry; when `a` or `b` is not a key, the
conversion ends with `std::out_of_range`. -/
theorem conversion_copies_resolved_endpoints {S : Type} :
    (∀ (store : Nat → RefPointSet2 S) (line : RefLine2) (pa pb : RefPoint2 S),
      (store line.rps).«at» line.pid1 = Except.ok pa →
      (store line.rps).«at» line.pid2 = Except.ok pb →
      line.toLine2 store = Except.ok (Line2.mk (Point2.mk pa.x pa.y) (Point2.mk pb.x pb.y))) ∧
    (∀ (store : Nat → RefPointSet2 S) (line : RefLine2),
      ((store line.rps).contains line.pid1 = false ∨
        (store line.rps).contains line.pid2 = false) →
      line.toLine2 store = Except.error Exn.out_of_range) ∧
    (∀ (store : Nat → RefPointSet3 S) (line : RefLine3) (pa pb : RefPoint3 S),
      (store line.rps).«at» line.pid1 = Except.ok pa →
      (store line.rps).«at» line.pid2 = Except.ok pb →
      line.toLine3 store =
        Except.ok (Line3.mk (Point3.mk pa.x pa.y pa.z) (Point3.mk pb.x pb.y pb.z))) ∧
    (∀ (store : Nat → RefPointSet3 S) (line : RefLine3),
      ((store line.rps).contains line.pid1 = false ∨
        (store line.rps).contains line.pid2 = false) →
      line.toLine3 store = Except.error Exn.out_of_range) := by
  refine ⟨?_, ?_, ?_, ?_⟩
  · intro store line pa pb ha hb
    exact (resolve_both _ _ (fun a b : RefPoint2 S => Line2.mk a.toPoint2 b.toPoint2)).1
      pa pb ha hb
  · intro store line h
    exact resolve_both_absent _ _ _
      (fun a b : RefPoint2 S => Line2.mk a.toPoint2 b.toPoint2) h
  · intro store line pa pb ha hb
    exact (resolve_both _ _ (fun a b : RefPoint3 S => Line3.mk a.toPoint3 b.toPoint3)).1
      pa pb ha hb
  · intro store line h
    exact resolve_both_absent _ _ _
      (fun a b : RefPoint3 S => Line3.mk a.toPoint3 b.toPoint3) h

/-- C20, at a concrete input: the line `(0, 1)` over `{0: (1, 2), 1: (3, 4)}` converts to the
line from `(1, 2)` to `(3, 4)`, and the line `(1, 0)` over the registry after `erase(0)` does
not convert. -/
theorem conversion_copies_resolved_endpoints_witness :
    (((fun _ : Nat => reg01) 0).«at» 0 = Except.ok (RefPoint2.make 0 1 2) ∧
      ((fun _ : Nat => reg01) 0).«at» 1 = Except.ok (RefPoint2.make 1 3 4) ∧
      (reg01.erase 0).contains 0 = false) ∧
    (RefPointSet2.createRefLine2 0 0 1).toLine2 (fun _ => reg01) =
      Except.ok (Line2.mk (Point2.mk 1 2) (Point2.mk 3 4)) ∧
    (RefPointSet2.createRefLine2 0 1 0).toLine2 (fun _ => reg01.erase 0) =
      Except.error Exn.out_of_range :=
  ⟨⟨by decide, by decide, by decide⟩,
    (@conversion_copies_resolved_endpoints Int).1 (fun _ => reg01)
      (RefPointSet2.createRefLine2 0 0 1) (RefPoint2.make 0 1 2) (RefPoint2.make 1 3 4)
      (by decide) (by decide),
    (@conversion_copies_resolved_endpoints Int).2.1 (fun _ => reg01.erase 0)
      (RefPointSet2.createRefLine2 0 1 0) (Or.inr (by decide))⟩

/-- C23. Open failures: for every container (plain point list or registry, 2D or 3D) and
either mode, `write` ends with `std::ios_base::failure` and writes nothing when the target
cannot be opened, and `read` ends with `std::ios_base::failure` when the source cannot be
opened, leaving the destination container exactly as it was before the call. -/
theorem open_failure_throws_and_keeps_container {S : Type} (vt : ValueType S)
    (binary : Bool) :
    (∀ (lay : Layout (Point2 S)) (this : PointSet2 S),
      PointSet2.write vt lay this false binary = Except.error Exn.ios_failure ∧
      PointSet2.read vt lay this none binary = some ⟨this, some Exn.ios_failure⟩) ∧
    (∀ (lay : Layout (Point3 S)) (this : PointSet3 S),
      PointSet3.write vt lay this false binary = Except.error Exn.ios_failure ∧
      PointSet3.read vt lay this none binary = some ⟨this, some Exn.ios_failure⟩) ∧
    (∀ (lay : Layout (RefPoint2 S)) (this : RefPointSet2 S),
      RefPointSet2.write vt lay this false binary = Except.error Exn.ios_failure ∧
      RefPointSet2.read vt lay this none binary = some ⟨this, some Exn.ios_failure⟩) ∧
    (∀ (lay : Layout (RefPoint3 S)) (this : RefPointSet3 S),
      RefPointSet3.write vt lay this false binary = Except.error Exn.ios_failure ∧
      RefPointSet3.read vt lay this none binary = some ⟨this, some Exn.ios_failure⟩) :=
  ⟨fun _ _ => ⟨rfl, rfl⟩, fun _ _ => ⟨rfl, rfl⟩, fun _ _ => ⟨rfl, rfl⟩,
    fun _ _ => ⟨rfl, rfl⟩⟩

/-- C24. Point2 transpose: for every 2D point `(x, y)`, `transposed()` returns `(y, x)`,
`transpose()` turns the receiver into `(y, x)`, the value `transposed()` returns, and applying
either one twice gives back `(x, y)`. -/
theorem transpose_swaps_coordinates {S : Type} (x y : S) :
    (Point2.mk x y).transposed = Point2.mk y x ∧
    (Point2.mk x y).transpose = Point2.mk y x ∧
    (Point2.mk x y).transpose = (Point2.mk x y).transposed ∧
    (Point2.mk x y).transposed.transposed = Point2.mk x y ∧
    (Point2.mk x y).transpose.transpose = Point2.mk x y :=
  ⟨rfl, rfl, rfl, rfl, rfl⟩

/-- C21. Binary round trip within one build: let the record layout have a positive size and
give back, from the bytes it writes for a record of the container, that same record (same
scalar type and layout on both sides). Then for every plain point list (2D or 3D) the
binary-mode `write` succeeds and the binary-mode `read` of what it wrote returns, whatever the
destination held, the same list in the same order; and for every registry (2D or 3D) that
satisfies the key-is-id invariant, the read returns without exception a registry whose entries
are, up to order, exactly the entries of the original. -/
theorem binary_round_trip {S : Type} (vt : ValueType S) :
    (∀ (lay : Layout (Point2 S)) (P this : PointSet2 S), 0 < lay.sizeof →
      (∀ p ∈ P, (lay.bytes p).length = lay.sizeof ∧ lay.load (lay.bytes p) = p) →
      ∃ bin, PointSet2.write vt lay P true true = Except.ok bin ∧
        PointSet2.read vt lay this (some bin) true = some ⟨P, none⟩) ∧
    (∀ (lay : Layout (Point3 S)) (P this : PointSet3 S), 0 < lay.sizeof →
      (∀ p ∈ P, (lay.bytes p).length = lay.sizeof ∧ lay.load (lay.bytes p) = p) →
      ∃ bin, PointSet3.write vt lay P true true = Except.ok bin ∧
        PointSet3.read vt lay this (some bin) true = some ⟨P, none⟩) ∧
    (∀ (lay : Layout (RefPoint2 S)) (R this : RefPointSet2 S), 0 < lay.sizeof →
      KeyIsId2 R →
      (∀ e ∈ R.entries,
        (lay.bytes e.2).length = lay.sizeof ∧ lay.load (lay.bytes e.2) = e.2) →
      ∃ bin r, RefPointSet2.write vt lay R true true = Except.ok bin ∧
        RefPointSet2.read vt lay this (some bin) true = some r ∧ r.thrown = none ∧
        r.container.entries.Perm R.entries) ∧
    (∀ (lay : Layout (RefPoint3 S)) (R this : RefPointSet3 S), 0 < lay.sizeof →
      KeyIsId3 R →
      (∀ e ∈ R.entries,
        (lay.bytes e.2).length = lay.sizeof ∧ lay.load (lay.bytes e.2) = e.2) →
      ∃ bin r, RefPointSet3.write vt lay R true true = Except.ok bin ∧
        RefPointSet3.read vt lay this (some bin) true = some r ∧ r.thrown = none ∧
        r.container.entries.Perm R.entries) := by
  refine ⟨?_, ?_, ?_, ?_⟩
  · intro lay P this hs h
    refine ⟨_, rfl, ?_⟩
    rw [read_binary_point2, recordsOf_written lay hs P h]
  · intro lay P this hs h
    refine ⟨_, rfl, ?_⟩
    rw [read_binary_point3, recordsOf_written lay hs P h]
  · intro lay R this hs hinv h
    refine ⟨_, _, rfl, read_binary_ref2 vt lay this _, rfl, ?_⟩
    rw [written_records lay hs R h]
    exact List.Perm.of_eq (insertAll_records (fun p : RefPoint2 S => p.id) R hinv)
  · intro lay R this hs hinv h
    refine ⟨_, _, rfl, read_binary_ref3 vt lay this _, rfl, ?_⟩
    rw [written_records lay hs R h]
    exact List.Perm.of_eq (insertAll_records (fun p : RefPoint3 S => p.id) R hinv)

/-- C21, at a concrete input: the registry `{0: (1, 2), 1: (3, 4)}` with a three-byte record
layout, read back into a registry that held other content. -/
theorem binary_round_trip_witness :
    (0 < smallRefLayout2.sizeof ∧ KeyIsId2 reg01 ∧
      ∀ e ∈ reg01.entries, (smallRefLayout2.bytes e.2).length = smallRefLayout2.sizeof ∧
        smallRefLayout2.load (smallRefLayout2.bytes e.2) = e.2) ∧
    ∃ bin r, RefPointSet2.write intValueType smallRefLayout2 reg01 true true = Except.ok bin ∧
      RefPointSet2.read intValueType smallRefLayout2 regBig (some bin) true = some r ∧
      r.thrown = none ∧ r.container.entries.Perm reg01.entries :=
  ⟨⟨by decide, by decide, by decide⟩,
    (binary_round_trip intValueType).2.2.1 smallRefLayout2 reg01 regBig (by decide)
      (by decide) (by decide)⟩

/-- C25. Binary record count: for every binary input of `L` bytes and every record size `s`,
a binary-mode `read` of a plain point list returns without exception a list of exactly
`L / s` records, the `i`-th loaded from the bytes `[i * s, (i + 1) * s)`; bytes after the last
whole record do not change the result; and for a registry the read inserts the same `L / s`
records, in file order, into an empty registry. -/
theorem binary_read_takes_whole_records {S : Type} (vt : ValueType S) :
    (∀ (lay : Layout (Point2 S)) (this : PointSet2 S) (content : List Char),
      ∃ ps, PointSet2.read vt lay this (some content) true = some ⟨ps, none⟩ ∧
        ps.length = content.length / lay.sizeof ∧
        ∀ i, i < content.length / lay.sizeof →
          ps[i]? = some (lay.load (substr content (i * lay.sizeof) ((i + 1) * lay.sizeof)))) ∧
    (∀ (lay : Layout (Point2 S)) (this : PointSet2 S) (content extra : List Char),
      0 < lay.sizeof → content.length % lay.sizeof = 0 → extra.length < lay.sizeof →
      PointSet2.read vt lay this (some (content ++ extra)) true =
        PointSet2.read vt lay this (some content) true) ∧
    (∀ (lay : Layout (RefPoint2 S)) (this : RefPointSet2 S) (content : List Char),
      ∃ recs : List (RefPoint2 S),
        RefPointSet2.read vt lay this (some content) true =
          some ⟨recs.foldl (fun c p => (RefPointSet2.insert c p).1) UnorderedMap.empty,
            none⟩ ∧
        recs.length = content.length / lay.sizeof ∧
        ∀ i, i < content.length / lay.sizeof →
          recs[i]? =
            some (lay.load (substr content (i * lay.sizeof) ((i + 1) * lay.sizeof)))) ∧
    (∀ (lay : Layout (RefPoint2 S)) (this : RefPointSet2 S) (content extra : List Char),
      0 < lay.sizeof → content.length % lay.sizeof = 0 → extra.length < lay.sizeof →
      RefPointSet2.read vt lay this (some (content ++ extra)) true =
        RefPointSet2.read vt lay this (some content) true) := by
  refine ⟨?_, ?_, ?_, ?_⟩
  · intro lay this content
    exact ⟨_, read_binary_point2 vt lay this content, recordsOf_length lay content,
      fun i hi => recordsOf_getElem lay content i hi⟩
  · intro lay this content extra hs hfull hextra
    rw [read_binary_point2, read_binary_point2,
      recordsOf_trailing lay content extra hs hfull hextra]
  · intro lay this content
    exact ⟨_, read_binary_ref2 vt lay this content, recordsOf_length lay content,
      fun i hi => recordsOf_getElem lay content i hi⟩
  · intro lay this content extra hs hfull hextra
    rw [read_binary_ref2, read_binary_ref2,
      recordsOf_trailing lay content extra hs hfull hextra]

/-- C25, at a concrete input: five bytes with a two-byte record give two records, and the
fifth byte is ignored. -/
theorem binary_read_takes_whole_records_witness :
    (0 < smallLayout2.sizeof ∧ "abcd".toList.length % smallLayout2.sizeof = 0 ∧
      "e".toList.length < smallLayout2.sizeof) ∧
    PointSet2.read intValueType smallLayout2 [Point2.mk 9 9] (some "abcde".toList) true =
      PointSet2.read intValueType smallLayout2 [Point2.mk 9 9] (some "abcd".toList) true ∧
    PointSet2.read intValueType smallLayout2 [Point2.mk 9 9] (some "abcde".toList) true =
      some ⟨[Point2.mk 97 98, Point2.mk 99 100], none⟩ :=
  ⟨⟨by decide, by decide, by decide⟩,
    (binary_read_takes_whole_records intValueType).2.1 smallLayout2 [Point2.mk 9 9]
      "abcd".toList "e".toList (by decide) (by decide) (by decide),
    by decide⟩

/-- C22 fails as stated: the plain point list `[(1234567, 0)]` of a scalar type that prints
six significant digits, as `float` and `double` do, is written in text mode as the line
`1.23457e+06,0`, and the text-mode read of that line into an empty list returns
`[(1234570, 0)]`, which is not the list that was written. -/
theorem text_round_trip_loses_seventh_digit :
    PointSet2.write floatValueType sampleLayout2 [Point2.mk 1234567 0] true false =
      Except.ok "1.23457e+06,0\n".toList ∧
    PointSet2.read floatValueType sampleLayout2 [] (some "1.23457e+06,0\n".toList) false =
      some ⟨[Point2.mk 1234570 0], none⟩ ∧
    [Point2.mk (1234570 : Int) 0] ≠ [Point2.mk 1234567 0] := by
  decide

/-- C22, amended. Text round trip of a plain point list: for every plain point list `P` (2D
or 3D) whose coordinates are representable, the text-mode `write` of `P` succeeds and the
text-mode `read` of what it wrote into an empty list returns without exception the list `P`
itself: the same length, the same order, duplicates included. -/
theorem text_round_trip_of_point_list {S : Type} (vt : ValueType S) :
    (∀ (lay : Layout (Point2 S)) (P : PointSet2 S),
      (∀ p ∈ P, Representable vt p.x ∧ Representable vt p.y) →
      ∃ text, PointSet2.write vt lay P true false = Except.ok text ∧
        PointSet2.read vt lay [] (some text) false = some ⟨P, none⟩) ∧
    (∀ (lay : Layout (Point3 S)) (P : PointSet3 S),
      (∀ p ∈ P, Representable vt p.x ∧ Representable vt p.y ∧ Representable vt p.z) →
      ∃ text, PointSet3.write vt lay P true false = Except.ok text ∧
        PointSet3.read vt lay [] (some text) false = some ⟨P, none⟩) :=
  ⟨text_round_trip_point2 vt, text_round_trip_point3 vt⟩

/-- C22, amended, at a concrete input: the list `[(1, 2), (1, 2), (-3, 40)]`, with a
duplicate. -/
theorem text_round_trip_of_point_list_witness :
    (∀ p ∈ [Point2.mk (1 : Int) 2, Point2.mk 1 2, Point2.mk (-3) 40],
      Representable intValueType p.x ∧ Representable intValueType p.y) ∧
    ∃ text, PointSet2.write intValueType sampleLayout2
        [Point2.mk 1 2, Point2.mk 1 2, Point2.mk (-3) 40] true false = Except.ok text ∧
      PointSet2.read intValueType sampleLayout2 [] (some text) false =
        some ⟨[Point2.mk 1 2, Point2.mk 1 2, Point2.mk (-3) 40], none⟩ :=
  ⟨by decide,
    (text_round_trip_of_point_list intValueType).1 sampleLayout2
      [Point2.mk 1 2, Point2.mk 1 2, Point2.mk (-3) 40] (by decide)⟩

/-- C30. One record per non-blank line, with or without a final newline: for every
well-formed text input (each non-empty line parses), a text-mode `read` into an empty plain
point list (2D or 3D) returns without exception the points parsed from the non-empty lines, in
line order, so exactly as many points as the input has non-empty lines; for every input the
outcome is the same with one more newline at the end; and an empty input gives an empty
list. -/
theorem text_read_gives_one_point_per_line {S : Type} (vt : ValueType S) :
    (∀ (lay : Layout (Point2 S)) (content : List Char),
      WellFormed (PointSet2.parseLine vt) (linesOf content) →
      ∃ ps, PointSet2.read vt lay [] (some content) false = some ⟨ps, none⟩ ∧
        ps.map Except.ok =
          ((linesOf content).filter (fun str => !str.isEmpty)).map (PointSet2.parseLine vt) ∧
        ps.length = ((linesOf content).filter (fun str => !str.isEmpty)).length) ∧
    (∀ (lay : Layout (Point2 S)) (this : PointSet2 S) (content : List Char),
      PointSet2.read vt lay this (some (content ++ ['\n'])) false =
        PointSet2.read vt lay this (some content) false) ∧
    (∀ lay : Layout (Point2 S),
      PointSet2.read vt lay [] (some []) false = some ⟨[], none⟩) ∧
    (∀ (lay : Layout (Point3 S)) (content : List Char),
      WellFormed (PointSet3.parseLine vt) (linesOf content) →
      ∃ ps, PointSet3.read vt lay [] (some content) false = some ⟨ps, none⟩ ∧
        ps.map Except.ok =
          ((linesOf content).filter (fun str => !str.isEmpty)).map (PointSet3.parseLine vt) ∧
        ps.length = ((linesOf content).filter (fun str => !str.isEmpty)).length) ∧
    (∀ (lay : Layout (Point3 S)) (this : PointSet3 S) (content : List Char),
      PointSet3.read vt lay this (some (content ++ ['\n'])) false =
        PointSet3.read vt lay this (some content) false) ∧
    (∀ lay : Layout (Point3 S),
      PointSet3.read vt lay [] (some []) false = some ⟨[], none⟩) := by
  refine ⟨?_, ?_, fun _ => rfl, ?_, ?_, fun _ => rfl⟩
  · intro lay content h
    have hmap := parsedRecords_wellformed (PointSet2.parseLine vt) (linesOf content) h
    refine ⟨parsedRecords (PointSet2.parseLine vt) (linesOf content), ?_, hmap, ?_⟩
    · rw [read_text_point2, runLines_wellformed _ _ _ _ h]
      have hf : List.foldl push_back []
          (parsedRecords (PointSet2.parseLine vt) (linesOf content)) =
          parsedRecords (PointSet2.parseLine vt) (linesOf content) :=
        foldl_push_back (parsedRecords (PointSet2.parseLine vt) (linesOf content)) []
      rw [hf]
    · have := congrArg List.length hmap
      simpa using this
  · intro lay this content
    rw [read_text_point2, read_text_point2, runLines_final_newline]
  · intro lay content h
    have hmap := parsedRecords_wellformed (PointSet3.parseLine vt) (linesOf content) h
    refine ⟨parsedRecords (PointSet3.parseLine vt) (linesOf content), ?_, hmap, ?_⟩
    · rw [read_text_point3, runLines_wellformed _ _ _ _ h]
      have hf : List.foldl push_back []
          (parsedRecords (PointSet3.parseLine vt) (linesOf content)) =
          parsedRecords (PointSet3.parseLine vt) (linesOf content) :=
        foldl_push_back (parsedRecords (PointSet3.parseLine vt) (linesOf content)) []
      rw [hf]
    · have := congrArg List.length hmap
      simpa using this
  · intro lay this content
    rw [read_text_point3, read_text_point3, runLines_final_newline]

/-- C30, at a concrete input: the two lines `1,2` and `3,4` with a blank line between them
and no newline at the end. -/
theorem text_read_gives_one_point_per_line_witness :
    WellFormed (PointSet2.parseLine intValueType) (linesOf "1,2\n\n3,4".toList) ∧
    ∃ ps, PointSet2.read intValueType sampleLayout2 [] (some "1,2\n\n3,4".toList) false =
        some ⟨ps, none⟩ ∧
      ps.map Except.ok =
        ((linesOf "1,2\n\n3,4".toList).filter (fun str => !str.isEmpty)).map
          (PointSet2.parseLine intValueType) ∧
      ps.length = ((linesOf "1,2\n\n3,4".toList).filter (fun str => !str.isEmpty)).length :=
  ⟨by decide,
    (text_read_gives_one_point_per_line intValueType).1 sampleLayout2 "1,2\n\n3,4".toList
      (by decide)⟩

/-- C27: a well-formed text input read into an empty registry succeeds without error also when
several records carry the same id. Under every id the registry holds what the first record
with that id in file order holds (and nothing when no record has that id), no id is the key of
two entries, and the number of entries is the number of distinct ids of the input. This holds
for the 2D and for the 3D registry. -/
theorem duplicate_ids_keep_first_record {S : Type} (vt : ValueType S) :
    (∀ (lay : Layout (RefPoint2 S)) (content : List Char),
      WellFormed (RefPointSet2.parseLine vt) (linesOf content) →
      ∃ r, RefPointSet2.read vt lay UnorderedMap.empty (some content) false =
          some ⟨r, none⟩ ∧
        (∀ k, r.find k =
          (parsedRecords (RefPointSet2.parseLine vt) (linesOf content)).find?
            (fun p => p.id == k)) ∧
        (∀ k, (keysOf r.entries).count k ≤ 1) ∧
        r.size =
          ((parsedRecords (RefPointSet2.parseLine vt) (linesOf content)).map
            (fun p => p.id)).dedup.length) ∧
    (∀ (lay : Layout (RefPoint3 S)) (content : List Char),
      WellFormed (RefPointSet3.parseLine vt) (linesOf content) →
      ∃ r, RefPointSet3.read vt lay UnorderedMap.empty (some content) false =
          some ⟨r, none⟩ ∧
        (∀ k, r.find k =
          (parsedRecords (RefPointSet3.parseLine vt) (linesOf content)).find?
            (fun p => p.id == k)) ∧
        (∀ k, (keysOf r.entries).count k ≤ 1) ∧
        r.size =
          ((parsedRecords (RefPointSet3.parseLine vt) (linesOf content)).map
            (fun p => p.id)).dedup.length) := by
  refine ⟨?_, ?_⟩
  · intro lay content h
    refine ⟨(parsedRecords (RefPointSet2.parseLine vt) (linesOf content)).foldl
      (fun c p => (UnorderedMap.insert c (p.id, p)).1) UnorderedMap.empty, ?_, ?_, ?_, ?_⟩
    · rw [read_text_ref2, runLines_wellformed _ _ _ _ h]
      rfl
    · intro k
      exact insertAll_find_of_none (fun p : RefPoint2 S => p.id) _ _ k (find_empty k)
    · intro k
      exact List.nodup_iff_count_le_one.1 (UnorderedMap.nodup _) k
    · exact insertAll_size (fun p : RefPoint2 S => p.id) _
  · intro lay content h
    refine ⟨(parsedRecords (RefPointSet3.parseLine vt) (linesOf content)).foldl
      (fun c p => (UnorderedMap.insert c (p.id, p)).1) UnorderedMap.empty, ?_, ?_, ?_, ?_⟩
    · rw [read_text_ref3, runLines_wellformed _ _ _ _ h]
      rfl
    · intro k
      exact insertAll_find_of_none (fun p : RefPoint3 S => p.id) _ _ k (find_empty k)
    · intro k
      exact List.nodup_iff_count_le_one.1 (UnorderedMap.nodup _) k
    · exact insertAll_size (fun p : RefPoint3 S => p.id) _

/-- C27, at a concrete input: three records, the first two with id 1; the registry read from
them holds the coordinates 2,3 under id 1 and has two entries. -/
theorem duplicate_ids_keep_first_record_witness :
    WellFormed (RefPointSet2.parseLine intValueType) (linesOf "1,2,3\n1,5,6\n2,7,8\n".toList) ∧
    ∃ r, RefPointSet2.read intValueType sampleRefLayout2 UnorderedMap.empty
        (some "1,2,3\n1,5,6\n2,7,8\n".toList) false = some ⟨r, none⟩ ∧
      (∀ k, r.find k =
        (parsedRecords (RefPointSet2.parseLine intValueType)
          (linesOf "1,2,3\n1,5,6\n2,7,8\n".toList)).find? (fun p => p.id == k)) ∧
      (∀ k, (keysOf r.entries).count k ≤ 1) ∧
      r.size =
        ((parsedRecords (RefPointSet2.parseLine intValueType)
          (linesOf "1,2,3\n1,5,6\n2,7,8\n".toList)).map (fun p => p.id)).dedup.length :=
  ⟨by decide,
    (duplicate_ids_keep_first_record intValueType).1 sampleRefLayout2
      "1,2,3\n1,5,6\n2,7,8\n".toList (by decide)⟩

/-- C28: a text read that fails on a non-blank line has already added the records of the
well-formed lines before it, and they stay. For the point list the result is the prior list
followed by those records, one per non-blank line before the failing one, and it differs from
the prior list whenever there was such a line. For the registry the result is the prior
registry with those records inserted in order: every prior entry is kept, every id read before
the failure is a key, and the registry differs from the prior one whenever one of those ids was
not a key before. -/
theorem failed_text_read_keeps_earlier_records {S : Type} (vt : ValueType S) :
    (∀ (lay : Layout (Point2 S)) (this : PointSet2 S) (content : List Char)
      (pre : List (List Char)) (bad : List Char) (post : List (List Char)) (e : Exn),
      linesOf content = pre ++ bad :: post →
      WellFormed (PointSet2.parseLine vt) pre →
      bad ≠ [] →
      PointSet2.parseLine vt bad = Except.error e →
      PointSet2.read vt lay this (some content) false =
        some ⟨this ++ parsedRecords (PointSet2.parseLine vt) pre, some e⟩ ∧
      (parsedRecords (PointSet2.parseLine vt) pre).length =
        (pre.filter (fun str => !str.isEmpty)).length ∧
      (pre.filter (fun str => !str.isEmpty) ≠ [] →
        this ++ parsedRecords (PointSet2.parseLine vt) pre ≠ this)) ∧
    (∀ (lay : Layout (RefPoint2 S)) (this : RefPointSet2 S) (content : List Char)
      (pre : List (List Char)) (bad : List Char) (post : List (List Char)) (e : Exn),
      linesOf content = pre ++ bad :: post →
      WellFormed (RefPointSet2.parseLine vt) pre →
      bad ≠ [] →
      RefPointSet2.parseLine vt bad = Except.error e →
      ∃ r, RefPointSet2.read vt lay this (some content) false = some ⟨r, some e⟩ ∧
        r = (parsedRecords (RefPointSet2.parseLine vt) pre).foldl
          (fun c p => (RefPointSet2.insert c p).1) this ∧
        (parsedRecords (RefPointSet2.parseLine vt) pre).length =
          (pre.filter (fun str => !str.isEmpty)).length ∧
        (∀ k v, this.find k = some v → r.find k = some v) ∧
        (∀ p ∈ parsedRecords (RefPointSet2.parseLine vt) pre, r.contains p.id = true) ∧
        ((∃ p ∈ parsedRecords (RefPointSet2.parseLine vt) pre, this.contains p.id = false) →
          r ≠ this)) := by
  refine ⟨?_, ?_⟩
  · intro lay this content pre bad post e hlines hpre hne hbad
    have hlen : (parsedRecords (PointSet2.parseLine vt) pre).length =
        (pre.filter (fun str => !str.isEmpty)).length := by
      have := congrArg List.length (parsedRecords_wellformed (PointSet2.parseLine vt) pre hpre)
      simpa using this
    refine ⟨?_, hlen, ?_⟩
    · rw [read_text_point2, hlines, runLines_up_to_error _ _ bad post e hne hbad pre this hpre]
      have hf : List.foldl push_back this (parsedRecords (PointSet2.parseLine vt) pre) =
          this ++ parsedRecords (PointSet2.parseLine vt) pre :=
        foldl_push_back (parsedRecords (PointSet2.parseLine vt) pre) this
      rw [hf]
    · intro hfil heq
      have h0 : (parsedRecords (PointSet2.parseLine vt) pre).length = 0 := by
        have := congrArg List.length heq
        rw [List.length_append] at this
        omega
      rw [hlen] at h0
      exact hfil (List.length_eq_zero.1 h0)
  · intro lay this content pre bad post e hlines hpre hne hbad
    have hlen : (parsedRecords (RefPointSet2.parseLine vt) pre).length =
        (pre.filter (fun str => !str.isEmpty)).length := by
      have := congrArg List.length
        (parsedRecords_wellformed (RefPointSet2.parseLine vt) pre hpre)
      simpa using this
    refine ⟨_, ?_, rfl, hlen, ?_, ?_, ?_⟩
    · rw [read_text_ref2, hlines, runLines_up_to_error _ _ bad post e hne hbad pre this hpre]
    · intro k v hk
      exact insertAll_find_of_some (fun p : RefPoint2 S => p.id) _ this k v hk
    · intro p hp
      exact insertAll_contains (fun p : RefPoint2 S => p.id) _ this p hp
    · rintro ⟨p, hp, hc⟩ heq
      have hin := insertAll_contains (fun p : RefPoint2 S => p.id) _ this p hp
      have heq2 : (parsedRecords (RefPointSet2.parseLine vt) pre).foldl
          (fun c q => (UnorderedMap.insert c (q.id, q)).1) this = this := heq
      rw [heq2] at hin
      have hc2 : UnorderedMap.contains this p.id = false := hc
      rw [hc2] at hin
      cases hin

/-- C28, at a concrete input: the second of three lines does not parse; the point read from the
first line has been appended to the prior list and stays there. -/
theorem failed_text_read_keeps_earlier_records_witness :
    linesOf "1,2\nx\n3,4\n".toList = ["1,2".toList] ++ "x".toList :: ["3,4".toList, []] ∧
    WellFormed (PointSet2.parseLine intValueType) ["1,2".toList] ∧
    "x".toList ≠ [] ∧
    PointSet2.parseLine intValueType "x".toList = Except.error Exn.invalid_argument ∧
    PointSet2.read intValueType sampleLayout2 [⟨7, 8⟩] (some "1,2\nx\n3,4\n".toList) false =
      some ⟨[⟨7, 8⟩] ++ parsedRecords (PointSet2.parseLine intValueType) ["1,2".toList],
        some Exn.invalid_argument⟩ ∧
    (parsedRecords (PointSet2.parseLine intValueType) ["1,2".toList]).length =
      (["1,2".toList].filter (fun str => !str.isEmpty)).length ∧
    (["1,2".toList].filter (fun str => !str.isEmpty) ≠ [] →
      [⟨7, 8⟩] ++ parsedRecords (PointSet2.parseLine intValueType) ["1,2".toList] ≠
        [(⟨7, 8⟩ : Point2 Int)]) :=
  ⟨by decide, by decide, by decide, by decide,
    (failed_text_read_keeps_earlier_records intValueType).1 sampleLayout2 [⟨7, 8⟩]
      "1,2\nx\n3,4\n".toList ["1,2".toList] "x".toList ["3,4".toList, []]
      Exn.invalid_argument (by decide) (by decide) (by decide) (by decide)⟩

/-- C26: ids of `2 ^ 31` and above do not survive text mode. Such an id is written as its
decimal digits, and `std::stoi` answers `std::out_of_range` on them. For every registry (2D,
and 3D with the key-is-id invariant) that has an id of `2 ^ 31` or more, the text-mode write
succeeds and the text-mode read of its output into an empty registry ends with an exception.
When the coordinates are representable the exception is `std::out_of_range`, thrown at the
first record with such an id: the registry read so far has only ids below `2 ^ 31`, so it is
not the registry that was written. -/
theorem large_ids_fail_text_round_trip {S : Type} (vt : ValueType S) :
    (∀ n : Nat, 2 ^ 31 ≤ n →
      (∀ c ∈ putUInt n, isdigit c = true) ∧ digitsValue 0 (putUInt n) = n ∧
      stoi (putUInt n) = Except.error Exn.out_of_range) ∧
    (∀ (lay : Layout (RefPoint2 S)) (R : RefPointSet2 S),
      (∃ k ∈ keysOf R.entries, 2 ^ 31 ≤ k) →
      ∃ text r e, RefPointSet2.write vt lay R true false = Except.ok text ∧
        RefPointSet2.read vt lay UnorderedMap.empty (some text) false = some ⟨r, some e⟩) ∧
    (∀ (lay : Layout (RefPoint2 S)) (R : RefPointSet2 S),
      (∀ e ∈ R.entries, Representable vt e.2.x ∧ Representable vt e.2.y) →
      (∃ k ∈ keysOf R.entries, 2 ^ 31 ≤ k) →
      ∃ text r, RefPointSet2.write vt lay R true false = Except.ok text ∧
        RefPointSet2.read vt lay UnorderedMap.empty (some text) false =
          some ⟨r, some Exn.out_of_range⟩ ∧
        (∀ j ∈ keysOf r.entries, j < 2 ^ 31) ∧
        ¬ r.entries.Perm R.entries) ∧
    (∀ (lay : Layout (RefPoint3 S)) (R : RefPointSet3 S), KeyIsId3 R →
      (∃ k ∈ keysOf R.entries, 2 ^ 31 ≤ k) →
      ∃ text r e, RefPointSet3.write vt lay R true false = Except.ok text ∧
        RefPointSet3.read vt lay UnorderedMap.empty (some text) false = some ⟨r, some e⟩) ∧
    (∀ (lay : Layout (RefPoint3 S)) (R : RefPointSet3 S), KeyIsId3 R →
      (∀ e ∈ R.entries, Representable vt e.2.x ∧ Representable vt e.2.y ∧
        Representable vt e.2.z) →
      (∃ k ∈ keysOf R.entries, 2 ^ 31 ≤ k) →
      ∃ text r, RefPointSet3.write vt lay R true false = Except.ok text ∧
        RefPointSet3.read vt lay UnorderedMap.empty (some text) false =
          some ⟨r, some Exn.out_of_range⟩ ∧
        (∀ j ∈ keysOf r.entries, j < 2 ^ 31) ∧
        ¬ r.entries.Perm R.entries) := by
  have hbody2 : ∀ a : Nat × RefPoint2 S, ∃ rest,
      putUInt a.1 ++ [','] ++ vt.put a.2.x ++ [','] ++ vt.put a.2.y =
        putUInt a.1 ++ ',' :: rest :=
    fun a => ⟨vt.put a.2.x ++ [','] ++ vt.put a.2.y, by simp⟩
  have hbody3 : ∀ a : Nat × RefPoint3 S, ∃ rest,
      putUInt a.2.id ++ [','] ++ vt.put a.2.x ++ [','] ++ vt.put a.2.y ++ [','] ++
          vt.put a.2.z =
        putUInt a.2.id ++ ',' :: rest :=
    fun a => ⟨vt.put a.2.x ++ [','] ++ vt.put a.2.y ++ [','] ++ vt.put a.2.z, by simp⟩
  have hkey : ∀ {V : Type} (es : List (Nat × V)), (∃ k ∈ keysOf es, 2 ^ 31 ≤ k) →
      ∃ e ∈ es, 2 ^ 31 ≤ e.1 := by
    rintro V es ⟨k, hk, hle⟩
    obtain ⟨e, he, rfl⟩ := List.mem_map.1 hk
    exact ⟨e, he, hle⟩
  have hperm : ∀ {V : Type} (r R : List (Nat × V)), (∃ k ∈ keysOf R, 2 ^ 31 ≤ k) →
      (∀ j ∈ keysOf r, j < 2 ^ 31) → ¬ r.Perm R := by
    rintro V r R ⟨k, hk, hle⟩ hlt hp
    have hk2 : k ∈ keysOf r := ((hp.map Prod.fst).mem_iff).2 hk
    exact absurd (hlt k hk2) (Nat.not_lt.2 hle)
  refine ⟨?_, ?_, ?_, ?_, ?_⟩
  · intro n hn
    exact ⟨(putUInt_decimal n).2.1, (putUInt_decimal n).2.2, stoi_of_large_id n hn⟩
  · intro lay R hbig
    obtain ⟨r, e, hrun⟩ := read_written_fails (RefPointSet2.parseLine vt)
      (fun c refp => (RefPointSet2.insert c refp).1)
      (fun a : Nat × RefPoint2 S =>
        putUInt a.1 ++ [','] ++ vt.put a.2.x ++ [','] ++ vt.put a.2.y)
      (fun a => a.1) hbody2 (fun n rest hn => parseLine2_of_large_id vt n rest hn)
      R.entries (hkey R.entries hbig) UnorderedMap.empty
    refine ⟨_, r, e, rfl, ?_⟩
    rw [read_text_ref2]
    exact congrArg some hrun
  · intro lay R hrep hbig
    obtain ⟨before, bad, after, hsplit, hlt, hbad⟩ :=
      split_at_first_large (fun a : Nat × RefPoint2 S => a.1) R.entries (hkey R.entries hbig)
    have hrun := read_written_until_large (RefPointSet2.parseLine vt)
      (fun c refp => (RefPointSet2.insert c refp).1)
      (fun a : Nat × RefPoint2 S =>
        putUInt a.1 ++ [','] ++ vt.put a.2.x ++ [','] ++ vt.put a.2.y)
      (fun a => RefPoint2.make a.1 a.2.x a.2.y)
      (fun a => a.1) hbody2 (fun n rest hn => parseLine2_of_large_id vt n rest hn)
      R.entries before bad after hsplit
      (fun a ha => by
        have h1 := putUInt_no_newline a.1
        have h2 := (hrep a ha).1.2.2
        have h3 := (hrep a ha).2.2.2
        simp [h1, h2, h3])
      (fun a ha => by
        have hmem : a ∈ R.entries := by
          rw [hsplit]
          exact List.mem_append_left _ ha
        exact parseLine2_of_written vt a.1 a.2.x a.2.y (hlt a ha) (hrep a hmem).1
          (hrep a hmem).2)
      hbad UnorderedMap.empty
    have hkeys : ∀ j ∈ keysOf (before.foldl
        (fun c a => (RefPointSet2.insert c (RefPoint2.make a.1 a.2.x a.2.y)).1)
        (UnorderedMap.empty : RefPointSet2 S)).entries, j < 2 ^ 31 := by
      intro j hj
      obtain ⟨a, ha, haj⟩ := insertAll_keys_of_map (fun p : RefPoint2 S => p.id)
        (fun a : Nat × RefPoint2 S => RefPoint2.make a.1 a.2.x a.2.y) before j hj
      rw [← haj]
      exact hlt a ha
    refine ⟨_, _, rfl, ?_, hkeys, hperm _ _ hbig hkeys⟩
    rw [read_text_ref2]
    exact congrArg some hrun
  · intro lay R hinv hbig
    have hbig2 : ∃ e ∈ R.entries, 2 ^ 31 ≤ e.2.id := by
      obtain ⟨e, he, hle⟩ := hkey R.entries hbig
      exact ⟨e, he, by rw [hinv e he]; exact hle⟩
    obtain ⟨r, e, hrun⟩ := read_written_fails (RefPointSet3.parseLine vt)
      (fun c refp => (RefPointSet3.insert c refp).1)
      (fun a : Nat × RefPoint3 S =>
        putUInt a.2.id ++ [','] ++ vt.put a.2.x ++ [','] ++ vt.put a.2.y ++ [','] ++
          vt.put a.2.z)
      (fun a => a.2.id) hbody3 (fun n rest hn => parseLine3_of_large_id vt n rest hn)
      R.entries hbig2 UnorderedMap.empty
    refine ⟨_, r, e, rfl, ?_⟩
    rw [read_text_ref3]
    exact congrArg some hrun
  · intro lay R hinv hrep hbig
    have hbig2 : ∃ e ∈ R.entries, 2 ^ 31 ≤ e.2.id := by
      obtain ⟨e, he, hle⟩ := hkey R.entries hbig
      exact ⟨e, he, by rw [hinv e he]; exact hle⟩
    obtain ⟨before, bad, after, hsplit, hlt, hbad⟩ :=
      split_at_first_large (fun a : Nat × RefPoint3 S => a.2.id) R.entries hbig2
    have hrun := read_written_until_large (RefPointSet3.parseLine vt)
      (fun c refp => (RefPointSet3.insert c refp).1)
      (fun a : Nat × RefPoint3 S =>
        putUInt a.2.id ++ [','] ++ vt.put a.2.x ++ [','] ++ vt.put a.2.y ++ [','] ++
          vt.put a.2.z)
      (fun a => RefPoint3.make a.2.id a.2.x a.2.y a.2.z)
      (fun a => a.2.id) hbody3 (fun n rest hn => parseLine3_of_large_id vt n rest hn)
      R.entries before bad after hsplit
      (fun a ha => by
        have h1 := putUInt_no_newline a.2.id
        have h2 := (hrep a ha).1.2.2
        have h3 := (hrep a ha).2.1.2.2
        have h4 := (hrep a ha).2.2.2.2
        simp [h1, h2, h3, h4])
      (fun a ha => by
        have hmem : a ∈ R.entries := by
          rw [hsplit]
          exact List.mem_append_left _ ha
        exact parseLine3_of_written vt a.2.id a.2.x a.2.y a.2.z (hlt a ha) (hrep a hmem).1
          (hrep a hmem).2.1 (hrep a hmem).2.2)
      hbad UnorderedMap.empty
    have hkeys : ∀ j ∈ keysOf (before.foldl
        (fun c a => (RefPointSet3.insert c (RefPoint3.make a.2.id a.2.x a.2.y a.2.z)).1)
        (UnorderedMap.empty : RefPointSet3 S)).entries, j < 2 ^ 31 := by
      intro j hj
      obtain ⟨a, ha, haj⟩ := insertAll_keys_of_map (fun p : RefPoint3 S => p.id)
        (fun a : Nat × RefPoint3 S => RefPoint3.make a.2.id a.2.x a.2.y a.2.z) before j hj
      rw [← haj]
      exact hlt a ha
    refine ⟨_, _, rfl, ?_, hkeys, hperm _ _ hbig hkeys⟩
    rw [read_text_ref3]
    exact congrArg some hrun

/-- C26, at a concrete input: the registry `{1: (5, 6), 3000000000: (1, 2), 2: (7, 8)}`. Its
text form is read back up to the record with id 3000000000, where the read ends with
`std::out_of_range`, so the registry read has no id of `2 ^ 31` or more. -/
theorem large_ids_fail_text_round_trip_witness :
    ((∀ e ∈ regMixed.entries, Representable intValueType e.2.x ∧
        Representable intValueType e.2.y) ∧
      ∃ k ∈ keysOf regMixed.entries, 2 ^ 31 ≤ k) ∧
    ∃ text r, RefPointSet2.write intValueType sampleRefLayout2 regMixed true false =
        Except.ok text ∧
      RefPointSet2.read intValueType sampleRefLayout2 UnorderedMap.empty (some text) false =
        some ⟨r, some Exn.out_of_range⟩ ∧
      (∀ j ∈ keysOf r.entries, j < 2 ^ 31) ∧
      ¬ r.entries.Perm regMixed.entries :=
  ⟨⟨by decide, 3000000000, by decide, by decide⟩,
    (large_ids_fail_text_round_trip intValueType).2.2.1 sampleRefLayout2 regMixed
      (by decide) ⟨3000000000, by decide, by decide⟩⟩

/-- C29 as stated does not hold for every line with too few commas: the non-blank line `x` has
no comma, and the 2D point reader leaves it with `std::invalid_argument`, thrown by the
conversion of the first field before the step past the comma position is made; nothing steps
past the end of the line. -/
theorem line_without_comma_fails_before_step :
    "x".toList ≠ [] ∧ "x".toList.count ',' < 1 ∧
    PointSet2.parseLine intValueType "x".toList = Except.error Exn.invalid_argument ∧
    PointSet2.parseLine intValueType "x".toList ≠ Except.error Exn.undefined_behaviour ∧
    PointSet2.read intValueType sampleLayout2 [] (some "x".toList) false =
      some ⟨[], some Exn.invalid_argument⟩ := by
  decide

/-- C29, amended. Field splitting and the end of the line, for the four text readers (1
separator for 2D points, 2 for 3D points and 2D registries, 3 for 3D registries). On a line
with at least as many commas as the record has separators no step past a comma leaves the
line: the parse never ends in undefined behaviour, provided `std::stod` itself does not. On a
line with fewer commas the reader never produces a record: it converts the fields before the
missing comma in order, ends with the exception of the first conversion that throws, and
steps past the end of the line exactly when all of them succeed. -/
theorem field_splitting_stays_inside_line {S : Type} (vt : ValueType S) :
    (∀ str : List Char, 1 ≤ str.count ',' →
      (∀ s, vt.stod s ≠ Except.error Exn.undefined_behaviour) →
      PointSet2.parseLine vt str ≠ Except.error Exn.undefined_behaviour) ∧
    (∀ str : List Char, 2 ≤ str.count ',' →
      (∀ s, vt.stod s ≠ Except.error Exn.undefined_behaviour) →
      PointSet3.parseLine vt str ≠ Except.error Exn.undefined_behaviour) ∧
    (∀ str : List Char, 2 ≤ str.count ',' →
      (∀ s, vt.stod s ≠ Except.error Exn.undefined_behaviour) →
      RefPointSet2.parseLine vt str ≠ Except.error Exn.undefined_behaviour) ∧
    (∀ str : List Char, 3 ≤ str.count ',' →
      (∀ s, vt.stod s ≠ Except.error Exn.undefined_behaviour) →
      RefPointSet3.parseLine vt str ≠ Except.error Exn.undefined_behaviour) ∧
    (∀ str : List Char, str.count ',' < 1 →
      ∀ r, PointSet2.parseLine vt str ≠ Except.ok r) ∧
    (∀ str : List Char, str.count ',' < 2 →
      ∀ r, PointSet3.parseLine vt str ≠ Except.ok r) ∧
    (∀ str : List Char, str.count ',' < 2 →
      ∀ r, RefPointSet2.parseLine vt str ≠ Except.ok r) ∧
    (∀ str : List Char, str.count ',' < 3 →
      ∀ r, RefPointSet3.parseLine vt str ≠ Except.ok r) ∧
    (∀ str : List Char, ',' ∉ str →
      PointSet2.parseLine vt str =
        match vt.stod str with
        | Except.error e => Except.error e
        | Except.ok _ => Except.error Exn.undefined_behaviour) ∧
    (∀ str : List Char, ',' ∉ str →
      PointSet3.parseLine vt str =
        match vt.stod str with
        | Except.error e => Except.error e
        | Except.ok _ => Except.error Exn.undefined_behaviour) ∧
    (∀ f1 f2 : List Char, ',' ∉ f1 → ',' ∉ f2 →
      PointSet3.parseLine vt (f1 ++ ',' :: f2) =
        match vt.stod f1 with
        | Except.error e => Except.error e
        | Except.ok _ =>
          match vt.stod f2 with
          | Except.error e => Except.error e
          | Except.ok _ => Except.error Exn.undefined_behaviour) ∧
    (∀ str : List Char, ',' ∉ str →
      RefPointSet2.parseLine vt str =
        match stoi str with
        | Except.error e => Except.error e
        | Except.ok _ => Except.error Exn.undefined_behaviour) ∧
    (∀ f1 f2 : List Char, ',' ∉ f1 → ',' ∉ f2 →
      RefPointSet2.parseLine vt (f1 ++ ',' :: f2) =
        match stoi f1 with
        | Except.error e => Except.error e
        | Except.ok _ =>
          match vt.stod f2 with
          | Except.error e => Except.error e
          | Except.ok _ => Except.error Exn.undefined_behaviour) ∧
    (∀ str : List Char, ',' ∉ str →
      RefPointSet3.parseLine vt str =
        match stoi str with
        | Except.error e => Except.error e
        | Except.ok _ => Except.error Exn.undefined_behaviour) ∧
    (∀ f1 f2 : List Char, ',' ∉ f1 → ',' ∉ f2 →
      RefPointSet3.parseLine vt (f1 ++ ',' :: f2) =
        match stoi f1 with
        | Except.error e => Except.error e
        | Except.ok _ =>
          match vt.stod f2 with
          | Except.error e => Except.error e
          | Except.ok _ => Except.error Exn.undefined_behaviour) ∧
    (∀ f1 f2 f3 : List Char, ',' ∉ f1 → ',' ∉ f2 → ',' ∉ f3 →
      RefPointSet3.parseLine vt (f1 ++ ',' :: (f2 ++ ',' :: f3)) =
        match stoi f1 with
        | Except.error e => Except.error e
        | Except.ok _ =>
          match vt.stod f2 with
          | Except.error e => Except.error e
          | Except.ok _ =>
            match vt.stod f3 with
            | Except.error e => Except.error e
            | Except.ok _ => Except.error Exn.undefined_behaviour) := by
  refine ⟨?_, ?_, ?_, ?_, ?_, ?_, ?_, ?_, ?_, ?_, ?_, ?_, ?_, ?_, ?_, ?_⟩
  · intro str hc hstod
    obtain ⟨f1, r1, rfl, h1, c1⟩ := comma_fields str (by omega)
    rw [parseLine_fields_point2 vt f1 r1 h1]
    intro hbad
    repeat' (split at hbad)
    all_goals first
      | (cases hbad; done)
      | (cases hbad; exact absurd (by assumption) (hstod _))
  · intro str hc hstod
    obtain ⟨f1, r1, rfl, h1, c1⟩ := comma_fields str (by omega)
    obtain ⟨f2, r2, rfl, h2, c2⟩ := comma_fields r1 (by omega)
    rw [parseLine_fields_point3 vt f1 f2 r2 h1 h2]
    intro hbad
    repeat' (split at hbad)
    all_goals first
      | (cases hbad; done)
      | (cases hbad; exact absurd (by assumption) (hstod _))
  · intro str hc hstod
    obtain ⟨f1, r1, rfl, h1, c1⟩ := comma_fields str (by omega)
    obtain ⟨f2, r2, rfl, h2, c2⟩ := comma_fields r1 (by omega)
    rw [parseLine_fields_ref2 vt f1 f2 r2 h1 h2]
    intro hbad
    repeat' (split at hbad)
    all_goals first
      | (cases hbad; done)
      | (cases hbad; exact absurd (by assumption) (hstod _))
      | (cases hbad; exact absurd (by assumption) (stoi_ne_undefined _))
  · intro str hc hstod
    obtain ⟨f1, r1, rfl, h1, c1⟩ := comma_fields str (by omega)
    obtain ⟨f2, r2, rfl, h2, c2⟩ := comma_fields r1 (by omega)
    obtain ⟨f3, r3, rfl, h3, c3⟩ := comma_fields r2 (by omega)
    rw [parseLine_fields_ref3 vt f1 f2 f3 r3 h1 h2 h3]
    intro hbad
    repeat' (split at hbad)
    all_goals first
      | (cases hbad; done)
      | (cases hbad; exact absurd (by assumption) (hstod _))
      | (cases hbad; exact absurd (by assumption) (stoi_ne_undefined _))
  · intro str hc r hok
    by_cases hz0 : str.count ',' = 0
    · have h1 : ',' ∉ str := List.count_eq_zero.1 hz0
      rw [parseLine_point2_no_comma vt str h1] at hok
      repeat' (split at hok)
      all_goals cases hok
    · obtain ⟨f1, r1, rfl, h1, c1⟩ := comma_fields str (by omega)
      omega
  · intro str hc r hok
    by_cases hz0 : str.count ',' = 0
    · have h1 : ',' ∉ str := List.count_eq_zero.1 hz0
      rw [parseLine_point3_no_comma vt str h1] at hok
      repeat' (split at hok)
      all_goals cases hok
    · obtain ⟨f1, r1, rfl, h1, c1⟩ := comma_fields str (by omega)
      by_cases hz1 : r1.count ',' = 0
      · have h2 : ',' ∉ r1 := List.count_eq_zero.1 hz1
        rw [parseLine_point3_one_comma vt f1 r1 h1 h2] at hok
        repeat' (split at hok)
        all_goals cases hok
      · obtain ⟨f2, r2, rfl, h2, c2⟩ := comma_fields r1 (by omega)
        omega
  · intro str hc r hok
    by_cases hz0 : str.count ',' = 0
    · have h1 : ',' ∉ str := List.count_eq_zero.1 hz0
      rw [parseLine_ref2_no_comma vt str h1] at hok
      repeat' (split at hok)
      all_goals cases hok
    · obtain ⟨f1, r1, rfl, h1, c1⟩ := comma_fields str (by omega)
      by_cases hz1 : r1.count ',' = 0
      · have h2 : ',' ∉ r1 := List.count_eq_zero.1 hz1
        rw [parseLine_ref2_one_comma vt f1 r1 h1 h2] at hok
        repeat' (split at hok)
        all_goals cases hok
      · obtain ⟨f2, r2, rfl, h2, c2⟩ := comma_fields r1 (by omega)
        omega
  · intro str hc r hok
    by_cases hz0 : str.count ',' = 0
    · have h1 : ',' ∉ str := List.count_eq_zero.1 hz0
      rw [parseLine_ref3_no_comma vt str h1] at hok
      repeat' (split at hok)
      all_goals cases hok
    · obtain ⟨f1, r1, rfl, h1, c1⟩ := comma_fields str (by omega)
      by_cases hz1 : r1.count ',' = 0
      · have h2 : ',' ∉ r1 := List.count_eq_zero.1 hz1
        rw [parseLine_ref3_one_comma vt f1 r1 h1 h2] at hok
        repeat' (split at hok)
        all_goals cases hok
      · obtain ⟨f2, r2, rfl, h2, c2⟩ := comma_fields r1 (by omega)
        by_cases hz2 : r2.count ',' = 0
        · have h3 : ',' ∉ r2 := List.count_eq_zero.1 hz2
          rw [parseLine_ref3_two_commas vt f1 f2 r2 h1 h2 h3] at hok
          repeat' (split at hok)
          all_goals cases hok
        · obtain ⟨f3, r3, rfl, h3, c3⟩ := comma_fields r2 (by omega)
          omega
  · intro str h1
    exact parseLine_point2_no_comma vt str h1
  · intro str h1
    exact parseLine_point3_no_comma vt str h1
  · intro f1 f2 h1 h2
    exact parseLine_point3_one_comma vt f1 f2 h1 h2
  · intro str h1
    exact parseLine_ref2_no_comma vt str h1
  · intro f1 f2 h1 h2
    exact parseLine_ref2_one_comma vt f1 f2 h1 h2
  · intro str h1
    exact parseLine_ref3_no_comma vt str h1
  · intro f1 f2 h1 h2
    exact parseLine_ref3_one_comma vt f1 f2 h1 h2
  · intro f1 f2 f3 h1 h2 h3
    exact parseLine_ref3_two_commas vt f1 f2 f3 h1 h2 h3

/-- C29, amended, at concrete inputs: the line `1,2` has the one comma the 2D point reader
needs and is parsed without undefined behaviour; the line `5` has none, its only field
converts, and the reader steps past the end of the line. -/
theorem field_splitting_stays_inside_line_witness :
    (1 ≤ "1,2".toList.count ',' ∧
      ∀ s, intValueType.stod s ≠ Except.error Exn.undefined_behaviour) ∧
    PointSet2.parseLine intValueType "1,2".toList ≠ Except.error Exn.undefined_behaviour ∧
    ',' ∉ "5".toList ∧
    PointSet2.parseLine intValueType "5".toList =
      (match intValueType.stod "5".toList with
      | Except.error e => Except.error e
      | Except.ok _ => Except.error Exn.undefined_behaviour) ∧
    PointSet2.parseLine intValueType "5".toList = Except.error Exn.undefined_behaviour :=
  ⟨⟨by decide, intValueType_stod_ne_undefined⟩,
    (field_splitting_stays_inside_line intValueType).1 "1,2".toList (by decide)
      intValueType_stod_ne_undefined,
    by decide,
    (field_splitting_stays_inside_line intValueType).2.2.2.2.2.2.2.2.1 "5".toList (by decide),
    by decide⟩

end ns_geo
